import Mathlib

/-!
# Pocket consensus: leader-side HotStuff handlers

A shallow embedding of `consensus/helpers.go` and `consensus/hotstuff_leader.go`.

* Protobuf pointers become `Option`; slices become `List`; byte slices become `List Nat`.
* `uint64` heights and rounds are natural numbers (they are only compared and copied).
* The quorum test is computed in IEEE-754 binary64, as in the source; the arithmetic is
  modelled exactly on integers (`Float64`), with round-to-nearest, ties-to-even.
* Code that lives outside the two files (block validation, the utility context, message
  constructors, cryptography) is a field of `Collaborators`.
* Calls that leave the consensus module (telemetry, pacemaker, utility layer, transport) are
  recorded, in program order, in a trace of `Effect`s. A handler returns the module as the
  handler itself wrote it, together with that trace. Log lines are not recorded.

Three smaller parts follow the consensus engine: the request counter of `p2p/node.go`
(`requestMap.Next`, a `uint32` reduced modulo `2^32`), `getApplicationsUpdatedAtHeight` of
`persistence/application.go` (a slice of pointers is a list of options, `none` being nil), and
`SetParam` of `persistence/schema/gov.go` (the query text is a `String`, a panic is `none`).
-/

namespace Pocket

/-! ## Binary64 arithmetic used by the quorum test -/

/-- Bits by which `k` exceeds a 53-bit significand: the least `s ≤ fuel` such that
`k / 2^s < 2^53`. -/
def excessBits : Nat → Nat → Nat
  | 0, _ => 0
  | fuel + 1, k => if k < 2 ^ 53 then 0 else excessBits fuel (k / 2) + 1

/-- A finite non-negative binary64 value `mant * 2^exp` (the exponent range of binary64 is
not reached by the values the quorum test computes). -/
structure Float64 where
  mant : Nat
  exp : Int
  deriving DecidableEq, Repr

/-- Round the exact value `k * 2^e` to 53 significant bits, to nearest, ties to even. -/
def Float64.round (k : Nat) (e : Int) : Float64 :=
  let s := excessBits k k
  let q := k / 2 ^ s
  let r := k % 2 ^ s
  if 2 * r < 2 ^ s then ⟨q, e + s⟩
  else if 2 * r = 2 ^ s ∧ q % 2 = 0 then ⟨q, e + s⟩
  else ⟨q + 1, e + s⟩

/-- Conversion `float64(n)` of a non-negative Go `int`. -/
def float64 (n : Nat) : Float64 := Float64.round n 0

/-- Product of two binary64 values: the exact product, rounded once. -/
def Float64.mul (a b : Float64) : Float64 :=
  Float64.round (a.mant * b.mant) (a.exp + b.exp)

/-- Quotient of two binary64 values (non-zero divisor): the exact quotient is truncated to
at least 55 bits, a sticky bit records a non-zero remainder, and the result is rounded once. -/
def Float64.div (a b : Float64) : Float64 :=
  let t := 108 + excessBits b.mant b.mant
  let q := a.mant * 2 ^ t / b.mant
  let sticky := if a.mant * 2 ^ t % b.mant = 0 then 0 else 1
  Float64.round (2 * q + sticky) (a.exp - b.exp - t - 1)

/-- Comparison `a > b` of two binary64 values, on a common exponent. -/
def Float64.gt (a b : Float64) : Bool :=
  let e := min a.exp b.exp
  decide (b.mant * 2 ^ (b.exp - e).toNat < a.mant * 2 ^ (a.exp - e).toNat)

/-- The constant `ByzantineThreshold = float64(2) / float64(3)` of `helpers.go`. -/
def ByzantineThreshold : Float64 := (float64 2).div (float64 3)

/-- The value of `Float64.round k 0` as a natural number. -/
def roundValue (k : Nat) : Nat := (Float64.round k 0).mant * 2 ^ excessBits k k

/-! ## Data model -/

/-- Modelled from the spec: the protobuf enum `HotstuffStep` is declared outside the sources;
the spec lists its five ordered steps. -/
inductive HotstuffStep
  | NewRound | Prepare | PreCommit | Commit | Decide
  deriving DecidableEq, Repr

/-- Modelled from the spec: the protobuf enum `HotstuffMessageType` is declared outside the
sources; the spec lists its two values. -/
inductive HotstuffMessageType
  | Propose | Vote
  deriving DecidableEq, Repr

/-- The array `HotstuffSteps` of `helpers.go`. -/
def HotstuffSteps : List HotstuffStep :=
  [.NewRound, .Prepare, .PreCommit, .Commit, .Decide]

/-- Numeric order of the steps. -/
def HotstuffStep.toNat : HotstuffStep → Nat
  | .NewRound => 1 | .Prepare => 2 | .PreCommit => 3 | .Commit => 4 | .Decide => 5

/-- Modelled from the spec: the protobuf message `BlockHeader` is declared outside the sources;
these are the header fields of the spec's data model, named as `prepareAndApplyBlock` fills
them in. -/
structure BlockHeader where
  Height : Int
  Hash : String
  NumTxs : Nat
  LastBlockHash : String
  ProposerAddress : List Nat
  QuorumCertificate : List Nat
  deriving DecidableEq, Repr

/-- Modelled from the spec: the protobuf message `Block` is declared outside the sources; a
header and the raw transactions, as `prepareAndApplyBlock` builds it. -/
structure Block where
  BlockHeader : Option BlockHeader
  Transactions : List (List Nat)
  deriving DecidableEq, Repr

/-- Modelled from the spec: the protobuf message `PartialSignature` is declared outside the
sources; the signer address and the signature bytes (`none` is a nil slice). -/
structure PartialSignature where
  Signature : Option (List Nat)
  Address : String
  deriving DecidableEq, Repr

/-- Modelled from the spec: the protobuf message `ThresholdSignature` is declared outside the
sources; the list of collected partial signatures. -/
structure ThresholdSignature where
  Signatures : List PartialSignature
  deriving DecidableEq, Repr

/-- Modelled from the spec: the protobuf message `QuorumCertificate` is declared outside the
sources; the five fields `getQuorumCertificate` fills in. -/
structure QuorumCertificate where
  Height : Nat
  Step : HotstuffStep
  Round : Nat
  Block : Option Block
  ThresholdSignature : Option ThresholdSignature
  deriving DecidableEq, Repr

/-- Modelled from the spec: the protobuf message `HotstuffMessage` is declared outside the
sources; the spec's tuple (type, height, step, round, block, justifyQC?, partialSignature?),
read in the sources through its getters. The field `Type` is named `MessageType` here. -/
structure HotstuffMessage where
  MessageType : HotstuffMessageType
  Height : Nat
  Step : HotstuffStep
  Round : Nat
  Block : Option Block
  QuorumCertificate : Option QuorumCertificate
  PartialSignature : Option PartialSignature
  deriving DecidableEq, Repr

/-- Modelled from the spec: the validator type is declared outside the sources; an address
and a public key, as the leader handlers read them. -/
structure Validator where
  Address : String
  PublicKey : String
  deriving DecidableEq, Repr

/-- Handle of the utility layer's block-building context. -/
structure UtilityContext where
  handle : Nat
  deriving DecidableEq, Repr

/-- Private key of the node (raw bytes). -/
structure PrivateKey where
  bytes : List Nat
  deriving DecidableEq, Repr

/-- Errors returned inside the consensus module, named as in the sources; `external` stands
for an error a collaborator returns. -/
inductive ConsensusError
  | ErrNilPartialSig
  | ErrNilPartialSigOrSourceNotSpecified
  | ErrMissingValidator (address : String) (nodeId : Nat)
  | ErrValidatingPartialSig (address : String) (nodeId : Nat) (msg : HotstuffMessage)
      (pubKey : String)
  | ErrByzantineThresholdCheck (n : Nat) (threshold : Float64)
  | ErrReplicaPrepareBlock
  | external (code : Nat)
  deriving DecidableEq, Repr

/-- A Go map with string keys, as an association list: the first entry of a key is its
value, and `len` counts distinct keys. -/
def mapLen {V : Type} (m : List (String × V)) : Nat := (m.map Prod.fst).dedup.length

/-- Modelled from the spec: the struct `ConsensusModule` is declared outside the sources;
these are the fields of the spec's per-node consensus state that the two files read or
write (`MaxMempoolBytes` is the value of `consCfg.GetMaxMempoolBytes()`). -/
structure ConsensusModule where
  privateKey : PrivateKey
  MaxMempoolBytes : Nat
  Height : Nat
  Round : Nat
  Step : HotstuffStep
  Block : Option Block
  HighPrepareQC : Option QuorumCertificate
  LockedQC : Option QuorumCertificate
  LeaderId : Option Nat
  NodeId : Nat
  ValAddrToIdMap : List (String × Nat)
  IdToValAddrMap : List (Nat × String)
  validatorMap : List (String × Validator)
  lastAppHash : String
  UtilityContext : UtilityContext
  logPrefix : String
  MessagePool : HotstuffStep → List HotstuffMessage

/-- One call that leaves the consensus module. -/
inductive Effect
  | EmitEvent (step : HotstuffStep)
  | CounterIncrement
  | RestartTimer
  | InterruptRound
  | NewHeight
  | RefreshUtilityContext
  | GetProposalTransactions (proposer : List Nat) (maxTxBytes : Nat)
      (lastByzValidators : List (List Nat))
  | UtilityApplyBlock (height : Int) (proposer : List Nat) (txs : List (List Nat))
      (lastByzValidators : List (List Nat))
  | ApplyBlock (block : Option Block)
  | CommitBlock (block : Option Block)
  | Broadcast (msg : HotstuffMessage)
  | Send (address : String) (msg : HotstuffMessage)
  deriving DecidableEq, Repr

/-- Code the handlers call that lives outside `helpers.go` and `hotstuff_leader.go`. -/
structure Collaborators where
  validateBlockBasic : ConsensusModule → Option Block → Except ConsensusError Unit
  refreshUtilityContext : ConsensusModule → Except ConsensusError UtilityContext
  applyBlock : ConsensusModule → Option Block → Except ConsensusError Unit
  commitBlock : ConsensusModule → Option Block → Except ConsensusError Unit
  GetProposalTransactions : UtilityContext → List Nat → Nat → List (List Nat) →
    Except ConsensusError (List (List Nat))
  ApplyBlock : UtilityContext → Int → List Nat → List (List Nat) → List (List Nat) →
    Except ConsensusError (List Nat)
  CreateProposeMessage : Nat → Nat → HotstuffStep → Option Block →
    Option QuorumCertificate → Except ConsensusError HotstuffMessage
  CreateVoteMessage : Nat → Nat → HotstuffStep → Option Block → PrivateKey →
    Except ConsensusError HotstuffMessage
  Address : PrivateKey → List Nat
  NewPublicKey : String → Except ConsensusError (List Nat)
  getSignableBytes : HotstuffMessage → Except ConsensusError (List Nat)
  Verify : List Nat → List Nat → List Nat → Bool
  ElectNextLeader : ConsensusModule → HotstuffMessage → Nat × Option ConsensusError
  DefaultLogPrefix : String

/-! ## helpers.go -/

/-- Value of key `k` in a Go map, `none` when the key is absent. -/
def mapGet {K V : Type} [DecidableEq K] (m : List (K × V)) (k : K) : Option V :=
  match m with
  | [] => none
  | (k', v) :: rest => if k' = k then some v else mapGet rest k

/-- Replace the slot of one step in the message pool. -/
def setPool (pool : HotstuffStep → List HotstuffMessage) (step : HotstuffStep)
    (msgs : List HotstuffMessage) : HotstuffStep → List HotstuffMessage :=
  fun s => if s = step then msgs else pool s

/-- The test `isOptimisticThresholdMet`: `float64(n) > ByzantineThreshold * float64(N)`. -/
def isOptimisticThresholdMet (m : ConsensusModule) (n : Nat) : Except ConsensusError Unit :=
  let numValidators := mapLen m.validatorMap
  if !((float64 n).gt (ByzantineThreshold.mul (float64 numValidators))) then
    .error (.ErrByzantineThresholdCheck n (ByzantineThreshold.mul (float64 numValidators)))
  else .ok ()

/-- The test `didReceiveEnoughMessageForStep`. -/
def didReceiveEnoughMessageForStep (m : ConsensusModule) (step : HotstuffStep) :
    Except ConsensusError Unit :=
  isOptimisticThresholdMet m (m.MessagePool step).length

/-- Body of the loop of `getQuorumCertificate`: the signature a pooled message contributes. -/
def eligibleSignature (height : Nat) (step : HotstuffStep) (round : Nat)
    (msg : HotstuffMessage) : Option PartialSignature :=
  match msg.PartialSignature with
  | none => none
  | some ps =>
    if msg.Height ≠ height ∨ msg.Step ≠ step ∨ msg.Round ≠ round then none
    else if ps.Signature = none ∨ ps.Address.length = 0 then none
    else some ps

/-- The helper `getThresholdSignature`: a copy of the partial signatures. -/
def getThresholdSignature (pss : List PartialSignature) :
    Except ConsensusError ThresholdSignature :=
  .ok ⟨pss⟩

/-- The method `getQuorumCertificate`. -/
def getQuorumCertificate (m : ConsensusModule) (height : Nat) (step : HotstuffStep)
    (round : Nat) : Except ConsensusError QuorumCertificate :=
  let pss := (m.MessagePool step).filterMap (eligibleSignature height step round)
  match isOptimisticThresholdMet m pss.length with
  | .error e => .error e
  | .ok _ =>
    match getThresholdSignature pss with
    | .error e => .error e
    | .ok thresholdSig =>
      .ok { Height := height, Step := step, Round := round, Block := m.Block,
            ThresholdSignature := some thresholdSig }

/-- One iteration of the loop of `findHighQC`. -/
def findHighQCStep (qc : Option QuorumCertificate) (msg : HotstuffMessage) :
    Option QuorumCertificate :=
  match msg.QuorumCertificate with
  | none => qc
  | some c =>
    match qc with
    | none => some c
    | some q => if c.Height > q.Height then some c else some q

/-- The method `findHighQC`. -/
def findHighQC (msgs : List HotstuffMessage) : Option QuorumCertificate :=
  msgs.foldl findHighQCStep none

/-- The helper `isSignatureValid`. -/
def isSignatureValid (C : Collaborators) (msg : HotstuffMessage) (pubKeyString : String)
    (signature : List Nat) : Bool :=
  match C.NewPublicKey pubKeyString with
  | .error _ => false
  | .ok pubKey =>
    match C.getSignableBytes msg with
    | .error _ => false
    | .ok bytesToVerify => C.Verify pubKey bytesToVerify signature

/-- The method `isLeader`. -/
def isLeader (m : ConsensusModule) : Bool :=
  match m.LeaderId with
  | none => false
  | some leaderId => decide (leaderId = m.NodeId)

/-- The method `isReplica`. -/
def isReplica (m : ConsensusModule) : Bool := !isLeader m

/-- The method `clearMessagesPool`. -/
def clearMessagesPool (m : ConsensusModule) : ConsensusModule :=
  { m with MessagePool := HotstuffSteps.foldl (fun pool step => setPool pool step []) m.MessagePool }

/-- The method `clearLeader`. -/
def clearLeader (C : Collaborators) (m : ConsensusModule) : ConsensusModule :=
  { m with logPrefix := C.DefaultLogPrefix, LeaderId := none }

/-- The method `electNextLeader`: the module afterwards and the error returned (`none` is a
nil error). The election collaborator returns a validator id together with an error. -/
def electNextLeader (C : Collaborators) (m : ConsensusModule) (message : HotstuffMessage) :
    ConsensusModule × Option ConsensusError :=
  match C.ElectNextLeader m message with
  | (leaderId, err) =>
    if err ≠ none ∨ leaderId = 0 then (clearLeader C m, err)
    else
      let m1 := { m with LeaderId := some leaderId }
      if m1.LeaderId ≠ none ∧ m1.LeaderId = some m1.NodeId then
        ({ m1 with logPrefix := "LEADER" }, none)
      else ({ m1 with logPrefix := "REPLICA" }, none)

/-- The method `sendToNode`: nothing is sent while there is no leader. -/
def sendToNode (m : ConsensusModule) (msg : HotstuffMessage) : List Effect :=
  match m.LeaderId with
  | none => []
  | some leaderId => [.Send ((mapGet m.IdToValAddrMap leaderId).getD "") msg]

/-- The method `broadcastToNodes`. -/
def broadcastToNodes (_m : ConsensusModule) (msg : HotstuffMessage) : List Effect :=
  [.Broadcast msg]

/-! ## hotstuff_leader.go -/

/-- Size in bytes of the map value `m.MessagePool` as `unsafe.Sizeof` reports it: one machine
word on a 64-bit target, whatever the map holds. -/
def sizeofMessagePool : Nat := 8

/-- The method `validatePartialSignature`. -/
def validatePartialSignature (C : Collaborators) (m : ConsensusModule)
    (msg : HotstuffMessage) : Except ConsensusError Unit :=
  if msg.Step = .NewRound then .ok ()
  else if msg.MessageType = .Propose then .ok ()
  else
    match msg.PartialSignature with
    | none => .error .ErrNilPartialSig
    | some ps =>
      if ps.Signature = none ∨ ps.Address.length = 0 then
        .error .ErrNilPartialSigOrSourceNotSpecified
      else
        let address := ps.Address
        match mapGet m.validatorMap address with
        | none =>
          .error (.ErrMissingValidator address ((mapGet m.ValAddrToIdMap address).getD 0))
        | some validator =>
          let pubKey := validator.PublicKey
          if isSignatureValid C msg pubKey (ps.Signature.getD []) then .ok ()
          else
            .error (.ErrValidatingPartialSig address
              ((mapGet m.ValAddrToIdMap address).getD 0) msg pubKey)

/-- The method `tempIndexHotstuffMessage`. -/
def tempIndexHotstuffMessage (m : ConsensusModule) (msg : HotstuffMessage) :
    ConsensusModule :=
  if m.MaxMempoolBytes < sizeofMessagePool then m
  else
    let step := msg.Step
    { m with MessagePool := setPool m.MessagePool step (m.MessagePool step ++ [msg]) }

/-- The method `anteHandle`, run before every leader handler. -/
def anteHandle (C : Collaborators) (m : ConsensusModule) (msg : HotstuffMessage) :
    Except ConsensusError ConsensusModule :=
  match C.validateBlockBasic m msg.Block with
  | .error e => .error e
  | .ok _ =>
    match validatePartialSignature C m msg with
    | .error e => .error e
    | .ok _ => .ok (tempIndexHotstuffMessage m msg)

/-- Conversion `int64(h)` of a `uint64`. -/
def int64OfUint64 (h : Nat) : Int :=
  if h % 2 ^ 64 < 2 ^ 63 then ((h % 2 ^ 64 : Nat) : Int)
  else ((h % 2 ^ 64 : Nat) : Int) - 2 ^ 64

/-- One lower-case hexadecimal digit. -/
def hexDigit (d : Nat) : Char := "0123456789abcdef".toList.getD d '0'

/-- The library function `hex.EncodeToString`. -/
def hexEncodeToString (bytes : List Nat) : String :=
  String.mk (bytes.flatMap (fun b => [hexDigit (b / 16 % 16), hexDigit (b % 16)]))

/-- The method `prepareAndApplyBlock`, with the utility calls it made. -/
def prepareAndApplyBlock (C : Collaborators) (m : ConsensusModule) :
    Except ConsensusError Block × List Effect :=
  if isReplica m then (.error .ErrReplicaPrepareBlock, [])
  else
    let maxTxBytes := 90000
    let lastByzValidators : List (List Nat) := []
    let e1 := Effect.GetProposalTransactions (C.Address m.privateKey) maxTxBytes
      lastByzValidators
    match C.GetProposalTransactions m.UtilityContext (C.Address m.privateKey) maxTxBytes
        lastByzValidators with
    | .error e => (.error e, [e1])
    | .ok txs =>
      let e2 := Effect.UtilityApplyBlock (int64OfUint64 m.Height) (C.Address m.privateKey) txs
        lastByzValidators
      match C.ApplyBlock m.UtilityContext (int64OfUint64 m.Height) (C.Address m.privateKey)
          txs lastByzValidators with
      | .error e => (.error e, [e1, e2])
      | .ok appHash =>
        let blockHeader : BlockHeader :=
          { Height := int64OfUint64 m.Height
            Hash := hexEncodeToString appHash
            NumTxs := txs.length % 2 ^ 32
            LastBlockHash := m.lastAppHash
            ProposerAddress := C.Address m.privateKey
            QuorumCertificate := "HACK: Temporary placeholder".toList.map Char.toNat }
        (.ok { BlockHeader := some blockHeader, Transactions := txs }, [e1, e2])

/-- Tail shared by the NewRound, Prepare and PreCommit handlers: build and broadcast the
proposal for the step `next` (interrupting the round when it cannot be built), then vote for
it as a replica. -/
def proposeAndVote (C : Collaborators) (m : ConsensusModule) (next : HotstuffStep)
    (qc : Option QuorumCertificate) : List Effect :=
  match C.CreateProposeMessage m.Height m.Round next m.Block qc with
  | .error _ => [.InterruptRound]
  | .ok proposeMessage =>
    broadcastToNodes m proposeMessage ++
      (match C.CreateVoteMessage m.Height m.Round next m.Block m.privateKey with
       | .error _ => []
       | .ok voteMessage => sendToNode m voteMessage)

/-- Whether the leader prepares a new block: the test on `highPrepareQC` in
`HandleNewRoundMessage`. -/
def highPrepareQCNotApplicable (m : ConsensusModule)
    (highPrepareQC : Option QuorumCertificate) : Bool :=
  match highPrepareQC with
  | none => true
  | some qc => decide (qc.Height < m.Height) || decide (qc.Round < m.Round)

/-- Body of `HandleNewRoundMessage` between the telemetry event and the deferred timer. -/
def handleNewRoundBody (C : Collaborators) (m : ConsensusModule) (msg : HotstuffMessage) :
    ConsensusModule × List Effect :=
  match anteHandle C m msg with
  | .error _ => (m, [])
  | .ok m1 =>
    match didReceiveEnoughMessageForStep m1 .NewRound with
    | .error _ => (m1, [])
    | .ok _ =>
      match C.refreshUtilityContext m1 with
      | .error _ => (m1, [.RefreshUtilityContext])
      | .ok ctx =>
        let m2 := { m1 with UtilityContext := ctx }
        let highPrepareQC := findHighQC (m2.MessagePool .NewRound)
        if highPrepareQCNotApplicable m2 highPrepareQC then
          match prepareAndApplyBlock C m2 with
          | (.error _, effs) => (m2, [.RefreshUtilityContext] ++ effs ++ [.InterruptRound])
          | (.ok block, effs) =>
            let m3 := { m2 with Block := some block, Step := .Prepare,
                                MessagePool := setPool m2.MessagePool .NewRound [] }
            (m3, [.RefreshUtilityContext] ++ effs ++ proposeAndVote C m3 .Prepare highPrepareQC)
        else
          let block := (highPrepareQC.map (fun qc => qc.Block)).join
          match C.applyBlock m2 block with
          | .error _ =>
            (m2, [.RefreshUtilityContext, .ApplyBlock block, .InterruptRound])
          | .ok _ =>
            let m3 := { m2 with Block := block, Step := .Prepare,
                                MessagePool := setPool m2.MessagePool .NewRound [] }
            (m3, [.RefreshUtilityContext, .ApplyBlock block] ++
              proposeAndVote C m3 .Prepare highPrepareQC)

/-- The handler `HandleNewRoundMessage`. -/
def HandleNewRoundMessage (C : Collaborators) (m : ConsensusModule) (msg : HotstuffMessage) :
    ConsensusModule × List Effect :=
  let r := handleNewRoundBody C m msg
  (r.1, [.EmitEvent msg.Step] ++ r.2 ++ [.RestartTimer])

/-- Body of `HandlePrepareMessage` between the telemetry event and the deferred timer. -/
def handlePrepareBody (C : Collaborators) (m : ConsensusModule) (msg : HotstuffMessage) :
    ConsensusModule × List Effect :=
  match anteHandle C m msg with
  | .error _ => (m, [])
  | .ok m1 =>
    match didReceiveEnoughMessageForStep m1 .Prepare with
    | .error _ => (m1, [])
    | .ok _ =>
      match getQuorumCertificate m1 m1.Height .Prepare m1.Round with
      | .error _ => (m1, [])
      | .ok prepareQC =>
        let m2 := { m1 with Step := .PreCommit, HighPrepareQC := some prepareQC,
                            MessagePool := setPool m1.MessagePool .Prepare [] }
        (m2, proposeAndVote C m2 .PreCommit (some prepareQC))

/-- The handler `HandlePrepareMessage`. -/
def HandlePrepareMessage (C : Collaborators) (m : ConsensusModule) (msg : HotstuffMessage) :
    ConsensusModule × List Effect :=
  let r := handlePrepareBody C m msg
  (r.1, [.EmitEvent msg.Step] ++ r.2 ++ [.RestartTimer])

/-- Body of `HandlePrecommitMessage` between the telemetry event and the deferred timer. -/
def handlePrecommitBody (C : Collaborators) (m : ConsensusModule) (msg : HotstuffMessage) :
    ConsensusModule × List Effect :=
  match anteHandle C m msg with
  | .error _ => (m, [])
  | .ok m1 =>
    match didReceiveEnoughMessageForStep m1 .PreCommit with
    | .error _ => (m1, [])
    | .ok _ =>
      match getQuorumCertificate m1 m1.Height .PreCommit m1.Round with
      | .error _ => (m1, [])
      | .ok preCommitQC =>
        let m2 := { m1 with Step := .Commit, LockedQC := some preCommitQC,
                            MessagePool := setPool m1.MessagePool .PreCommit [] }
        (m2, proposeAndVote C m2 .Commit (some preCommitQC))

/-- The handler `HandlePrecommitMessage`. -/
def HandlePrecommitMessage (C : Collaborators) (m : ConsensusModule) (msg : HotstuffMessage) :
    ConsensusModule × List Effect :=
  let r := handlePrecommitBody C m msg
  (r.1, [.EmitEvent msg.Step] ++ r.2 ++ [.RestartTimer])

/-- Body of `HandleCommitMessage` between the telemetry event and the deferred timer. -/
def handleCommitBody (C : Collaborators) (m : ConsensusModule) (msg : HotstuffMessage) :
    ConsensusModule × List Effect :=
  match anteHandle C m msg with
  | .error _ => (m, [])
  | .ok m1 =>
    match didReceiveEnoughMessageForStep m1 .Commit with
    | .error _ => (m1, [])
    | .ok _ =>
      match getQuorumCertificate m1 m1.Height .Commit m1.Round with
      | .error _ => (m1, [])
      | .ok commitQC =>
        let m2 := { m1 with Step := .Decide,
                            MessagePool := setPool m1.MessagePool .Commit [] }
        match C.CreateProposeMessage m2.Height m2.Round .Decide m2.Block (some commitQC) with
        | .error _ => (m2, [.InterruptRound])
        | .ok decideProposeMessage =>
          match C.commitBlock m2 m2.Block with
          | .error _ =>
            (m2, broadcastToNodes m2 decideProposeMessage ++
              [.CommitBlock m2.Block, .InterruptRound])
          | .ok _ =>
            (m2, broadcastToNodes m2 decideProposeMessage ++
              [.CommitBlock m2.Block, .NewHeight, .CounterIncrement])

/-- The handler `HandleCommitMessage`. -/
def HandleCommitMessage (C : Collaborators) (m : ConsensusModule) (msg : HotstuffMessage) :
    ConsensusModule × List Effect :=
  let r := handleCommitBody C m msg
  (r.1, [.EmitEvent msg.Step] ++ r.2 ++ [.RestartTimer])

/-- The handler `HandleDecideMessage`. -/
def HandleDecideMessage (C : Collaborators) (m : ConsensusModule) (msg : HotstuffMessage) :
    ConsensusModule × List Effect :=
  match anteHandle C m msg with
  | .error _ => (m, [.EmitEvent msg.Step, .RestartTimer])
  | .ok m1 => (m1, [.EmitEvent msg.Step, .RestartTimer])

/-! ## Concrete nodes used to evaluate the handlers -/

/-- A validator map with `n` entries, keyed `v`, `vv`, `vvv`, ... -/
@[irreducible]
def validatorsOfSize (n : Nat) : List (String × Validator) :=
  (List.range n).map (fun i =>
    (String.mk (List.replicate (i + 1) 'v'), ⟨String.mk (List.replicate (i + 1) 'v'), "pk"⟩))

/-- A node at height `height` and round `round`, elected leader, with an empty pool. -/
def leaderNode (validators : List (String × Validator)) (height round : Nat) :
    ConsensusModule :=
  { privateKey := ⟨[1]⟩
    MaxMempoolBytes := 500000000
    Height := height
    Round := round
    Step := .NewRound
    Block := none
    HighPrepareQC := none
    LockedQC := none
    LeaderId := some 1
    NodeId := 1
    ValAddrToIdMap := [("v", 1), ("vv", 2), ("vvv", 3), ("vvvv", 4)]
    IdToValAddrMap := [(1, "v"), (2, "vv"), (3, "vvv"), (4, "vvvv")]
    validatorMap := validators
    lastAppHash := ""
    UtilityContext := ⟨0⟩
    logPrefix := "LEADER"
    MessagePool := fun _ => [] }

/-- The four validators of the spec's scenarios. -/
def fourValidators : List (String × Validator) :=
  [("v", ⟨"v", "pk"⟩), ("vv", ⟨"vv", "pk"⟩), ("vvv", ⟨"vvv", "pk"⟩), ("vvvv", ⟨"vvvv", "pk"⟩)]

/-- Collaborators of the concrete scenarios: every block passes the basic validation, the
utility layer always succeeds, and a signature verifies when it is the byte `7`. -/
def scenarioCollaborators : Collaborators :=
  { validateBlockBasic := fun _ _ => .ok ()
    refreshUtilityContext := fun m => .ok ⟨m.UtilityContext.handle + 1⟩
    applyBlock := fun _ _ => .ok ()
    commitBlock := fun _ _ => .ok ()
    GetProposalTransactions := fun _ _ _ _ => .ok [[1, 2, 3]]
    ApplyBlock := fun _ _ _ _ _ => .ok [171, 205]
    CreateProposeMessage := fun height round step block qc =>
      .ok ⟨.Propose, height, step, round, block, qc, none⟩
    CreateVoteMessage := fun height round step block _ =>
      .ok ⟨.Vote, height, step, round, block, none, some ⟨some [7], "v"⟩⟩
    Address := fun key => key.bytes
    NewPublicKey := fun s => .ok (s.toList.map Char.toNat)
    getSignableBytes := fun _ => .ok []
    Verify := fun _ _ signature => decide (signature = [7])
    ElectNextLeader := fun m _ => ((m.Height + m.Round) % 4 + 1, none)
    DefaultLogPrefix := "NODE" }

/-- The block `X` of the scenarios. -/
def blockX : Block :=
  { BlockHeader := some ⟨10, "aa", 1, "", [2], []⟩, Transactions := [[9]] }

/-- A signed vote of validator `vv` for `step`. -/
def voteOf (step : HotstuffStep) (height round : Nat) : HotstuffMessage :=
  ⟨.Vote, height, step, round, some blockX, none, some ⟨some [7], "vv"⟩⟩

/-- The message `anteHandle` has processed `k` times in a row. -/
def anteHandleTimes (C : Collaborators) (msg : HotstuffMessage) :
    Nat → ConsensusModule → Except ConsensusError ConsensusModule
  | 0, m => .ok m
  | k + 1, m =>
    match anteHandle C m msg with
    | .error e => .error e
    | .ok m1 => anteHandleTimes C msg k m1

/-- Number of pairwise distinct signer addresses in the threshold signature of a certificate. -/
def distinctSigners (qc : QuorumCertificate) : Nat :=
  match qc.ThresholdSignature with
  | none => 0
  | some ts => (ts.Signatures.map (fun ps => ps.Address)).dedup.length

/-- Number of partial signatures in the threshold signature of a certificate. -/
def signatureCount (qc : QuorumCertificate) : Nat :=
  match qc.ThresholdSignature with
  | none => 0
  | some ts => ts.Signatures.length

/-- A Propose message for Prepare that carries no partial signature. -/
def unsignedProposal : HotstuffMessage :=
  ⟨.Propose, 1, .Prepare, 0, some blockX, none, none⟩

/-- A NewRound vote carrying the certificate `qc`. -/
def newRoundVote (height round : Nat) (qc : Option QuorumCertificate) : HotstuffMessage :=
  ⟨.Vote, height, .NewRound, round, none, qc, none⟩

/-- A Prepare certificate for block `X` formed at the given height and round. -/
def prepareQCOfX (height round : Nat) : QuorumCertificate :=
  ⟨height, .Prepare, round, some blockX,
    some ⟨[⟨some [7], "v"⟩, ⟨some [7], "vv"⟩, ⟨some [7], "vvv"⟩]⟩⟩

/-- A leader with four validators whose NewRound pool already holds two votes carrying `qc`. -/
def newRoundLeader (height round : Nat) (qc : Option QuorumCertificate) : ConsensusModule :=
  { leaderNode fourValidators height round with
    MessagePool := setPool (fun _ => []) .NewRound
      [newRoundVote height round qc, newRoundVote height round qc] }

/-- The block the scenario's utility layer produces at `height`. -/
def freshBlock (height : Int) : Block :=
  { BlockHeader := some
      { Height := height, Hash := "abcd", NumTxs := 1, LastBlockHash := "",
        ProposerAddress := [1],
        QuorumCertificate := "HACK: Temporary placeholder".toList.map Char.toNat }
    Transactions := [[1, 2, 3]] }

/-- A signed vote for `step` of the validator with address `address`. -/
def signedVote (address : String) (step : HotstuffStep) (height round : Nat) :
    HotstuffMessage :=
  ⟨.Vote, height, step, round, some blockX, none, some ⟨some [7], address⟩⟩

/-- A leader on block `X` with four validators whose pool for `step` already holds the votes
of validators `v` and `vvv`. -/
def votingLeader (step : HotstuffStep) (height round : Nat) : ConsensusModule :=
  { leaderNode fourValidators height round with
    Step := step
    Block := some blockX
    MessagePool := setPool (fun _ => []) step
      [signedVote "v" step height round, signedVote "vvv" step height round] }

/-- The messages a trace broadcasts, in order. -/
def broadcastsOf (effs : List Effect) : List HotstuffMessage :=
  effs.filterMap (fun e => match e with | .Broadcast msg => some msg | _ => none)

/-- The five leader handlers, by the step of the message they are registered for (the table
`leaderHandlers`). -/
def leaderHandlers (step : HotstuffStep) :
    Collaborators → ConsensusModule → HotstuffMessage → ConsensusModule × List Effect :=
  match step with
  | .NewRound => HandleNewRoundMessage
  | .Prepare => HandlePrepareMessage
  | .PreCommit => HandlePrecommitMessage
  | .Commit => HandleCommitMessage
  | .Decide => HandleDecideMessage

/-- The messages a trace hands to the transport, broadcasts and sends, in order. -/
def outboundOf (effs : List Effect) : List Effect :=
  effs.filter (fun e => match e with | .Broadcast _ => true | .Send _ _ => true | _ => false)

/-- A message whose partial signature does not verify. -/
def forgedVote (step : HotstuffStep) (height round : Nat) : HotstuffMessage :=
  ⟨.Vote, height, step, round, some blockX, none, some ⟨some [8], "vv"⟩⟩

/-- The step a leader handler moves to: the step after the one it is registered for. -/
def nextStep : HotstuffStep → HotstuffStep
  | .NewRound => .Prepare
  | .Prepare => .PreCommit
  | .PreCommit => .Commit
  | .Commit => .Decide
  | .Decide => .Decide

/-- A leader that is already in the Commit step while its Prepare pool holds the votes of
validators `v` and `vvv`. -/
def lateVoteLeader : ConsensusModule :=
  { votingLeader .Prepare 1 0 with Step := .Commit }

/-- A leader whose pool for `step` holds two unsigned proposals. -/
def proposalLeader (step : HotstuffStep) : ConsensusModule :=
  { leaderNode fourValidators 1 0 with
    Step := step
    Block := some blockX
    MessagePool := setPool (fun _ => []) step
      [⟨.Propose, 1, step, 0, some blockX, none, none⟩,
       ⟨.Propose, 1, step, 0, some blockX, none, none⟩] }

/-- Collaborators of the scenarios, except that `commitBlock` fails. -/
def failingCommitCollaborators : Collaborators :=
  { scenarioCollaborators with commitBlock := fun _ _ => .error (.external 1) }

/-- Collaborators of the scenarios, except that the utility layer refuses to apply a block. -/
def failingUtilityCollaborators : Collaborators :=
  { scenarioCollaborators with
    ApplyBlock := fun _ _ _ _ _ => .error (.external 2)
    applyBlock := fun _ _ => .error (.external 3) }

/-! ## p2p/node.go: request numbers -/

/-- The struct `requestMap`: the nonces that have a pending response channel (the keys of the
map `m`) and the counter `numRequests`, a `uint32`. -/
structure requestMap where
  m : List Nat
  numRequests : Nat
  deriving DecidableEq, Repr

/-- The constructor `NewRequestMap`: an empty map, the counter at its zero value. -/
def NewRequestMap : requestMap := { m := [], numRequests := 0 }

/-- The method `Next`: increments the 32-bit counter and returns it. The result is the map
afterwards and the returned nonce. -/
def requestMap.Next (reqMap : requestMap) : requestMap × Nat :=
  let numRequests := (reqMap.numRequests + 1) % 2 ^ 32
  ({ reqMap with numRequests := numRequests }, numRequests)

/-- The method `NewRequest` without its channel: takes the next nonce and registers it. -/
def NewRequest (requests : requestMap) : requestMap × Nat :=
  let r := requests.Next
  ({ r.1 with m := r.2 :: r.1.m }, r.2)

/-- The nonces returned by `n` calls of `Next` in a row, in the order of the calls. -/
def nextNonces : Nat → requestMap → List Nat
  | 0, _ => []
  | n + 1, reqMap => reqMap.Next.2 :: nextNonces n reqMap.Next.1

/-- Where the read loop of `HandleConnection` hands a decoded packet. -/
inductive PacketRoute
  | AnswerPendingRequest | Sink
  deriving DecidableEq, Repr

/-- The test on the nonce in the read loop of `HandleConnection`: a packet with a non-zero
nonce answers a pending request, any other is pushed to the sink. -/
def routePacket (nonce : Nat) : PacketRoute :=
  if nonce ≠ 0 then .AnswerPendingRequest else .Sink

/-! ## persistence/application.go -/

/-- The record `BaseActor` of the persistence schema (declared outside the sources): the fields
`getApplicationsUpdatedAtHeight` reads. -/
structure BaseActor where
  Address : String
  PublicKey : String
  StakedTokens : String
  ActorSpecificParam : String
  OutputAddress : String
  PausedHeight : Int
  UnstakingHeight : Int
  Chains : List String
  deriving DecidableEq, Repr

/-- The protobuf enum `ActorType` (declared outside the sources); only `ActorType_App` occurs
in the sources. -/
inductive ActorType
  | ActorType_App
  | other (code : Nat)
  deriving DecidableEq, Repr

/-- The protobuf message `Actor` (declared outside the sources): the fields
`getApplicationsUpdatedAtHeight` sets. -/
structure Actor where
  ActorType : ActorType
  Address : String
  PublicKey : String
  Chains : List String
  GenericParam : String
  StakedAmount : String
  PausedHeight : Int
  UnstakingHeight : Int
  Output : String
  deriving DecidableEq, Repr

/-- The actor schemas handed to `GetActorsUpdated` (declared outside the sources); only
`ApplicationActor` occurs in `application.go`. -/
inductive ProtocolActorSchema
  | ApplicationActor
  | other (name : String)
  deriving DecidableEq, Repr

/-- The `Actor` literal built in the loop of `getApplicationsUpdatedAtHeight`. -/
def applicationOfActor (actor : BaseActor) : Actor :=
  { ActorType := .ActorType_App
    Address := actor.Address
    PublicKey := actor.PublicKey
    Chains := actor.Chains
    GenericParam := actor.ActorSpecificParam
    StakedAmount := actor.StakedTokens
    PausedHeight := actor.PausedHeight
    UnstakingHeight := actor.UnstakingHeight
    Output := actor.OutputAddress }

/-- The method `getApplicationsUpdatedAtHeight`. The query `GetActorsUpdated` lives outside the
sources and is a parameter; an error is its message. The result is a slice of pointers, `none`
being a nil pointer: `make([]*types.Actor, len(actors))` allocates `len(actors)` nil entries
and the loop appends one record per actor. -/
def getApplicationsUpdatedAtHeight
    (GetActorsUpdated : ProtocolActorSchema → Int → Except String (List BaseActor))
    (height : Int) : Except String (List (Option Actor)) :=
  match GetActorsUpdated .ApplicationActor height with
  | .error err => .error err
  | .ok actors =>
    let apps : List (Option Actor) := List.replicate actors.length none
    .ok (actors.foldl (fun apps actor => apps ++ [some (applicationOfActor actor)]) apps)

/-- An application actor as the persistence layer stores it. -/
def storedApplication : BaseActor :=
  { Address := "aa", PublicKey := "bb", StakedTokens := "1000", ActorSpecificParam := "5",
    OutputAddress := "cc", PausedHeight := -1, UnstakingHeight := -1, Chains := ["0001"] }

/-! ## persistence/schema/gov.go -/

/-- The constant `ParamsTableName`. -/
def ParamsTableName : String := "param"

/-- The slice `SQLColumnNames`: the columns of the parameter table, `height` last. -/
def SQLColumnNames : List String :=
  ["blocks_per_session", "app_minimum_stake", "app_max_chains", "app_baseline_stake_rate",
   "app_staking_adjustment", "app_unstaking_blocks", "app_minimum_pause_blocks",
   "app_max_pause_blocks", "service_node_minimum_stake", "service_node_max_chains",
   "service_node_unstaking_blocks", "service_node_minimum_pause_blocks",
   "service_node_max_pause_blocks", "service_nodes_per_session", "fisherman_minimum_stake",
   "fisherman_max_chains", "fisherman_unstaking_blocks", "fisherman_minimum_pause_blocks",
   "fisherman_max_pause_blocks", "validator_minimum_stake", "validator_unstaking_blocks",
   "validator_minimum_pause_blocks", "validator_max_pause_blocks",
   "validator_maximum_missed_blocks", "validator_max_evidence_age_in_blocks",
   "proposer_percentage_of_fees", "missed_blocks_burn_percentage", "double_sign_burn_percentage",
   "message_double_sign_fee", "message_send_fee", "message_stake_fisherman_fee",
   "message_edit_stake_fisherman_fee", "message_unstake_fisherman_fee",
   "message_pause_fisherman_fee", "message_unpause_fisherman_fee",
   "message_fisherman_pause_service_node_fee", "message_test_score_fee",
   "message_prove_test_score_fee", "message_stake_app_fee", "message_edit_stake_app_fee",
   "message_unstake_app_fee", "message_pause_app_fee", "message_unpause_app_fee",
   "message_stake_validator_fee", "message_edit_stake_validator_fee",
   "message_unstake_validator_fee", "message_pause_validator_fee",
   "message_unpause_validator_fee", "message_stake_service_node_fee",
   "message_edit_stake_service_node_fee", "message_unstake_service_node_fee",
   "message_pause_service_node_fee", "message_unpause_service_node_fee",
   "message_change_parameter_fee", "acl_owner", "blocks_per_session_owner",
   "app_minimum_stake_owner", "app_max_chains_owner", "app_baseline_stake_rate_owner",
   "app_staking_adjustment_owner", "app_unstaking_blocks_owner",
   "app_minimum_pause_blocks_owner", "app_max_paused_blocks_owner",
   "service_node_minimum_stake_owner", "service_node_max_chains_owner",
   "service_node_unstaking_blocks_owner", "service_node_minimum_pause_blocks_owner",
   "service_node_max_paused_blocks_owner", "service_nodes_per_session_owner",
   "fisherman_minimum_stake_owner", "fisherman_max_chains_owner",
   "fisherman_unstaking_blocks_owner", "fisherman_minimum_pause_blocks_owner",
   "fisherman_max_paused_blocks_owner", "validator_minimum_stake_owner",
   "validator_unstaking_blocks_owner", "validator_minimum_pause_blocks_owner",
   "validator_max_paused_blocks_owner", "validator_maximum_missed_blocks_owner",
   "validator_max_evidence_age_in_blocks_owner", "proposer_percentage_of_fees_owner",
   "missed_blocks_burn_percentage_owner", "double_sign_burn_percentage_owner",
   "message_double_sign_fee_owner", "message_send_fee_owner",
   "message_stake_fisherman_fee_owner", "message_edit_stake_fisherman_fee_owner",
   "message_unstake_fisherman_fee_owner", "message_pause_fisherman_fee_owner",
   "message_unpause_fisherman_fee_owner", "message_fisherman_pause_service_node_fee_owner",
   "message_test_score_fee_owner", "message_prove_test_score_fee_owner",
   "message_stake_app_fee_owner", "message_edit_stake_app_fee_owner",
   "message_unstake_app_fee_owner", "message_pause_app_fee_owner",
   "message_unpause_app_fee_owner", "message_stake_validator_fee_owner",
   "message_edit_stake_validator_fee_owner", "message_unstake_validator_fee_owner",
   "message_pause_validator_fee_owner", "message_unpause_validator_fee_owner",
   "message_stake_service_node_fee_owner", "message_edit_stake_service_node_fee_owner",
   "message_unstake_service_node_fee_owner", "message_pause_service_node_fee_owner",
   "message_unpause_service_node_fee_owner", "message_change_parameter_fee_owner", "height"]

/-- The function `GetParamNames`: a fresh copy of `SQLColumnNames`. -/
def GetParamNames : List String := SQLColumnNames

/-- The dynamic type of the argument `paramValue` of `SetParam`; `other` is any type the type
switch does not list. Text is a `String` throughout, so a byte slice is given by the text its
bytes encode, and the verb s copies it as it stands. -/
inductive ParamValue
  | int (v : Int)
  | int32 (v : Int)
  | int64 (v : Int)
  | bytes (v : String)
  | string (v : String)
  | other
  deriving DecidableEq, Repr

/-- The first loop of `SetParam`: the index of the last entry equal to `paramName`, and `0`
(the zero value of `index`) when there is none. -/
def paramIndex (paramNames : List String) (paramName : String) : Nat :=
  paramNames.enum.foldl (fun index p => if p.2 = paramName then p.1 else index) 0

/-- The type switch of `SetParam`: the value as it is written into the query, `none` when the
switch panics. Integers are printed with the verb d, byte slices and strings are copied
between single quotes. -/
def formatParamValue : ParamValue → Option String
  | .int v => some (toString v)
  | .int32 v => some (toString v)
  | .int64 v => some (toString v)
  | .bytes v => some ("'" ++ v ++ "'")
  | .string v => some ("'" ++ v ++ "'")
  | .other => none

/-- The local slice `paramNames` of `SetParam` after the type switch: the copy of the column
names with the entry at `index` overwritten by the formatted value. -/
def setParamNames (paramName : String) (paramValue : ParamValue) : Option (List String) :=
  let paramNames := GetParamNames
  let index := paramIndex paramNames paramName
  match formatParamValue paramValue with
  | none => none
  | some v => some (paramNames.set index v)

/-- The entries the second loop of `SetParam` writes after `SELECT`: every name as it stands
in `paramNames`, and `-1` at the last index. -/
def selectList (paramNames : List String) : List String :=
  paramNames.enum.map (fun p => if p.1 = paramNames.length - 1 then "-1" else p.2)

/-- The second loop of `SetParam`: the text of the sub-query up to `FROM`. -/
def selectClause (paramNames : List String) : String :=
  paramNames.enum.foldl
    (fun subQuery p =>
      if p.1 = paramNames.length - 1 then subQuery ++ "-1" else subQuery ++ (p.2 ++ ","))
    "SELECT "

/-- The function `SetParam`: the text of the query, `none` when the type switch panics. -/
def SetParam (paramName : String) (paramValue : ParamValue) (height : Int) : Option String :=
  match setParamNames paramName paramValue with
  | none => none
  | some paramNames =>
    let subQuery := selectClause paramNames ++
      (" FROM " ++ ParamsTableName ++ " WHERE height=" ++ toString height)
    some ("INSERT INTO " ++ ParamsTableName ++ "((" ++ subQuery ++ "))")

/-! # Theorems -/

/-! ## Rounding lemmas -/

theorem excessBits_of_lt (fuel k : Nat) (h : k < 2 ^ 53) : excessBits fuel k = 0 := by
  cases fuel with
  | zero => rfl
  | succ f => simp only [excessBits]; rw [if_pos h]

theorem excessBits_bounds : ∀ (fuel k : Nat), k < 2 ^ 53 * 2 ^ fuel → 2 ^ 53 ≤ k →
    1 ≤ excessBits fuel k ∧ 2 ^ 52 * 2 ^ excessBits fuel k ≤ k ∧
      k < 2 ^ 53 * 2 ^ excessBits fuel k := by
  intro fuel
  induction fuel with
  | zero => intro k h1 h2; simp at h1; omega
  | succ f ih =>
    intro k h1 h2
    have hk : ¬ k < 2 ^ 53 := by omega
    simp only [excessBits, hk, if_false]
    by_cases h3 : k / 2 < 2 ^ 53
    · rw [excessBits_of_lt f _ h3]
      norm_num at h3 h2 ⊢
      omega
    · have h4 : k / 2 < 2 ^ 53 * 2 ^ f := by
        rw [pow_succ] at h1
        omega
      obtain ⟨_, hb, hc⟩ := ih (k / 2) h4 (by omega)
      refine ⟨by omega, ?_, ?_⟩
      · rw [pow_succ]; omega
      · rw [pow_succ]; omega

theorem lt_fuel (k : Nat) : k < 2 ^ 53 * 2 ^ k := by
  have h1 : k < 2 ^ k := Nat.lt_two_pow k
  have h2 : 2 ^ k ≤ 2 ^ 53 * 2 ^ k := Nat.le_mul_of_pos_left _ (by norm_num)
  omega

theorem round_exp (k : Nat) (e : Int) : (Float64.round k e).exp = e + excessBits k k := by
  unfold Float64.round
  simp only
  split_ifs <;> rfl

theorem round_mant (k : Nat) (e : Int) : (Float64.round k e).mant = (Float64.round k 0).mant := by
  unfold Float64.round
  simp only
  split_ifs <;> rfl

theorem roundValue_of_lt (k : Nat) (h : k < 2 ^ 53) : roundValue k = k := by
  unfold roundValue Float64.round
  simp [excessBits_of_lt k k h, Nat.mod_one]

theorem roundValue_cases (k : Nat) :
    (2 * (k % 2 ^ excessBits k k) < 2 ^ excessBits k k ∧
        roundValue k = k / 2 ^ excessBits k k * 2 ^ excessBits k k) ∨
    (2 * (k % 2 ^ excessBits k k) = 2 ^ excessBits k k ∧ (k / 2 ^ excessBits k k) % 2 = 0 ∧
        roundValue k = k / 2 ^ excessBits k k * 2 ^ excessBits k k) ∨
    (2 * (k % 2 ^ excessBits k k) = 2 ^ excessBits k k ∧ (k / 2 ^ excessBits k k) % 2 = 1 ∧
        roundValue k = k / 2 ^ excessBits k k * 2 ^ excessBits k k + 2 ^ excessBits k k) ∨
    (2 ^ excessBits k k < 2 * (k % 2 ^ excessBits k k) ∧
        roundValue k = k / 2 ^ excessBits k k * 2 ^ excessBits k k + 2 ^ excessBits k k) := by
  unfold roundValue Float64.round
  simp only
  split_ifs with h1 h2
  · left; exact ⟨h1, rfl⟩
  · right; left; exact ⟨h2.1, h2.2, rfl⟩
  · by_cases h3 : 2 * (k % 2 ^ excessBits k k) = 2 ^ excessBits k k
    · right; right; left
      refine ⟨h3, ?_, by simp [Nat.add_mul]⟩
      have : ¬ (k / 2 ^ excessBits k k % 2 = 0) := fun h => h2 ⟨h3, h⟩
      omega
    · right; right; right
      refine ⟨by omega, by simp [Nat.add_mul]⟩

theorem roundValue_ge_of_dvd (k T : Nat) (hd : 2 ^ excessBits k k ∣ T) (h : T ≤ k) :
    T ≤ roundValue k := by
  obtain ⟨c, rfl⟩ := hd
  have hP : 0 < 2 ^ excessBits k k := by positivity
  have hc : c ≤ k / 2 ^ excessBits k k := by
    rw [Nat.le_div_iff_mul_le hP]; rw [Nat.mul_comm]; exact h
  have h2 : 2 ^ excessBits k k * c ≤ k / 2 ^ excessBits k k * 2 ^ excessBits k k := by
    rw [Nat.mul_comm]; exact Nat.mul_le_mul_right _ hc
  have hc := roundValue_cases k
  generalize 2 ^ excessBits k k = P at *
  rcases hc with h | h | h | h <;> omega

theorem roundValue_le_of_dvd (k T : Nat) (hd : 2 ^ excessBits k k ∣ T) (h : k ≤ T) :
    roundValue k ≤ T := by
  obtain ⟨c, rfl⟩ := hd
  have hP : 0 < 2 ^ excessBits k k := by positivity
  have hdm := Nat.div_add_mod k (2 ^ excessBits k k)
  have hml := Nat.mod_lt k hP
  rw [Nat.mul_comm] at hdm
  by_cases hr : k % 2 ^ excessBits k k = 0
  · have hc := roundValue_cases k
    generalize 2 ^ excessBits k k = P at *
    rcases hc with h' | h' | h' | h' <;> omega
  · have hc : k / 2 ^ excessBits k k < c := by
      rw [Nat.div_lt_iff_lt_mul hP, Nat.mul_comm]
      rcases Nat.lt_or_ge k (2 ^ excessBits k k * c) with h5 | h5
      · exact h5
      · have h6 : k = 2 ^ excessBits k k * c := Nat.le_antisymm h h5
        have h7 : k % 2 ^ excessBits k k = 0 :=
          Nat.mod_eq_zero_of_dvd (Dvd.intro c h6.symm)
        exact absurd h7 hr
    have h2 : (k / 2 ^ excessBits k k + 1) * 2 ^ excessBits k k ≤ 2 ^ excessBits k k * c := by
      rw [Nat.mul_comm (2 ^ excessBits k k) c]; exact Nat.mul_le_mul_right _ hc
    rw [Nat.add_mul] at h2
    have hc := roundValue_cases k
    generalize 2 ^ excessBits k k = P at *
    rcases hc with h' | h' | h' | h' <;> omega

theorem roundValue_near (k : Nat) : 2 * roundValue k ≤ 2 * k + 2 ^ excessBits k k := by
  have hdm := Nat.div_add_mod k (2 ^ excessBits k k)
  rw [Nat.mul_comm] at hdm
  have hc := roundValue_cases k
  generalize 2 ^ excessBits k k = P at *
  rcases hc with h' | h' | h' | h' <;> omega

theorem roundValue_ge (k : Nat) (h : 2 ^ 53 ≤ k) : 2 ^ 53 ≤ roundValue k := by
  obtain ⟨h1, h2, h3⟩ := excessBits_bounds k k (lt_fuel k) h
  have hd : 2 ^ excessBits k k ∣ 2 ^ 52 * 2 ^ excessBits k k := Dvd.intro_left _ rfl
  have := roundValue_ge_of_dvd k _ hd h2
  have h4 : 2 ^ 1 ≤ 2 ^ excessBits k k := Nat.pow_le_pow_right (by norm_num) h1
  omega


/-- The product `fl(2/3) * N`, scaled by `2^53`, when `2N` is not a multiple of 3: it stays
strictly inside the unit interval above `⌊2N/3⌋`. -/
theorem roundValue_threshold_inexact (N m t : Nat) (hN : N ≤ 2 ^ 53) (ht : t = 1 ∨ t = 2)
    (hm : 2 * N = 3 * m + t) :
    m * 2 ^ 53 ≤ roundValue (6004799503160661 * N) ∧
      roundValue (6004799503160661 * N) < (m + 1) * 2 ^ 53 := by
  have h54 : (2 : Nat) ^ 54 % 3 = 1 := by norm_num
  have hN2 : N ≠ 2 ^ 53 ∨ t = 1 := by
    by_cases h : N = 2 ^ 53
    · right; subst h; omega
    · left; exact h
  have hK1 : m * 2 ^ 53 ≤ 6004799503160661 * N := by omega
  have hK2 : 6004799503160661 * N < (m + 1) * 2 ^ 53 := by omega
  by_cases hlt : 6004799503160661 * N < 2 ^ 53
  · rw [roundValue_of_lt _ hlt]; exact ⟨hK1, hK2⟩
  · obtain ⟨h1, h2, h3⟩ := excessBits_bounds _ _ (lt_fuel (6004799503160661 * N)) (by omega)
    have hs : excessBits (6004799503160661 * N) (6004799503160661 * N) ≤ 53 := by
      by_contra hc
      have : 2 ^ 54 ≤ 2 ^ excessBits (6004799503160661 * N) (6004799503160661 * N) :=
        Nat.pow_le_pow_right (by norm_num) (by omega)
      omega
    have hd : 2 ^ excessBits (6004799503160661 * N) (6004799503160661 * N) ∣ 2 ^ 53 :=
      Nat.pow_dvd_pow 2 hs
    have ha := roundValue_ge_of_dvd _ (m * 2 ^ 53) (Dvd.dvd.mul_left hd m) hK1
    have hb := roundValue_le_of_dvd _ ((m + 1) * 2 ^ 53) (Dvd.dvd.mul_left hd (m + 1))
      (Nat.le_of_lt hK2)
    have hn := roundValue_near (6004799503160661 * N)
    refine ⟨ha, ?_⟩
    generalize 2 ^ excessBits (6004799503160661 * N) (6004799503160661 * N) = P at *
    generalize roundValue (6004799503160661 * N) = V at *
    omega

/-- The product `fl(2/3) * N`, scaled by `2^53`, when `N = 3j`: it rounds to exactly `2j`. -/
theorem roundValue_threshold_exact (j : Nat) (hN : 3 * j ≤ 2 ^ 53) :
    roundValue (6004799503160661 * (3 * j)) = 2 * j * 2 ^ 53 := by
  by_cases hlt : 6004799503160661 * (3 * j) < 2 ^ 53
  · rw [roundValue_of_lt _ hlt]; omega
  · obtain ⟨h1, h2, h3⟩ :=
      excessBits_bounds _ _ (lt_fuel (6004799503160661 * (3 * j))) (by omega)
    have hs : excessBits (6004799503160661 * (3 * j)) (6004799503160661 * (3 * j)) ≤ 53 := by
      by_contra hc
      have : 2 ^ 54 ≤ 2 ^ excessBits (6004799503160661 * (3 * j)) (6004799503160661 * (3 * j)) :=
        Nat.pow_le_pow_right (by norm_num) (by omega)
      omega
    have hd : 2 ^ excessBits (6004799503160661 * (3 * j)) (6004799503160661 * (3 * j)) ∣
        2 * j * 2 ^ 53 := Dvd.dvd.mul_left (Nat.pow_dvd_pow 2 hs) (2 * j)
    have hb := roundValue_le_of_dvd _ (2 * j * 2 ^ 53) hd (by omega)
    have hcases := roundValue_cases (6004799503160661 * (3 * j))
    have hdm := Nat.div_add_mod (6004799503160661 * (3 * j))
      (2 ^ excessBits (6004799503160661 * (3 * j)) (6004799503160661 * (3 * j)))
    have hml := Nat.mod_lt (6004799503160661 * (3 * j))
      (show 0 < 2 ^ excessBits (6004799503160661 * (3 * j)) (6004799503160661 * (3 * j)) by
        positivity)
    obtain ⟨c, hc⟩ := hd
    generalize 2 ^ excessBits (6004799503160661 * (3 * j)) (6004799503160661 * (3 * j)) = P at *
    generalize hV : roundValue (6004799503160661 * (3 * j)) = V at *
    generalize hq : 6004799503160661 * (3 * j) / P = q at *
    generalize hr : 6004799503160661 * (3 * j) % P = r at *
    -- the exact product is `c * P - j` with `0 < 2 * j ≤ P`
    have hjP : 2 * j ≤ P := by omega
    have hqc : q + 1 = c := by
      have e1 : P * q + r + j = P * c := by omega
      have e2 : P * q < P * c := by omega
      have e3 : P * c < P * (q + 2) := by rw [Nat.mul_add]; omega
      have e4 : q < c := Nat.lt_of_mul_lt_mul_left e2
      have e5 : c < q + 2 := Nat.lt_of_mul_lt_mul_left e3
      omega
    subst hqc
    rw [Nat.mul_add, Nat.mul_one] at hc
    rw [Nat.mul_comm q P] at hcases
    rcases hcases with h | h | h | h
    · omega
    · exfalso
      have hP : P = 2 * j := by omega
      have e6 : P * (q + 1) = P * 2 ^ 53 := by rw [Nat.mul_add]; omega
      have e7 : q + 1 = 2 ^ 53 := Nat.eq_of_mul_eq_mul_left (by omega) e6
      omega
    · omega
    · omega

theorem round_of_lt (k : Nat) (e : Int) (h : k < 2 ^ 53) : Float64.round k e = ⟨k, e⟩ := by
  unfold Float64.round
  simp [excessBits_of_lt k k h, Nat.mod_one]

theorem ByzantineThreshold_eq : ByzantineThreshold = ⟨6004799503160661, -53⟩ := by decide

theorem gt_float64 (n : Nat) (b : Float64) (hb : b.exp ≤ 0) :
    (float64 n).gt b = true ↔ b.mant < roundValue n * 2 ^ (-b.exp).toNat := by
  unfold Float64.gt float64
  simp only [round_exp, decide_eq_true_eq]
  have hmin : min (0 + (excessBits n n : Int)) b.exp = b.exp := by
    apply min_eq_right; omega
  rw [hmin]
  have e1 : (b.exp - b.exp).toNat = 0 := by simp
  have e2 : (0 + (excessBits n n : Int) - b.exp).toNat = excessBits n n + (-b.exp).toNat := by
    omega
  rw [e1, e2, pow_zero, Nat.mul_one, pow_add, ← Nat.mul_assoc]
  rfl

/-- The binary64 quorum test agrees with the integer test `2N < 3n` up to `N = 2^53`. -/
theorem thresholdMet_iff (N n : Nat) (hN : N ≤ 2 ^ 53) :
    (float64 n).gt (ByzantineThreshold.mul (float64 N)) = true ↔ 2 * N < 3 * n := by
  have hrn : (n < 2 ^ 53 ∧ roundValue n = n) ∨ (2 ^ 53 ≤ n ∧ 2 ^ 53 ≤ roundValue n) := by
    rcases Nat.lt_or_ge n (2 ^ 53) with h | h
    · exact Or.inl ⟨h, roundValue_of_lt n h⟩
    · exact Or.inr ⟨h, roundValue_ge n h⟩
  rcases Nat.lt_or_ge N (2 ^ 53) with hlt | hge
  · -- the conversion of `N` is exact
    have hf : float64 N = ⟨N, 0⟩ := round_of_lt N 0 hlt
    rw [ByzantineThreshold_eq, hf]
    unfold Float64.mul
    simp only
    have hK : 6004799503160661 * N < 2 ^ 106 := by omega
    have hs : excessBits (6004799503160661 * N) (6004799503160661 * N) ≤ 53 := by
      by_cases hk : 6004799503160661 * N < 2 ^ 53
      · rw [excessBits_of_lt _ _ hk]; omega
      · obtain ⟨h1, h2, h3⟩ :=
          excessBits_bounds _ _ (lt_fuel (6004799503160661 * N)) (by omega)
        by_contra hc
        have : 2 ^ 54 ≤ 2 ^ excessBits (6004799503160661 * N) (6004799503160661 * N) :=
          Nat.pow_le_pow_right (by norm_num) (by omega)
        omega
    rw [gt_float64 n _ (by rw [round_exp]; omega), round_exp, round_mant]
    have e3 : (-(-53 + 0 + (excessBits (6004799503160661 * N) (6004799503160661 * N) : Int))).toNat
        = 53 - excessBits (6004799503160661 * N) (6004799503160661 * N) := by omega
    rw [e3]
    have hP : 0 < 2 ^ excessBits (6004799503160661 * N) (6004799503160661 * N) := by positivity
    have e4 : 2 ^ (53 - excessBits (6004799503160661 * N) (6004799503160661 * N)) *
        2 ^ excessBits (6004799503160661 * N) (6004799503160661 * N) = 2 ^ 53 := by
      rw [← pow_add]; congr 1; omega
    have key : (Float64.round (6004799503160661 * N) 0).mant <
          roundValue n * 2 ^ (53 - excessBits (6004799503160661 * N) (6004799503160661 * N)) ↔
        roundValue (6004799503160661 * N) < roundValue n * 2 ^ 53 := by
      rw [← e4, ← Nat.mul_assoc]
      exact (Nat.mul_lt_mul_right hP).symm
    rw [key]
    -- split on the residue of `2N` modulo 3
    have hmod : 2 * N % 3 = 0 ∨ 2 * N % 3 = 1 ∨ 2 * N % 3 = 2 := by omega
    rcases hmod with h0 | h12
    · obtain ⟨j, hj⟩ : ∃ j, N = 3 * j := ⟨N / 3, by omega⟩
      subst hj
      rw [roundValue_threshold_exact j (by omega)]
      rcases hrn with ⟨_, h⟩ | ⟨_, h⟩ <;> omega
    · have ht : 2 * N % 3 = 1 ∨ 2 * N % 3 = 2 := h12
      obtain ⟨ha, hb⟩ := roundValue_threshold_inexact N (2 * N / 3) (2 * N % 3) hN ht (by omega)
      generalize roundValue (6004799503160661 * N) = V at *
      rcases hrn with ⟨_, h⟩ | ⟨_, h⟩ <;> omega
  · have hN2 : N = 2 ^ 53 := Nat.le_antisymm hN hge
    subst hN2
    have hp : ByzantineThreshold.mul (float64 (2 ^ 53)) = ⟨6004799503160661, 0⟩ := by decide
    rw [hp, gt_float64 n _ (by simp)]
    simp only [neg_zero, Int.toNat_zero, pow_zero, Nat.mul_one]
    rcases hrn with ⟨_, h⟩ | ⟨_, h⟩ <;> omega

/-! ## The quorum test -/

theorem isOptimisticThresholdMet_ok_iff (m : ConsensusModule) (n : Nat) :
    isOptimisticThresholdMet m n = .ok () ↔
      (float64 n).gt (ByzantineThreshold.mul (float64 (mapLen m.validatorMap))) = true := by
  unfold isOptimisticThresholdMet
  simp only
  cases h : (float64 n).gt (ByzantineThreshold.mul (float64 (mapLen m.validatorMap))) <;> simp

theorem isOptimisticThresholdMet_iff (m : ConsensusModule) (n : Nat)
    (hN : mapLen m.validatorMap ≤ 2 ^ 53) :
    isOptimisticThresholdMet m n = .ok () ↔ 2 * mapLen m.validatorMap < 3 * n := by
  rw [isOptimisticThresholdMet_ok_iff, thresholdMet_iff _ _ hN]

theorem mapLen_validatorsOfSize (n : Nat) : mapLen (validatorsOfSize n) = n := by
  unfold mapLen validatorsOfSize
  rw [List.map_map]
  have hinj : Function.Injective
      (Prod.fst ∘ fun i : Nat =>
        (String.mk (List.replicate (i + 1) 'v'),
          (⟨String.mk (List.replicate (i + 1) 'v'), "pk"⟩ : Validator))) := by
    intro a b hab
    simp only [Function.comp] at hab
    have h1 := congrArg String.data hab
    have h2 := congrArg List.length h1
    simpa using h2
  rw [List.Nodup.dedup (List.Nodup.map hinj (List.nodup_range n))]
  simp

/-- C1: for every vote count `n` and every validator map (a map has at most `2^53` entries:
no address space holds more), `isOptimisticThresholdMet n` returns no error exactly when
`3n > 2N`; with four validators it succeeds exactly when `n ≥ 3`; and
`didReceiveEnoughMessageForStep step` is this test applied to the length of `pool[step]`. -/
theorem isOptimisticThresholdMet_quorum (m : ConsensusModule) (n : Nat)
    (hN : mapLen m.validatorMap ≤ 2 ^ 53) :
    (isOptimisticThresholdMet m n = .ok () ↔ 2 * mapLen m.validatorMap < 3 * n) ∧
    (mapLen m.validatorMap = 4 → (isOptimisticThresholdMet m n = .ok () ↔ 3 ≤ n)) ∧
    (∀ step, didReceiveEnoughMessageForStep m step =
      isOptimisticThresholdMet m (m.MessagePool step).length) := by
  refine ⟨isOptimisticThresholdMet_iff m n hN, ?_, fun _ => rfl⟩
  intro h4
  rw [isOptimisticThresholdMet_iff m n hN, h4]
  omega

/-- C1, witness: four validators and three votes. -/
theorem isOptimisticThresholdMet_quorum_witness :
    mapLen (leaderNode fourValidators 1 0).validatorMap ≤ 2 ^ 53 ∧
    isOptimisticThresholdMet (leaderNode fourValidators 1 0) 3 = .ok () :=
  ⟨by decide,
   ((isOptimisticThresholdMet_quorum (leaderNode fourValidators 1 0) 3 (by decide)).2.1
      (by decide)).2 (by decide)⟩

/-- The bound `2^53` on the size of the validator map is where binary64 stops representing
every integer: with `2^53 + 1` entries the conversion rounds the size down and the test passes
with exactly two thirds of the votes (`3n = 2N`). No map of that size fits in memory. -/
theorem isOptimisticThresholdMet_beyond_binary64 :
    mapLen (leaderNode (validatorsOfSize (2 ^ 53 + 1)) 1 0).validatorMap = 2 ^ 53 + 1 ∧
    isOptimisticThresholdMet (leaderNode (validatorsOfSize (2 ^ 53 + 1)) 1 0)
      6004799503160662 = .ok () ∧
    ¬ (2 * (2 ^ 53 + 1) < 3 * 6004799503160662) := by
  have hlen : mapLen (leaderNode (validatorsOfSize (2 ^ 53 + 1)) 1 0).validatorMap
      = 2 ^ 53 + 1 := by
    show mapLen (validatorsOfSize (2 ^ 53 + 1)) = 2 ^ 53 + 1
    exact mapLen_validatorsOfSize (2 ^ 53 + 1)
  refine ⟨hlen, ?_, by norm_num⟩
  rw [isOptimisticThresholdMet_ok_iff, hlen]
  decide

/-! ## Admission to the message pool -/

theorem anteHandle_ok (C : Collaborators) (m m1 : ConsensusModule) (msg : HotstuffMessage)
    (h : anteHandle C m msg = .ok m1) :
    C.validateBlockBasic m msg.Block = .ok () ∧ validatePartialSignature C m msg = .ok () ∧
      m1 = tempIndexHotstuffMessage m msg := by
  unfold anteHandle at h
  cases hv : C.validateBlockBasic m msg.Block with
  | error e => rw [hv] at h; cases h
  | ok u =>
    rw [hv] at h
    cases hp : validatePartialSignature C m msg with
    | error e => rw [hp] at h; cases h
    | ok u2 =>
      rw [hp] at h
      simp only [Except.ok.injEq] at h
      exact ⟨rfl, rfl, h.symm⟩

theorem anteHandle_of_valid (C : Collaborators) (m : ConsensusModule) (msg : HotstuffMessage)
    (hv : C.validateBlockBasic m msg.Block = .ok ())
    (hp : validatePartialSignature C m msg = .ok ()) :
    anteHandle C m msg = .ok (tempIndexHotstuffMessage m msg) := by
  unfold anteHandle
  rw [hv]
  simp only
  rw [hp]

theorem validatePartialSignature_congr (C : Collaborators) (m m1 : ConsensusModule)
    (msg : HotstuffMessage) (h1 : m1.validatorMap = m.validatorMap)
    (h2 : m1.ValAddrToIdMap = m.ValAddrToIdMap) :
    validatePartialSignature C m1 msg = validatePartialSignature C m msg := by
  unfold validatePartialSignature
  rw [h1, h2]

theorem tempIndex_pool (m : ConsensusModule) (msg : HotstuffMessage)
    (hcap : sizeofMessagePool ≤ m.MaxMempoolBytes) :
    (tempIndexHotstuffMessage m msg).MessagePool =
      setPool m.MessagePool msg.Step (m.MessagePool msg.Step ++ [msg]) := by
  unfold tempIndexHotstuffMessage
  rw [if_neg (by omega)]

theorem tempIndex_pool_full (m : ConsensusModule) (msg : HotstuffMessage)
    (hcap : m.MaxMempoolBytes < sizeofMessagePool) :
    tempIndexHotstuffMessage m msg = m := by
  unfold tempIndexHotstuffMessage
  rw [if_pos hcap]

theorem tempIndex_frame (m : ConsensusModule) (msg : HotstuffMessage) :
    (tempIndexHotstuffMessage m msg).Height = m.Height ∧
    (tempIndexHotstuffMessage m msg).Round = m.Round ∧
    (tempIndexHotstuffMessage m msg).Step = m.Step ∧
    (tempIndexHotstuffMessage m msg).Block = m.Block ∧
    (tempIndexHotstuffMessage m msg).HighPrepareQC = m.HighPrepareQC ∧
    (tempIndexHotstuffMessage m msg).LockedQC = m.LockedQC ∧
    (tempIndexHotstuffMessage m msg).LeaderId = m.LeaderId ∧
    (tempIndexHotstuffMessage m msg).NodeId = m.NodeId ∧
    (tempIndexHotstuffMessage m msg).validatorMap = m.validatorMap ∧
    (tempIndexHotstuffMessage m msg).ValAddrToIdMap = m.ValAddrToIdMap ∧
    (tempIndexHotstuffMessage m msg).MaxMempoolBytes = m.MaxMempoolBytes ∧
    (tempIndexHotstuffMessage m msg).privateKey = m.privateKey ∧
    (tempIndexHotstuffMessage m msg).UtilityContext = m.UtilityContext ∧
    (tempIndexHotstuffMessage m msg).lastAppHash = m.lastAppHash ∧
    (tempIndexHotstuffMessage m msg).IdToValAddrMap = m.IdToValAddrMap := by
  unfold tempIndexHotstuffMessage
  split_ifs <;> simp

theorem setPool_same (pool : HotstuffStep → List HotstuffMessage) (step : HotstuffStep)
    (msgs : List HotstuffMessage) : setPool pool step msgs step = msgs := by
  simp [setPool]

theorem setPool_other (pool : HotstuffStep → List HotstuffMessage) (step s : HotstuffStep)
    (msgs : List HotstuffMessage) (h : s ≠ step) : setPool pool step msgs s = pool s := by
  simp [setPool, h]

theorem tempIndex_withPool (m : ConsensusModule) (msg : HotstuffMessage)
    (pool : HotstuffStep → List HotstuffMessage)
    (hcap : sizeofMessagePool ≤ m.MaxMempoolBytes) :
    tempIndexHotstuffMessage { m with MessagePool := pool } msg =
      { m with MessagePool := setPool pool msg.Step (pool msg.Step ++ [msg]) } := by
  unfold tempIndexHotstuffMessage
  rw [if_neg (by simp only; omega)]

theorem anteHandleTimes_pool (C : Collaborators) (m : ConsensusModule) (v : HotstuffMessage)
    (hvalid : ∀ pool, C.validateBlockBasic { m with MessagePool := pool } v.Block = .ok ())
    (hsig : validatePartialSignature C m v = .ok ())
    (hcap : sizeofMessagePool ≤ m.MaxMempoolBytes) :
    ∀ (k : Nat) (pool : HotstuffStep → List HotstuffMessage),
      ∃ m1, anteHandleTimes C v k { m with MessagePool := pool } = .ok m1 ∧
        m1.MessagePool v.Step = pool v.Step ++ List.replicate k v ∧
        m1.validatorMap = m.validatorMap := by
  intro k
  induction k with
  | zero => intro pool; exact ⟨_, rfl, by simp, rfl⟩
  | succ k ih =>
    intro pool
    have hp1 : validatePartialSignature C { m with MessagePool := pool } v = .ok () :=
      (validatePartialSignature_congr C m { m with MessagePool := pool } v rfl rfl).trans hsig
    obtain ⟨m1, h1, h2, h3⟩ := ih (setPool pool v.Step (pool v.Step ++ [v]))
    refine ⟨m1, ?_, ?_, h3⟩
    · simp only [anteHandleTimes]
      rw [anteHandle_of_valid C _ v (hvalid pool) hp1, tempIndex_withPool m v pool hcap]
      exact h1
    · rw [h2, setPool_same, List.append_assoc]
      congr 1

/-- C2 (amended): the leader does not discard duplicates. For every message `v` that passes
the block validation (whatever the pool holds) and the partial-signature validation, and
every `k`, after `anteHandle`
has processed `v` `k` times starting from an empty `pool[v.Step]` (the mempool bound admitting
messages), `pool[v.Step]` holds `k` copies of `v`; so with four validators
`didReceiveEnoughMessageForStep` succeeds as soon as `k ≥ 3`. -/
theorem anteHandle_keeps_duplicates (C : Collaborators) (m : ConsensusModule)
    (v : HotstuffMessage) (k : Nat)
    (hvalid : ∀ pool, C.validateBlockBasic { m with MessagePool := pool } v.Block = .ok ())
    (hsig : validatePartialSignature C m v = .ok ())
    (hcap : sizeofMessagePool ≤ m.MaxMempoolBytes)
    (hempty : m.MessagePool v.Step = []) :
    ∃ m1, anteHandleTimes C v k m = .ok m1 ∧
      m1.MessagePool v.Step = List.replicate k v ∧
      (mapLen m.validatorMap = 4 →
        (didReceiveEnoughMessageForStep m1 v.Step = .ok () ↔ 3 ≤ k)) := by
  obtain ⟨m1, h1, h2, h3⟩ := anteHandleTimes_pool C m v hvalid hsig hcap k m.MessagePool
  rw [hempty, List.nil_append] at h2
  refine ⟨m1, h1, h2, ?_⟩
  intro h4
  unfold didReceiveEnoughMessageForStep
  rw [isOptimisticThresholdMet_iff m1 _ (by rw [h3, h4]; norm_num), h2, h3, h4,
    List.length_replicate]
  omega

/-- C2, witness: the vote of validator `vv` for Prepare, delivered 1000 times to a leader with
four validators. -/
theorem anteHandle_keeps_duplicates_witness :
    ∃ m1, anteHandleTimes scenarioCollaborators (voteOf .Prepare 1 0) 1000
        (leaderNode fourValidators 1 0) = .ok m1 ∧
      m1.MessagePool (voteOf .Prepare 1 0).Step = List.replicate 1000 (voteOf .Prepare 1 0) ∧
      (mapLen (leaderNode fourValidators 1 0).validatorMap = 4 →
        (didReceiveEnoughMessageForStep m1 (voteOf .Prepare 1 0).Step = .ok () ↔ 3 ≤ 1000)) :=
  anteHandle_keeps_duplicates scenarioCollaborators (leaderNode fourValidators 1 0)
    (voteOf .Prepare 1 0) 1000 (fun _ => rfl) (by rfl) (by decide) rfl

/-- C2, counterexample: one signed Prepare vote delivered three times to a leader with four
validators leaves three messages in `pool[Prepare]`, and the quorum test passes. -/
theorem anteHandle_keeps_duplicates_counterexample :
    ((anteHandleTimes scenarioCollaborators (voteOf .Prepare 1 0) 3
        (leaderNode fourValidators 1 0)).toOption.map
      (fun m1 => ((m1.MessagePool .Prepare).length,
        (didReceiveEnoughMessageForStep m1 .Prepare).toBool))) = some (3, true) := by
  decide

/-! ## Quorum certificates -/

theorem eligibleSignature_some (height : Nat) (step : HotstuffStep) (round : Nat)
    (msg : HotstuffMessage) (ps : PartialSignature)
    (h : eligibleSignature height step round msg = some ps) :
    msg.PartialSignature = some ps ∧ msg.Height = height ∧ msg.Step = step ∧
      msg.Round = round ∧ ps.Signature ≠ none ∧ ps.Address.length ≠ 0 := by
  unfold eligibleSignature at h
  cases hps : msg.PartialSignature with
  | none => rw [hps] at h; cases h
  | some p =>
    rw [hps] at h
    simp only at h
    split_ifs at h with h1 h2
    simp only [Option.some.injEq] at h
    subst h
    refine ⟨rfl, ?_, ?_, ?_, ?_, ?_⟩
    · by_contra hc; exact h1 (Or.inl hc)
    · by_contra hc; exact h1 (Or.inr (Or.inl hc))
    · by_contra hc; exact h1 (Or.inr (Or.inr hc))
    · intro hc; exact h2 (Or.inl hc)
    · intro hc; exact h2 (Or.inr hc)

theorem getQuorumCertificate_ok (m : ConsensusModule) (height : Nat) (step : HotstuffStep)
    (round : Nat) (qc : QuorumCertificate)
    (h : getQuorumCertificate m height step round = .ok qc) :
    isOptimisticThresholdMet m
        ((m.MessagePool step).filterMap (eligibleSignature height step round)).length = .ok () ∧
      qc = { Height := height, Step := step, Round := round, Block := m.Block,
             ThresholdSignature :=
               some ⟨(m.MessagePool step).filterMap (eligibleSignature height step round)⟩ } := by
  unfold getQuorumCertificate at h
  simp only at h
  cases ht : isOptimisticThresholdMet m
      ((m.MessagePool step).filterMap (eligibleSignature height step round)).length with
  | error e => rw [ht] at h; cases h
  | ok u =>
    rw [ht] at h
    simp only [getThresholdSignature, Except.ok.injEq] at h
    exact ⟨rfl, h.symm⟩

/-- C3 (amended): every certificate `getQuorumCertificate` returns (with at most `2^53`
validators) has a threshold signature with strictly more than `2N/3` partial signatures, each
complete (signature bytes and signer address present) and taken from a message pooled for the
requested height, step and round; the signers need not be pairwise distinct. -/
theorem getQuorumCertificate_threshold (m : ConsensusModule) (height : Nat)
    (step : HotstuffStep) (round : Nat) (qc : QuorumCertificate)
    (hN : mapLen m.validatorMap ≤ 2 ^ 53)
    (h : getQuorumCertificate m height step round = .ok qc) :
    ∃ ts, qc.ThresholdSignature = some ts ∧
      2 * mapLen m.validatorMap < 3 * ts.Signatures.length ∧
      ∀ ps ∈ ts.Signatures, ps.Signature ≠ none ∧ ps.Address.length ≠ 0 ∧
        ∃ msg ∈ m.MessagePool step, msg.PartialSignature = some ps ∧ msg.Height = height ∧
          msg.Step = step ∧ msg.Round = round := by
  obtain ⟨h1, h2⟩ := getQuorumCertificate_ok m height step round qc h
  refine ⟨⟨(m.MessagePool step).filterMap (eligibleSignature height step round)⟩, ?_, ?_, ?_⟩
  · rw [h2]
  · exact (isOptimisticThresholdMet_iff m _ hN).1 h1
  · intro ps hps
    obtain ⟨msg, hmem, hel⟩ := List.mem_filterMap.1 hps
    obtain ⟨e1, e2, e3, e4, e5, e6⟩ := eligibleSignature_some height step round msg ps hel
    exact ⟨e5, e6, msg, hmem, e1, e2, e3, e4⟩

/-- C3, witness: three Prepare votes of three validators out of four. -/
theorem getQuorumCertificate_threshold_witness :
    ∃ ts, (⟨1, .Prepare, 0, none, some ⟨[⟨some [7], "v"⟩, ⟨some [7], "vv"⟩,
        ⟨some [7], "vvv"⟩]⟩⟩ : QuorumCertificate).ThresholdSignature = some ts ∧
      2 * mapLen fourValidators < 3 * ts.Signatures.length ∧
      ∀ ps ∈ ts.Signatures, ps.Signature ≠ none ∧ ps.Address.length ≠ 0 ∧
        ∃ msg ∈ [(⟨.Vote, 1, .Prepare, 0, some blockX, none, some ⟨some [7], "v"⟩⟩ :
              HotstuffMessage),
            ⟨.Vote, 1, .Prepare, 0, some blockX, none, some ⟨some [7], "vv"⟩⟩,
            ⟨.Vote, 1, .Prepare, 0, some blockX, none, some ⟨some [7], "vvv"⟩⟩],
          msg.PartialSignature = some ps ∧ msg.Height = 1 ∧ msg.Step = .Prepare ∧ msg.Round = 0 :=
  getQuorumCertificate_threshold
    { leaderNode fourValidators 1 0 with
      MessagePool := setPool (fun _ => []) .Prepare
        [⟨.Vote, 1, .Prepare, 0, some blockX, none, some ⟨some [7], "v"⟩⟩,
         ⟨.Vote, 1, .Prepare, 0, some blockX, none, some ⟨some [7], "vv"⟩⟩,
         ⟨.Vote, 1, .Prepare, 0, some blockX, none, some ⟨some [7], "vvv"⟩⟩] }
    1 .Prepare 0 _ (by decide) (by rfl)

/-- C3, counterexample: after one vote was delivered three times to a leader with four
validators, `getQuorumCertificate` returns a certificate whose three partial signatures come
from a single signer address, which is not more than two thirds of four. -/
theorem getQuorumCertificate_threshold_counterexample :
    ((anteHandleTimes scenarioCollaborators (voteOf .Prepare 1 0) 3
        (leaderNode fourValidators 1 0)).toOption.bind
      (fun m1 => ((getQuorumCertificate m1 1 .Prepare 0).toOption.map
        (fun qc => (signatureCount qc, distinctSigners qc))))) = some (3, 1) ∧
    mapLen (leaderNode fourValidators 1 0).validatorMap = 4 ∧ ¬ (2 * 4 < 3 * 1) := by
  decide

/-- C4 (amended): for every message with step Prepare, PreCommit or Commit that `anteHandle`
admits (the only path on which it appends to the message pool), `validateBlockBasic` accepts
the block of the message, and either the message is of type Propose, or it is a Vote that
carries a partial signature with signature bytes and a non-empty signer address, the address
is in the validator map, and the signature verifies against that validator's public key. -/
theorem anteHandle_admission (C : Collaborators) (m m1 : ConsensusModule)
    (msg : HotstuffMessage)
    (hstep : msg.Step = .Prepare ∨ msg.Step = .PreCommit ∨ msg.Step = .Commit)
    (h : anteHandle C m msg = .ok m1) :
    C.validateBlockBasic m msg.Block = .ok () ∧
    (msg.MessageType = .Propose ∨
      (msg.MessageType = .Vote ∧
        ∃ ps sig validator, msg.PartialSignature = some ps ∧ ps.Signature = some sig ∧
          ps.Address.length ≠ 0 ∧ mapGet m.validatorMap ps.Address = some validator ∧
          isSignatureValid C msg validator.PublicKey sig = true)) := by
  obtain ⟨hv, hp, _⟩ := anteHandle_ok C m m1 msg h
  refine ⟨hv, ?_⟩
  unfold validatePartialSignature at hp
  have hnr : msg.Step ≠ .NewRound := by
    rcases hstep with h1 | h1 | h1 <;> rw [h1] <;> decide
  rw [if_neg hnr] at hp
  cases hty : msg.MessageType with
  | Propose => exact Or.inl rfl
  | Vote =>
    right
    refine ⟨rfl, ?_⟩
    rw [hty, if_neg (by decide)] at hp
    cases hps : msg.PartialSignature with
    | none => rw [hps] at hp; cases hp
    | some ps =>
      rw [hps] at hp
      simp only at hp
      split_ifs at hp with h1
      cases hsig : ps.Signature with
      | none => exact absurd (Or.inl hsig) h1
      | some sig =>
        cases hval : mapGet m.validatorMap ps.Address with
        | none => rw [hval] at hp; cases hp
        | some validator =>
          rw [hval] at hp
          simp only at hp
          split_ifs at hp with h2
          refine ⟨ps, sig, validator, rfl, hsig, fun hc => h1 (Or.inr hc), hval, ?_⟩
          rw [hsig] at h2
          exact h2

/-- C4, witness: the signed Prepare vote of validator `vv`. -/
theorem anteHandle_admission_witness :
    scenarioCollaborators.validateBlockBasic (leaderNode fourValidators 1 0)
      (voteOf .Prepare 1 0).Block = .ok () ∧
    ((voteOf .Prepare 1 0).MessageType = .Propose ∨
      ((voteOf .Prepare 1 0).MessageType = .Vote ∧
        ∃ ps sig validator, (voteOf .Prepare 1 0).PartialSignature = some ps ∧
          ps.Signature = some sig ∧ ps.Address.length ≠ 0 ∧
          mapGet (leaderNode fourValidators 1 0).validatorMap ps.Address = some validator ∧
          isSignatureValid scenarioCollaborators (voteOf .Prepare 1 0)
            validator.PublicKey sig = true)) :=
  anteHandle_admission scenarioCollaborators (leaderNode fourValidators 1 0) _
    (voteOf .Prepare 1 0) (Or.inl rfl) (by rfl)

/-- C4, counterexample: a Propose message for Prepare without any partial signature is
appended to `pool[Prepare]`. -/
theorem anteHandle_admission_counterexample :
    (anteHandle scenarioCollaborators (leaderNode fourValidators 1 0)
        unsignedProposal).toOption.map (fun m1 => m1.MessagePool .Prepare)
      = some [unsignedProposal] ∧
    unsignedProposal.Step = .Prepare ∧ unsignedProposal.MessageType ≠ .Vote ∧
    unsignedProposal.PartialSignature = none := by
  decide

/-! ## Selection of the high certificate -/

theorem findHighQC_fold_none (msgs : List HotstuffMessage) :
    ∀ acc : Option QuorumCertificate,
      msgs.foldl findHighQCStep acc = none ↔
        acc = none ∧ ∀ msg ∈ msgs, msg.QuorumCertificate = none := by
  induction msgs with
  | nil => intro acc; simp
  | cons x xs ih =>
    intro acc
    rw [List.foldl_cons, ih]
    unfold findHighQCStep
    cases hx : x.QuorumCertificate with
    | none => simp [hx]
    | some c =>
      cases acc with
      | none => simp [hx]
      | some q =>
        simp only [hx]
        split_ifs <;> simp

theorem findHighQC_fold_some (msgs : List HotstuffMessage) :
    ∀ (acc : Option QuorumCertificate) (qc : QuorumCertificate),
      msgs.foldl findHighQCStep acc = some qc →
        (acc = some qc ∧ ∀ x ∈ msgs, ∀ c, x.QuorumCertificate = some c → c.Height ≤ qc.Height) ∨
        (∃ pre msg post, msgs = pre ++ msg :: post ∧ msg.QuorumCertificate = some qc ∧
          (∀ a, acc = some a → a.Height < qc.Height) ∧
          (∀ x ∈ pre, ∀ c, x.QuorumCertificate = some c → c.Height < qc.Height) ∧
          (∀ x ∈ post, ∀ c, x.QuorumCertificate = some c → c.Height ≤ qc.Height)) := by
  induction msgs with
  | nil =>
    intro acc qc h
    left
    exact ⟨h, by simp⟩
  | cons x xs ih =>
    intro acc qc h
    rw [List.foldl_cons] at h
    rcases ih _ qc h with ⟨hacc, hrest⟩ | ⟨pre, msg, post, hsplit, hmsg, hacc, hpre, hpost⟩
    · -- the result is the accumulator after `x`
      unfold findHighQCStep at hacc
      cases hx : x.QuorumCertificate with
      | none =>
        rw [hx] at hacc
        left
        refine ⟨hacc, ?_⟩
        intro y hy c hc
        rcases List.mem_cons.1 hy with rfl | hy
        · rw [hx] at hc; cases hc
        · exact hrest y hy c hc
      | some c0 =>
        rw [hx] at hacc
        cases acc with
        | none =>
          simp only [Option.some.injEq] at hacc
          subst hacc
          right
          refine ⟨[], x, xs, rfl, hx, by simp, by simp, hrest⟩
        | some q =>
          simp only at hacc
          split_ifs at hacc with hgt
          · simp only [Option.some.injEq] at hacc
            subst hacc
            right
            refine ⟨[], x, xs, rfl, hx, ?_, by simp, hrest⟩
            intro a ha
            simp only [Option.some.injEq] at ha
            subst ha
            exact hgt
          · simp only [Option.some.injEq] at hacc
            subst hacc
            left
            refine ⟨rfl, ?_⟩
            intro y hy c hc
            rcases List.mem_cons.1 hy with rfl | hy
            · rw [hx] at hc
              simp only [Option.some.injEq] at hc
              subst hc
              omega
            · exact hrest y hy c hc
    · -- the result comes from a later message
      right
      refine ⟨x :: pre, msg, post, by rw [hsplit]; rfl, hmsg, ?_, ?_, hpost⟩
      · intro a ha
        subst ha
        unfold findHighQCStep at hacc
        cases hx : x.QuorumCertificate with
        | none => rw [hx] at hacc; exact hacc a rfl
        | some c0 =>
          rw [hx] at hacc
          simp only at hacc
          split_ifs at hacc with hgt
          · have := hacc c0 rfl; omega
          · exact hacc a rfl
      · intro y hy c hc
        rcases List.mem_cons.1 hy with rfl | hy
        · unfold findHighQCStep at hacc
          rw [hc] at hacc
          cases acc with
          | none => exact hacc c rfl
          | some q =>
            simp only at hacc
            split_ifs at hacc with hgt
            · exact hacc c rfl
            · have := hacc q rfl; omega
        · exact hpre y hy c hc

/-- C5: `findHighQC msgs` is nil exactly when no message of `msgs` carries a certificate;
otherwise it is a certificate carried by some message of `msgs`, and its height is at least the
height of every certificate carried in `msgs`. -/
theorem findHighQC_max_height (msgs : List HotstuffMessage) :
    (findHighQC msgs = none ↔ ∀ msg ∈ msgs, msg.QuorumCertificate = none) ∧
    (∀ qc, findHighQC msgs = some qc →
      (∃ msg ∈ msgs, msg.QuorumCertificate = some qc) ∧
      ∀ msg ∈ msgs, ∀ c, msg.QuorumCertificate = some c → c.Height ≤ qc.Height) := by
  constructor
  · unfold findHighQC
    rw [findHighQC_fold_none]
    simp
  · intro qc h
    unfold findHighQC at h
    rcases findHighQC_fold_some msgs none qc h with
      ⟨hacc, _⟩ | ⟨pre, msg, post, hsplit, hmsg, _, hpre, hpost⟩
    · cases hacc
    · subst hsplit
      refine ⟨⟨msg, by simp, hmsg⟩, ?_⟩
      intro y hy c hc
      rcases List.mem_append.1 hy with hy | hy
      · exact Nat.le_of_lt (hpre y hy c hc)
      · rcases List.mem_cons.1 hy with rfl | hy
        · rw [hmsg] at hc
          simp only [Option.some.injEq] at hc
          subst hc
          exact Nat.le_refl _
        · exact hpost y hy c hc

/-- C6 (amended): ties are broken by position, not by round. For every list `msgs` carrying at
least one certificate, `findHighQC msgs` returns the first certificate of maximal height in
`msgs`: every certificate before it is strictly lower, every certificate after it is at most
as high, whatever their rounds. -/
theorem findHighQC_first_of_max_height (msgs : List HotstuffMessage)
    (hsome : ∃ msg ∈ msgs, msg.QuorumCertificate ≠ none) :
    ∃ qc pre msg post, findHighQC msgs = some qc ∧ msgs = pre ++ msg :: post ∧
      msg.QuorumCertificate = some qc ∧
      (∀ x ∈ pre, ∀ c, x.QuorumCertificate = some c → c.Height < qc.Height) ∧
      (∀ x ∈ post, ∀ c, x.QuorumCertificate = some c → c.Height ≤ qc.Height) := by
  cases h : findHighQC msgs with
  | none =>
    obtain ⟨msg, hmem, hne⟩ := hsome
    unfold findHighQC at h
    exact absurd (((findHighQC_fold_none msgs none).1 h).2 msg hmem) hne
  | some qc =>
    unfold findHighQC at h
    rcases findHighQC_fold_some msgs none qc h with
      ⟨hacc, _⟩ | ⟨pre, msg, post, hsplit, hmsg, _, hpre, hpost⟩
    · cases hacc
    · exact ⟨qc, pre, msg, post, rfl, hsplit, hmsg, hpre, hpost⟩

/-- C6, witness: two certificates of height 10, the first of round 0, the second of round 1. -/
theorem findHighQC_first_of_max_height_witness :
    ∃ qc pre msg post,
      findHighQC [newRoundVote 10 1 (some (prepareQCOfX 10 0)),
          newRoundVote 10 1 (some (prepareQCOfX 10 1))] = some qc ∧
      [newRoundVote 10 1 (some (prepareQCOfX 10 0)),
          newRoundVote 10 1 (some (prepareQCOfX 10 1))] = pre ++ msg :: post ∧
      msg.QuorumCertificate = some qc ∧
      (∀ x ∈ pre, ∀ c, x.QuorumCertificate = some c → c.Height < qc.Height) ∧
      (∀ x ∈ post, ∀ c, x.QuorumCertificate = some c → c.Height ≤ qc.Height) :=
  findHighQC_first_of_max_height _ ⟨newRoundVote 10 1 (some (prepareQCOfX 10 0)),
    by simp, by simp [newRoundVote]⟩

/-- C6, counterexample: of two certificates of the same height 10, with rounds 0 and 1,
`findHighQC` returns the first, of round 0, although the other has the larger round. -/
theorem findHighQC_first_of_max_height_counterexample :
    findHighQC [newRoundVote 10 1 (some (prepareQCOfX 10 0)),
        newRoundVote 10 1 (some (prepareQCOfX 10 1))] = some (prepareQCOfX 10 0) ∧
    (prepareQCOfX 10 1).Height = (prepareQCOfX 10 0).Height ∧
    (prepareQCOfX 10 0).Round < (prepareQCOfX 10 1).Round := by
  decide

/-! ## The NewRound handler -/

theorem anteHandle_frame (C : Collaborators) (m m1 : ConsensusModule) (msg : HotstuffMessage)
    (h : anteHandle C m msg = .ok m1) :
    m1.Height = m.Height ∧ m1.Round = m.Round ∧ m1.Step = m.Step ∧ m1.Block = m.Block ∧
      m1.HighPrepareQC = m.HighPrepareQC ∧ m1.LockedQC = m.LockedQC ∧
      m1.LeaderId = m.LeaderId ∧ m1.NodeId = m.NodeId ∧
      m1.validatorMap = m.validatorMap ∧ m1.privateKey = m.privateKey := by
  obtain ⟨_, _, h3⟩ := anteHandle_ok C m m1 msg h
  subst h3
  have hf := tempIndex_frame m msg
  exact ⟨hf.1, hf.2.1, hf.2.2.1, hf.2.2.2.1, hf.2.2.2.2.1, hf.2.2.2.2.2.1, hf.2.2.2.2.2.2.1,
    hf.2.2.2.2.2.2.2.1, hf.2.2.2.2.2.2.2.2.1, hf.2.2.2.2.2.2.2.2.2.2.2.1⟩

theorem proposeAndVote_effects (C : Collaborators) (m : ConsensusModule) (next : HotstuffStep)
    (qc : Option QuorumCertificate) :
    ∀ e ∈ proposeAndVote C m next qc,
      e = .InterruptRound ∨ (∃ p, e = .Broadcast p) ∨ ∃ a p, e = .Send a p := by
  intro e he
  unfold proposeAndVote at he
  cases hp : C.CreateProposeMessage m.Height m.Round next m.Block qc with
  | error err =>
    rw [hp] at he
    simp only [List.mem_singleton] at he
    exact Or.inl he
  | ok p =>
    rw [hp] at he
    simp only [broadcastToNodes, List.mem_append, List.mem_singleton] at he
    rcases he with he | he
    · exact Or.inr (Or.inl ⟨p, he⟩)
    · cases hv : C.CreateVoteMessage m.Height m.Round next m.Block m.privateKey with
      | error err => rw [hv] at he; simp at he
      | ok v =>
        rw [hv] at he
        unfold sendToNode at he
        cases hl : m.LeaderId with
        | none => rw [hl] at he; simp at he
        | some l =>
          rw [hl] at he
          simp only [List.mem_singleton] at he
          exact Or.inr (Or.inr ⟨_, v, he⟩)

theorem proposeAndVote_broadcast (C : Collaborators) (m : ConsensusModule)
    (next : HotstuffStep) (qc : Option QuorumCertificate) (x : HotstuffMessage) :
    Effect.Broadcast x ∈ proposeAndVote C m next qc ↔
      C.CreateProposeMessage m.Height m.Round next m.Block qc = .ok x := by
  unfold proposeAndVote
  cases hp : C.CreateProposeMessage m.Height m.Round next m.Block qc with
  | error err => simp
  | ok p =>
    simp only [broadcastToNodes, List.mem_append, List.mem_singleton, Effect.Broadcast.injEq,
      Except.ok.injEq]
    constructor
    · rintro (h | h)
      · exact h.symm
      · cases hv : C.CreateVoteMessage m.Height m.Round next m.Block m.privateKey with
        | error err => rw [hv] at h; simp at h
        | ok v =>
          rw [hv] at h
          unfold sendToNode at h
          cases hl : m.LeaderId with
          | none => rw [hl] at h; simp at h
          | some l => rw [hl] at h; simp at h
    · intro h
      exact Or.inl h.symm

theorem handleNewRoundBody_fresh (C : Collaborators) (m m1 : ConsensusModule)
    (msg : HotstuffMessage) (ctx : UtilityContext)
    (hante : anteHandle C m msg = .ok m1)
    (hq : didReceiveEnoughMessageForStep m1 .NewRound = .ok ())
    (href : C.refreshUtilityContext m1 = .ok ctx)
    (hna : highPrepareQCNotApplicable { m1 with UtilityContext := ctx }
      (findHighQC (m1.MessagePool .NewRound)) = true) :
    handleNewRoundBody C m msg =
      match prepareAndApplyBlock C { m1 with UtilityContext := ctx } with
      | (.error _, effs) =>
        ({ m1 with UtilityContext := ctx },
          [.RefreshUtilityContext] ++ effs ++ [.InterruptRound])
      | (.ok block, effs) =>
        ({ m1 with UtilityContext := ctx, Block := some block, Step := .Prepare,
                   MessagePool := setPool m1.MessagePool .NewRound [] },
          [.RefreshUtilityContext] ++ effs ++
            proposeAndVote C
              { m1 with UtilityContext := ctx, Block := some block, Step := .Prepare,
                        MessagePool := setPool m1.MessagePool .NewRound [] }
              .Prepare (findHighQC (m1.MessagePool .NewRound))) := by
  unfold handleNewRoundBody
  rw [hante]
  simp only
  rw [hq]
  simp only
  rw [href]
  simp only
  rw [if_pos hna]

theorem handleNewRoundBody_adopt (C : Collaborators) (m m1 : ConsensusModule)
    (msg : HotstuffMessage) (ctx : UtilityContext) (qc : QuorumCertificate)
    (hante : anteHandle C m msg = .ok m1)
    (hq : didReceiveEnoughMessageForStep m1 .NewRound = .ok ())
    (href : C.refreshUtilityContext m1 = .ok ctx)
    (hqc : findHighQC (m1.MessagePool .NewRound) = some qc)
    (hna : highPrepareQCNotApplicable { m1 with UtilityContext := ctx } (some qc) = false) :
    handleNewRoundBody C m msg =
      match C.applyBlock { m1 with UtilityContext := ctx } qc.Block with
      | .error _ =>
        ({ m1 with UtilityContext := ctx },
          [.RefreshUtilityContext, .ApplyBlock qc.Block, .InterruptRound])
      | .ok _ =>
        ({ m1 with UtilityContext := ctx, Block := qc.Block, Step := .Prepare,
                   MessagePool := setPool m1.MessagePool .NewRound [] },
          [.RefreshUtilityContext, .ApplyBlock qc.Block] ++
            proposeAndVote C
              { m1 with UtilityContext := ctx, Block := qc.Block, Step := .Prepare,
                        MessagePool := setPool m1.MessagePool .NewRound [] }
              .Prepare (some qc)) := by
  unfold handleNewRoundBody
  rw [hante]
  simp only
  rw [hq]
  simp only
  rw [href]
  simp only
  rw [hqc, if_neg (by rw [hna]; decide)]
  rfl

theorem highPrepareQCNotApplicable_some (m : ConsensusModule) (qc : QuorumCertificate) :
    highPrepareQCNotApplicable m (some qc) = true ↔
      qc.Height < m.Height ∨ qc.Round < m.Round := by
  simp [highPrepareQCNotApplicable]

/-- C7: in `HandleNewRoundMessage`, once the message is admitted, the NewRound quorum is met
and the utility context is refreshed, with `highPrepareQC = findHighQC(pool[NewRound])`: if
`highPrepareQC` is nil, or its height is below `Height`, or its round is below `Round`, the
leader's `Block` becomes the block `prepareAndApplyBlock` returns; otherwise `applyBlock` is
called on `highPrepareQC.Block`, and when it succeeds the leader's `Block` becomes
`highPrepareQC.Block`. -/
theorem HandleNewRoundMessage_block (C : Collaborators) (m m1 : ConsensusModule)
    (msg : HotstuffMessage) (ctx : UtilityContext)
    (hante : anteHandle C m msg = .ok m1)
    (hq : didReceiveEnoughMessageForStep m1 .NewRound = .ok ())
    (href : C.refreshUtilityContext m1 = .ok ctx) :
    ((findHighQC (m1.MessagePool .NewRound) = none ∨
        ∃ qc, findHighQC (m1.MessagePool .NewRound) = some qc ∧
          (qc.Height < m.Height ∨ qc.Round < m.Round)) →
      ∀ block effs, prepareAndApplyBlock C { m1 with UtilityContext := ctx } = (.ok block, effs) →
        (HandleNewRoundMessage C m msg).1.Block = some block) ∧
    (∀ qc, findHighQC (m1.MessagePool .NewRound) = some qc →
      ¬ qc.Height < m.Height → ¬ qc.Round < m.Round →
        Effect.ApplyBlock qc.Block ∈ (HandleNewRoundMessage C m msg).2 ∧
        (C.applyBlock { m1 with UtilityContext := ctx } qc.Block = .ok () →
          (HandleNewRoundMessage C m msg).1.Block = qc.Block)) := by
  obtain ⟨fh, fr, _⟩ := anteHandle_frame C m m1 msg hante
  constructor
  · intro hcond block effs hprep
    have hna : highPrepareQCNotApplicable { m1 with UtilityContext := ctx }
        (findHighQC (m1.MessagePool .NewRound)) = true := by
      rcases hcond with h | ⟨qc, h, hlt⟩
      · rw [h]; rfl
      · rw [h, highPrepareQCNotApplicable_some]
        simp only
        rw [fh, fr]; exact hlt
    unfold HandleNewRoundMessage
    simp only
    rw [handleNewRoundBody_fresh C m m1 msg ctx hante hq href hna, hprep]
  · intro qc hqc h1 h2
    have hna : highPrepareQCNotApplicable { m1 with UtilityContext := ctx } (some qc) = false := by
      cases hb : highPrepareQCNotApplicable { m1 with UtilityContext := ctx } (some qc) with
      | false => rfl
      | true =>
        rw [highPrepareQCNotApplicable_some] at hb
        simp only at hb
        rw [fh, fr] at hb
        rcases hb with hb | hb
        · exact absurd hb h1
        · exact absurd hb h2
    unfold HandleNewRoundMessage
    simp only
    rw [handleNewRoundBody_adopt C m m1 msg ctx qc hante hq href hqc hna]
    cases ha : C.applyBlock { m1 with UtilityContext := ctx } qc.Block with
    | error e => simp
    | ok u => simp

/-- C7, witness: the third NewRound vote, none carrying a certificate, makes the leader
prepare a fresh block. -/
theorem HandleNewRoundMessage_block_witness :
    (HandleNewRoundMessage scenarioCollaborators (newRoundLeader 1 0 none)
      (newRoundVote 1 0 none)).1.Block = some (freshBlock 1) :=
  (HandleNewRoundMessage_block scenarioCollaborators (newRoundLeader 1 0 none)
    (tempIndexHotstuffMessage (newRoundLeader 1 0 none) (newRoundVote 1 0 none))
    (newRoundVote 1 0 none) ⟨1⟩ (by rfl) (by rfl) (by rfl)).1 (Or.inl (by rfl))
    (freshBlock 1) _ (by rfl)

theorem validatePartialSignature_newRound (C : Collaborators) (m : ConsensusModule)
    (msg : HotstuffMessage) (h : msg.Step = .NewRound) :
    validatePartialSignature C m msg = .ok () := by
  unfold validatePartialSignature
  rw [if_pos h]

theorem findHighQC_three (v1 v2 v3 : HotstuffMessage) (q : QuorumCertificate)
    (h1 : v1.QuorumCertificate = some q) (h2 : v2.QuorumCertificate = some q)
    (h3 : v3.QuorumCertificate = some q) : findHighQC [v1, v2, v3] = some q := by
  simp [findHighQC, findHighQCStep, h1, h2, h3]

theorem prepareAndApplyBlock_leader (C : Collaborators) (m : ConsensusModule)
    (hl : isLeader m = true) :
    Effect.GetProposalTransactions (C.Address m.privateKey) 90000 [] ∈
        (prepareAndApplyBlock C m).2 ∧
      ∀ b, Effect.ApplyBlock b ∉ (prepareAndApplyBlock C m).2 := by
  unfold prepareAndApplyBlock
  have hr : isReplica m = false := by simp [isReplica, hl]
  rw [hr]
  simp only [Bool.false_eq_true, if_false]
  cases h1 : C.GetProposalTransactions m.UtilityContext (C.Address m.privateKey) 90000 [] with
  | error e => simp
  | ok txs =>
    simp only
    cases h2 : C.ApplyBlock m.UtilityContext (int64OfUint64 m.Height)
        (C.Address m.privateKey) txs [] with
    | error e => simp
    | ok appHash => simp

/-- C8 (amended): a leader at (height 10, round 1) with four validators whose NewRound pool
reaches quorum with three votes that all carry a PrepareQC of height 10 for block `X` adopts
`X` only when the certificate's round is at least 1: it then calls `applyBlock` on `X`, makes
no `GetProposalTransactions` call and, when `applyBlock` succeeds, sets its `Block` to `X` and
broadcasts the Prepare proposal built for `X`. When the certificate was formed at round 0, as
in the scenario, the leader calls `GetProposalTransactions`, does not call `applyBlock` on the
certificate's block and, when the utility layer succeeds, sets its `Block` to the block
`prepareAndApplyBlock` returns. -/
theorem HandleNewRoundMessage_view_change (C : Collaborators) (m m1 : ConsensusModule)
    (v1 v2 v3 : HotstuffMessage) (q : QuorumCertificate) (X : Block) (ctx : UtilityContext)
    (hh : m.Height = 10) (hr : m.Round = 1) (hl : isLeader m = true)
    (hN : mapLen m.validatorMap = 4) (hcap : sizeofMessagePool ≤ m.MaxMempoolBytes)
    (hpool : m.MessagePool .NewRound = [v1, v2]) (hstep : v3.Step = .NewRound)
    (hv1 : v1.QuorumCertificate = some q) (hv2 : v2.QuorumCertificate = some q)
    (hv3 : v3.QuorumCertificate = some q) (hqh : q.Height = 10) (hqb : q.Block = some X)
    (hante : anteHandle C m v3 = .ok m1)
    (href : C.refreshUtilityContext m1 = .ok ctx) :
    (1 ≤ q.Round →
      Effect.ApplyBlock (some X) ∈ (HandleNewRoundMessage C m v3).2 ∧
      (∀ a b c, Effect.GetProposalTransactions a b c ∉ (HandleNewRoundMessage C m v3).2) ∧
      (C.applyBlock { m1 with UtilityContext := ctx } (some X) = .ok () →
        (HandleNewRoundMessage C m v3).1.Block = some X ∧
        ∀ p, C.CreateProposeMessage 10 1 .Prepare (some X) (some q) = .ok p →
          Effect.Broadcast p ∈ (HandleNewRoundMessage C m v3).2)) ∧
    (q.Round = 0 →
      Effect.GetProposalTransactions (C.Address m.privateKey) 90000 [] ∈
        (HandleNewRoundMessage C m v3).2 ∧
      (∀ b, Effect.ApplyBlock b ∉ (HandleNewRoundMessage C m v3).2) ∧
      ∀ block effs,
        prepareAndApplyBlock C { m1 with UtilityContext := ctx } = (.ok block, effs) →
          (HandleNewRoundMessage C m v3).1.Block = some block) := by
  obtain ⟨fh, fr, _, _, _, _, fl, fn, fv, fk⟩ := anteHandle_frame C m m1 v3 hante
  have hp1 : m1.MessagePool .NewRound = [v1, v2, v3] := by
    rw [(anteHandle_ok C m m1 v3 hante).2.2, tempIndex_pool m v3 hcap, hstep, setPool_same,
      hpool]
    rfl
  have hq : didReceiveEnoughMessageForStep m1 .NewRound = .ok () := by
    unfold didReceiveEnoughMessageForStep
    rw [isOptimisticThresholdMet_iff _ _ (by rw [fv, hN]; norm_num), hp1, fv, hN]
    simp
  have hqc : findHighQC (m1.MessagePool .NewRound) = some q := by
    rw [hp1]; exact findHighQC_three v1 v2 v3 q hv1 hv2 hv3
  constructor
  · intro hround
    have hna : highPrepareQCNotApplicable { m1 with UtilityContext := ctx } (some q)
        = false := by
      cases hb : highPrepareQCNotApplicable { m1 with UtilityContext := ctx } (some q) with
      | false => rfl
      | true =>
        rw [highPrepareQCNotApplicable_some] at hb
        simp only at hb
        rw [fh, fr, hh, hr, hqh] at hb
        omega
    have hbody := handleNewRoundBody_adopt C m _ v3 ctx q hante hq href hqc hna
    rw [hqb] at hbody
    unfold HandleNewRoundMessage
    simp only
    rw [hbody]
    cases ha : C.applyBlock { m1 with UtilityContext := ctx } (some X) with
    | error e => simp
    | ok u =>
      simp only
      refine ⟨by simp, ?_, ?_⟩
      · intro a b c hmem
        simp only [List.mem_append, List.mem_cons, List.mem_singleton, List.not_mem_nil,
          or_false, reduceCtorEq, false_or] at hmem
        rcases proposeAndVote_effects C _ _ _ _ hmem with h | ⟨p, h⟩ | ⟨x, p, h⟩ <;> cases h
      · intro _
        refine ⟨trivial, ?_⟩
        intro p hp
        apply List.mem_append_left
        apply List.mem_append_right
        apply List.mem_append_right
        rw [proposeAndVote_broadcast]
        simp only
        rw [fh, fr, hh, hr]
        exact hp
  · intro hround
    have hna : highPrepareQCNotApplicable { m1 with UtilityContext := ctx }
        (findHighQC (m1.MessagePool .NewRound)) = true := by
      rw [hqc, highPrepareQCNotApplicable_some]
      simp only
      rw [fr, hr, hround]
      exact Or.inr (by norm_num)
    have hbody := handleNewRoundBody_fresh C m _ v3 ctx hante hq href hna
    have hl2 : isLeader { m1 with UtilityContext := ctx } = true := by
      unfold isLeader at hl ⊢
      simp only
      rw [fl, fn]
      exact hl
    obtain ⟨hg, hnoapply⟩ := prepareAndApplyBlock_leader C
      { m1 with UtilityContext := ctx } hl2
    unfold HandleNewRoundMessage
    simp only
    rw [hbody]
    rcases hres : prepareAndApplyBlock C { m1 with UtilityContext := ctx } with ⟨res, effs⟩
    rw [hres] at hg hnoapply
    simp only at hg hnoapply
    rw [fk] at hg
    cases res with
    | error e =>
      simp only
      refine ⟨by simp [hg], ?_, ?_⟩
      · intro b hmem
        simp only [List.mem_append, List.mem_cons, List.mem_singleton, List.not_mem_nil,
          or_false, reduceCtorEq, false_or] at hmem
        exact hnoapply b hmem
      · intro block effs2 h; cases h
    | ok blk =>
      simp only
      refine ⟨by simp [hg], ?_, ?_⟩
      · intro b hmem
        simp only [List.mem_append, List.mem_cons, List.mem_singleton, List.not_mem_nil,
          or_false, reduceCtorEq, false_or] at hmem
        rcases hmem with hmem | hmem
        · exact hnoapply b hmem
        · rcases proposeAndVote_effects C _ _ _ _ hmem with h | ⟨p, h⟩ | ⟨x, p, h⟩ <;> cases h
      · intro block effs2 h
        simp only [Prod.mk.injEq, Except.ok.injEq] at h
        rw [h.1]

/-- C8, witness: the three votes carry a PrepareQC for `X` formed at (height 10, round 1); the
leader at (10, 1) adopts `X`. -/
theorem HandleNewRoundMessage_view_change_witness :
    (HandleNewRoundMessage scenarioCollaborators (newRoundLeader 10 1 (some (prepareQCOfX 10 1)))
      (newRoundVote 10 1 (some (prepareQCOfX 10 1)))).1.Block = some blockX :=
  (((HandleNewRoundMessage_view_change scenarioCollaborators
    (newRoundLeader 10 1 (some (prepareQCOfX 10 1)))
    (tempIndexHotstuffMessage (newRoundLeader 10 1 (some (prepareQCOfX 10 1)))
      (newRoundVote 10 1 (some (prepareQCOfX 10 1))))
    (newRoundVote 10 1 (some (prepareQCOfX 10 1)))
    (newRoundVote 10 1 (some (prepareQCOfX 10 1)))
    (newRoundVote 10 1 (some (prepareQCOfX 10 1)))
    (prepareQCOfX 10 1) blockX ⟨1⟩ rfl rfl (by rfl) (by decide) (by decide) (by rfl) rfl rfl rfl
    rfl rfl rfl (by rfl) (by rfl)).1 (by decide)).2.2 (by rfl)).1

/-- C8, counterexample: the scenario itself. The leader at (height 10, round 1) with four
validators receives the third NewRound vote carrying the PrepareQC formed at (height 10,
round 0) for `X`; it calls `GetProposalTransactions`, never calls `applyBlock` on `X`, and its
`Block` becomes the freshly prepared block, not `X`. -/
theorem HandleNewRoundMessage_view_change_counterexample :
    Effect.GetProposalTransactions [1] 90000 [] ∈
      (HandleNewRoundMessage scenarioCollaborators
        (newRoundLeader 10 1 (some (prepareQCOfX 10 0)))
        (newRoundVote 10 1 (some (prepareQCOfX 10 0)))).2 ∧
    Effect.ApplyBlock (some blockX) ∉
      (HandleNewRoundMessage scenarioCollaborators
        (newRoundLeader 10 1 (some (prepareQCOfX 10 0)))
        (newRoundVote 10 1 (some (prepareQCOfX 10 0)))).2 ∧
    (HandleNewRoundMessage scenarioCollaborators
        (newRoundLeader 10 1 (some (prepareQCOfX 10 0)))
        (newRoundVote 10 1 (some (prepareQCOfX 10 0)))).1.Block = some (freshBlock 10) ∧
    freshBlock 10 ≠ blockX ∧
    Effect.Broadcast ⟨.Propose, 10, .Prepare, 1, some (freshBlock 10),
        some (prepareQCOfX 10 0), none⟩ ∈
      (HandleNewRoundMessage scenarioCollaborators
        (newRoundLeader 10 1 (some (prepareQCOfX 10 0)))
        (newRoundVote 10 1 (some (prepareQCOfX 10 0)))).2 := by
  decide

/-! ## The Prepare and PreCommit handlers -/

theorem broadcastsOf_proposeAndVote (C : Collaborators) (m : ConsensusModule)
    (next : HotstuffStep) (qc : Option QuorumCertificate) :
    broadcastsOf (proposeAndVote C m next qc) =
      match C.CreateProposeMessage m.Height m.Round next m.Block qc with
      | .ok p => [p]
      | .error _ => [] := by
  unfold proposeAndVote
  cases hp : C.CreateProposeMessage m.Height m.Round next m.Block qc with
  | error err => rfl
  | ok p =>
    simp only
    cases hv : C.CreateVoteMessage m.Height m.Round next m.Block m.privateKey with
    | error err => rfl
    | ok v =>
      unfold sendToNode
      cases hl : m.LeaderId with
      | none => rfl
      | some l => rfl

theorem broadcastsOf_handler (step : HotstuffStep) (effs : List Effect) :
    broadcastsOf ([Effect.EmitEvent step] ++ effs ++ [Effect.RestartTimer]) =
      broadcastsOf effs := by
  simp [broadcastsOf, List.filterMap_append]

theorem interruptRound_mem_proposeAndVote (C : Collaborators) (m : ConsensusModule)
    (next : HotstuffStep) (qc : Option QuorumCertificate) :
    Effect.InterruptRound ∈ proposeAndVote C m next qc ↔
      ∃ e, C.CreateProposeMessage m.Height m.Round next m.Block qc = .error e := by
  unfold proposeAndVote
  cases hp : C.CreateProposeMessage m.Height m.Round next m.Block qc with
  | error err => simp
  | ok p =>
    simp only [broadcastToNodes, List.mem_append, List.mem_singleton, reduceCtorEq, false_or,
      exists_false, iff_false]
    cases hv : C.CreateVoteMessage m.Height m.Round next m.Block m.privateKey with
    | error err => simp
    | ok v =>
      unfold sendToNode
      cases hl : m.LeaderId with
      | none => simp
      | some l => simp

theorem interruptRound_mem_handler (step : HotstuffStep) (effs : List Effect) :
    Effect.InterruptRound ∈ [Effect.EmitEvent step] ++ effs ++ [Effect.RestartTimer] ↔
      Effect.InterruptRound ∈ effs := by
  simp

theorem getQuorumCertificate_fields (m : ConsensusModule) (height : Nat)
    (step : HotstuffStep) (round : Nat) (qc : QuorumCertificate)
    (h : getQuorumCertificate m height step round = .ok qc) :
    qc.Height = height ∧ qc.Step = step ∧ qc.Round = round ∧ qc.Block = m.Block := by
  obtain ⟨_, h2⟩ := getQuorumCertificate_ok m height step round qc h
  subst h2
  exact ⟨rfl, rfl, rfl, rfl⟩

/-- C9: in `HandlePrepareMessage`, whenever the admitted message brings `pool[Prepare]` to
quorum and `getQuorumCertificate(Height, Prepare, Round)` succeeds with certificate `qc`, then
on return `Step = PreCommit` and `HighPrepareQC = qc`, where `qc` has the leader's height, step
Prepare, the leader's round and the leader's current `Block`; and the proposal broadcast is the
one `CreateProposeMessage` builds from `(Height, Round, PreCommit, Block, qc)`. Only when that
construction fails is nothing broadcast and the pacemaker asked to interrupt the round. -/
theorem HandlePrepareMessage_quorum (C : Collaborators) (m m1 : ConsensusModule)
    (msg : HotstuffMessage) (qc : QuorumCertificate)
    (hante : anteHandle C m msg = .ok m1)
    (hq : didReceiveEnoughMessageForStep m1 .Prepare = .ok ())
    (hqc : getQuorumCertificate m1 m.Height .Prepare m.Round = .ok qc) :
    (HandlePrepareMessage C m msg).1.Step = .PreCommit ∧
    (HandlePrepareMessage C m msg).1.HighPrepareQC = some qc ∧
    qc.Height = m.Height ∧ qc.Step = .Prepare ∧ qc.Round = m.Round ∧ qc.Block = m.Block ∧
    (HandlePrepareMessage C m msg).1.Block = m.Block ∧
    broadcastsOf (HandlePrepareMessage C m msg).2 =
      (match C.CreateProposeMessage m.Height m.Round .PreCommit m.Block (some qc) with
       | .ok p => [p]
       | .error _ => []) ∧
    (Effect.InterruptRound ∈ (HandlePrepareMessage C m msg).2 ↔
      ∃ e, C.CreateProposeMessage m.Height m.Round .PreCommit m.Block (some qc) = .error e) := by
  obtain ⟨fh, fr, _, fb, _⟩ := anteHandle_frame C m m1 msg hante
  obtain ⟨g1, g2, g3, g4⟩ := getQuorumCertificate_fields m1 _ _ _ qc hqc
  have hqc1 : getQuorumCertificate m1 m1.Height .Prepare m1.Round = .ok qc := by
    rw [fh, fr]; exact hqc
  have hbody : handlePrepareBody C m msg =
      ({ m1 with Step := .PreCommit, HighPrepareQC := some qc,
                 MessagePool := setPool m1.MessagePool .Prepare [] },
        proposeAndVote C
          { m1 with Step := .PreCommit, HighPrepareQC := some qc,
                    MessagePool := setPool m1.MessagePool .Prepare [] }
          .PreCommit (some qc)) := by
    unfold handlePrepareBody
    rw [hante]
    simp only
    rw [hq]
    simp only
    rw [hqc1]
  unfold HandlePrepareMessage
  simp only
  rw [hbody]
  refine ⟨rfl, rfl, g1, g2, g3, by rw [g4, fb], fb, ?_, ?_⟩
  · rw [broadcastsOf_handler, broadcastsOf_proposeAndVote]
    simp only
    rw [fh, fr, fb]
  · rw [interruptRound_mem_handler, interruptRound_mem_proposeAndVote]
    simp only
    rw [fh, fr, fb]

/-- C9, witness: the third Prepare vote reaches a leader with four validators. -/
theorem HandlePrepareMessage_quorum_witness :
    (HandlePrepareMessage scenarioCollaborators (votingLeader .Prepare 1 0)
        (signedVote "vv" .Prepare 1 0)).1.Step = .PreCommit ∧
    broadcastsOf (HandlePrepareMessage scenarioCollaborators (votingLeader .Prepare 1 0)
        (signedVote "vv" .Prepare 1 0)).2 =
      [⟨.Propose, 1, .PreCommit, 0, some blockX,
        some ⟨1, .Prepare, 0, some blockX,
          some ⟨[⟨some [7], "v"⟩, ⟨some [7], "vvv"⟩, ⟨some [7], "vv"⟩]⟩⟩, none⟩] :=
  have h := HandlePrepareMessage_quorum scenarioCollaborators (votingLeader .Prepare 1 0)
    (tempIndexHotstuffMessage (votingLeader .Prepare 1 0) (signedVote "vv" .Prepare 1 0))
    (signedVote "vv" .Prepare 1 0)
    ⟨1, .Prepare, 0, some blockX,
      some ⟨[⟨some [7], "v"⟩, ⟨some [7], "vvv"⟩, ⟨some [7], "vv"⟩]⟩⟩
    (by rfl) (by rfl) (by rfl)
  ⟨h.1, h.2.2.2.2.2.2.2.1⟩

/-- C10: in `HandlePrecommitMessage`, whenever the admitted message brings `pool[PreCommit]`
to quorum and `getQuorumCertificate(Height, PreCommit, Round)` succeeds with certificate `qc`,
then on return `Step = Commit` and `LockedQC = qc`, the PreCommit certificate of the leader's
current block at its height and round, and `HighPrepareQC` is unchanged. The pacemaker is
asked to interrupt the round only when the next proposal cannot be built. -/
theorem HandlePrecommitMessage_quorum (C : Collaborators) (m m1 : ConsensusModule)
    (msg : HotstuffMessage) (qc : QuorumCertificate)
    (hante : anteHandle C m msg = .ok m1)
    (hq : didReceiveEnoughMessageForStep m1 .PreCommit = .ok ())
    (hqc : getQuorumCertificate m1 m.Height .PreCommit m.Round = .ok qc) :
    (HandlePrecommitMessage C m msg).1.Step = .Commit ∧
    (HandlePrecommitMessage C m msg).1.LockedQC = some qc ∧
    qc.Height = m.Height ∧ qc.Step = .PreCommit ∧ qc.Round = m.Round ∧ qc.Block = m.Block ∧
    (HandlePrecommitMessage C m msg).1.Block = m.Block ∧
    (HandlePrecommitMessage C m msg).1.HighPrepareQC = m.HighPrepareQC ∧
    (Effect.InterruptRound ∈ (HandlePrecommitMessage C m msg).2 ↔
      ∃ e, C.CreateProposeMessage m.Height m.Round .Commit m.Block (some qc) = .error e) := by
  obtain ⟨fh, fr, _, fb, fhq, _⟩ := anteHandle_frame C m m1 msg hante
  obtain ⟨g1, g2, g3, g4⟩ := getQuorumCertificate_fields m1 _ _ _ qc hqc
  have hqc1 : getQuorumCertificate m1 m1.Height .PreCommit m1.Round = .ok qc := by
    rw [fh, fr]; exact hqc
  have hbody : handlePrecommitBody C m msg =
      ({ m1 with Step := .Commit, LockedQC := some qc,
                 MessagePool := setPool m1.MessagePool .PreCommit [] },
        proposeAndVote C
          { m1 with Step := .Commit, LockedQC := some qc,
                    MessagePool := setPool m1.MessagePool .PreCommit [] }
          .Commit (some qc)) := by
    unfold handlePrecommitBody
    rw [hante]
    simp only
    rw [hq]
    simp only
    rw [hqc1]
  unfold HandlePrecommitMessage
  simp only
  rw [hbody]
  refine ⟨rfl, rfl, g1, g2, g3, by rw [g4, fb], fb, fhq, ?_⟩
  rw [interruptRound_mem_handler, interruptRound_mem_proposeAndVote]
  simp only
  rw [fh, fr, fb]

/-- C10, witness: the third PreCommit vote reaches a leader with four validators. -/
theorem HandlePrecommitMessage_quorum_witness :
    (HandlePrecommitMessage scenarioCollaborators (votingLeader .PreCommit 1 0)
        (signedVote "vv" .PreCommit 1 0)).1.Step = .Commit ∧
    (HandlePrecommitMessage scenarioCollaborators (votingLeader .PreCommit 1 0)
        (signedVote "vv" .PreCommit 1 0)).1.LockedQC =
      some ⟨1, .PreCommit, 0, some blockX,
        some ⟨[⟨some [7], "v"⟩, ⟨some [7], "vvv"⟩, ⟨some [7], "vv"⟩]⟩⟩ :=
  have h := HandlePrecommitMessage_quorum scenarioCollaborators (votingLeader .PreCommit 1 0)
    (tempIndexHotstuffMessage (votingLeader .PreCommit 1 0) (signedVote "vv" .PreCommit 1 0))
    (signedVote "vv" .PreCommit 1 0)
    ⟨1, .PreCommit, 0, some blockX,
      some ⟨[⟨some [7], "v"⟩, ⟨some [7], "vvv"⟩, ⟨some [7], "vv"⟩]⟩⟩
    (by rfl) (by rfl) (by rfl)
  ⟨h.1, h.2.1⟩

/-! ## Leader election -/

/-- C20: for every message and every result `(id, err)` of the leader-election collaborator,
after `electNextLeader` the node's `LeaderId` is nil if `err` is non-nil or `id = 0`, and
otherwise `LeaderId = id`; so `isLeader()` holds afterwards exactly when `err` is nil,
`id ≠ 0` and `id` is the node's own `NodeId`, and `isReplica()` is its negation. -/
theorem electNextLeader_leaderId (C : Collaborators) (m : ConsensusModule)
    (message : HotstuffMessage) :
    ((C.ElectNextLeader m message).2 ≠ none ∨ (C.ElectNextLeader m message).1 = 0 →
      (electNextLeader C m message).1.LeaderId = none) ∧
    ((C.ElectNextLeader m message).2 = none → (C.ElectNextLeader m message).1 ≠ 0 →
      (electNextLeader C m message).1.LeaderId = some (C.ElectNextLeader m message).1) ∧
    (isLeader (electNextLeader C m message).1 = true ↔
      (C.ElectNextLeader m message).2 = none ∧ (C.ElectNextLeader m message).1 ≠ 0 ∧
        (C.ElectNextLeader m message).1 = m.NodeId) ∧
    isReplica (electNextLeader C m message).1 = !isLeader (electNextLeader C m message).1 := by
  unfold electNextLeader
  rcases hres : C.ElectNextLeader m message with ⟨leaderId, err⟩
  simp only
  by_cases hfail : err ≠ none ∨ leaderId = 0
  · rw [if_pos hfail]
    refine ⟨fun _ => rfl, ?_, ?_, rfl⟩
    · intro h1 h2
      rcases hfail with h | h
      · exact absurd h1 h
      · exact absurd h h2
    · simp only [isLeader, clearLeader]
      constructor
      · intro h; cases h
      · rintro ⟨h1, h2, _⟩
        rcases hfail with h | h
        · exact absurd h1 h
        · exact absurd h h2
  · rw [if_neg hfail]
    have h1 : err = none := by
      by_contra hc; exact hfail (Or.inl hc)
    have h2 : leaderId ≠ 0 := fun hc => hfail (Or.inr hc)
    refine ⟨fun h => absurd h hfail, ?_, ?_, rfl⟩
    · intro _ _
      split_ifs <;> rfl
    · constructor
      · intro h
        refine ⟨h1, h2, ?_⟩
        split_ifs at h <;> simpa [isLeader] using h
      · rintro ⟨_, _, h3⟩
        split_ifs <;> simp [isLeader, h3]

/-! ## Paths of the leader handlers -/

theorem anteHandle_error_of_invalid (C : Collaborators) (m : ConsensusModule)
    (msg : HotstuffMessage)
    (h : (∃ e, C.validateBlockBasic m msg.Block = .error e) ∨
      (∃ e, validatePartialSignature C m msg = .error e)) :
    ∃ e, anteHandle C m msg = .error e := by
  unfold anteHandle
  cases hv : C.validateBlockBasic m msg.Block with
  | error e => exact ⟨e, rfl⟩
  | ok u =>
    rcases h with ⟨e, h⟩ | ⟨e, h⟩
    · rw [hv] at h; cases h
    · simp only
      rw [h]
      exact ⟨e, rfl⟩

/-- C15: for every leader handler, if `validateBlockBasic(msg.Block)` or
`validatePartialSignature(msg)` returns an error, the module is unchanged on return (every
slot of the message pool, `Step`, `Block`, `HighPrepareQC`, `LockedQC` and all other fields),
and the handler's only calls are the telemetry event and the deferred `RestartTimer`: nothing
is broadcast or sent, and neither `InterruptRound`, `NewHeight` nor `commitBlock` is invoked. -/
theorem leaderHandlers_validation_failure (C : Collaborators) (m : ConsensusModule)
    (msg : HotstuffMessage) (step : HotstuffStep)
    (h : (∃ e, C.validateBlockBasic m msg.Block = .error e) ∨
      (∃ e, validatePartialSignature C m msg = .error e)) :
    (leaderHandlers step C m msg).1 = m ∧
    (leaderHandlers step C m msg).2 = [.EmitEvent msg.Step, .RestartTimer] := by
  obtain ⟨e, he⟩ := anteHandle_error_of_invalid C m msg h
  cases step <;>
    simp [leaderHandlers, HandleNewRoundMessage, handleNewRoundBody, HandlePrepareMessage,
      handlePrepareBody, HandlePrecommitMessage, handlePrecommitBody, HandleCommitMessage,
      handleCommitBody, HandleDecideMessage, he]

/-- C15, witness: a Prepare vote whose signature does not verify reaches the Prepare
handler. -/
theorem leaderHandlers_validation_failure_witness :
    (leaderHandlers .Prepare scenarioCollaborators (votingLeader .Prepare 1 0)
        (forgedVote .Prepare 1 0)).2 = [.EmitEvent .Prepare, .RestartTimer] :=
  (leaderHandlers_validation_failure scenarioCollaborators (votingLeader .Prepare 1 0)
    (forgedVote .Prepare 1 0) .Prepare
    (Or.inr ⟨.ErrValidatingPartialSig "vv" 2 (forgedVote .Prepare 1 0) "pk", by rfl⟩)).2

theorem prepareAndApplyBlock_effects (C : Collaborators) (m : ConsensusModule) :
    ∀ e ∈ (prepareAndApplyBlock C m).2,
      (∃ a b c, e = .GetProposalTransactions a b c) ∨ ∃ a b c d, e = .UtilityApplyBlock a b c d := by
  intro e he
  unfold prepareAndApplyBlock at he
  split_ifs at he with hr
  · simp at he
  · simp only at he
    cases h1 : C.GetProposalTransactions m.UtilityContext (C.Address m.privateKey) 90000 [] with
    | error err =>
      rw [h1] at he
      simp only [List.mem_singleton] at he
      exact Or.inl ⟨_, _, _, he⟩
    | ok txs =>
      rw [h1] at he
      simp only at he
      cases h2 : C.ApplyBlock m.UtilityContext (int64OfUint64 m.Height)
          (C.Address m.privateKey) txs [] with
      | error err =>
        rw [h2] at he
        simp only [List.mem_cons, List.mem_singleton, List.not_mem_nil, or_false] at he
        rcases he with he | he
        · exact Or.inl ⟨_, _, _, he⟩
        · exact Or.inr ⟨_, _, _, _, he⟩
      | ok appHash =>
        rw [h2] at he
        simp only [List.mem_cons, List.mem_singleton, List.not_mem_nil, or_false] at he
        rcases he with he | he
        · exact Or.inl ⟨_, _, _, he⟩
        · exact Or.inr ⟨_, _, _, _, he⟩

theorem restartTimer_not_mem_proposeAndVote (C : Collaborators) (m : ConsensusModule)
    (next : HotstuffStep) (qc : Option QuorumCertificate) :
    Effect.RestartTimer ∉ proposeAndVote C m next qc := by
  intro h
  rcases proposeAndVote_effects C m next qc _ h with h | ⟨p, h⟩ | ⟨a, p, h⟩ <;> cases h

theorem restartTimer_not_mem_prepareAndApplyBlock (C : Collaborators) (m : ConsensusModule) :
    Effect.RestartTimer ∉ (prepareAndApplyBlock C m).2 := by
  intro h
  rcases prepareAndApplyBlock_effects C m _ h with ⟨a, b, c, h⟩ | ⟨a, b, c, d, h⟩ <;> cases h

theorem restartTimer_not_mem_of_prepare (C : Collaborators) (m : ConsensusModule)
    (r : Except ConsensusError Block) (effs : List Effect)
    (h : prepareAndApplyBlock C m = (r, effs)) : Effect.RestartTimer ∉ effs := by
  have := restartTimer_not_mem_prepareAndApplyBlock C m
  rw [h] at this
  exact this

theorem restartTimer_not_mem_newRound (C : Collaborators) (m : ConsensusModule)
    (msg : HotstuffMessage) : Effect.RestartTimer ∉ (handleNewRoundBody C m msg).2 := by
  unfold handleNewRoundBody
  split
  · simp
  · split
    · simp
    · split
      · simp
      · simp only
        split_ifs
        · split
          · rename_i heq
            have := restartTimer_not_mem_of_prepare C _ _ _ heq
            simpa using this
          · rename_i heq
            have := restartTimer_not_mem_of_prepare C _ _ _ heq
            have h2 := restartTimer_not_mem_proposeAndVote C
            simp only [List.mem_append, List.mem_singleton, reduceCtorEq, false_or, not_or]
            exact ⟨this, h2 _ _ _⟩
        · split
          · simp
          · have h2 := restartTimer_not_mem_proposeAndVote C
            simp only [List.mem_append, List.mem_cons, List.mem_singleton, reduceCtorEq,
              List.not_mem_nil, or_false, false_or]
            exact h2 _ _ _

theorem restartTimer_not_mem_prepare (C : Collaborators) (m : ConsensusModule)
    (msg : HotstuffMessage) : Effect.RestartTimer ∉ (handlePrepareBody C m msg).2 := by
  unfold handlePrepareBody
  split
  · simp
  · split
    · simp
    · split
      · simp
      · exact restartTimer_not_mem_proposeAndVote C _ _ _

theorem restartTimer_not_mem_precommit (C : Collaborators) (m : ConsensusModule)
    (msg : HotstuffMessage) : Effect.RestartTimer ∉ (handlePrecommitBody C m msg).2 := by
  unfold handlePrecommitBody
  split
  · simp
  · split
    · simp
    · split
      · simp
      · exact restartTimer_not_mem_proposeAndVote C _ _ _

theorem restartTimer_not_mem_commit (C : Collaborators) (m : ConsensusModule)
    (msg : HotstuffMessage) : Effect.RestartTimer ∉ (handleCommitBody C m msg).2 := by
  unfold handleCommitBody
  split
  · simp
  · split
    · simp
    · split
      · simp
      · simp only
        split
        · simp
        · split <;> simp [broadcastToNodes]

theorem restartTimer_once_last (step : HotstuffStep) (effs : List Effect)
    (h : Effect.RestartTimer ∉ effs) :
    ([Effect.EmitEvent step] ++ effs ++ [Effect.RestartTimer]).count .RestartTimer = 1 ∧
      ([Effect.EmitEvent step] ++ effs ++ [Effect.RestartTimer]).getLast? =
        some .RestartTimer := by
  constructor
  · rw [List.count_append, List.count_append, List.count_eq_zero_of_not_mem h]
    simp
  · rw [List.getLast?_append]
    rfl

/-- C19: for each of the five leader handlers and every input, whatever the path (validation
failure, quorum not met, certificate error, utility error, success), `RestartTimer` is invoked
exactly once and is the last call the handler makes, after any `InterruptRound`, `NewHeight`,
broadcast or send. -/
theorem leaderHandlers_restartTimer_last (C : Collaborators) (m : ConsensusModule)
    (msg : HotstuffMessage) (step : HotstuffStep) :
    (leaderHandlers step C m msg).2.count .RestartTimer = 1 ∧
    (leaderHandlers step C m msg).2.getLast? = some .RestartTimer := by
  cases step
  · exact restartTimer_once_last _ _ (restartTimer_not_mem_newRound C m msg)
  · exact restartTimer_once_last _ _ (restartTimer_not_mem_prepare C m msg)
  · exact restartTimer_once_last _ _ (restartTimer_not_mem_precommit C m msg)
  · exact restartTimer_once_last _ _ (restartTimer_not_mem_commit C m msg)
  · simp only [leaderHandlers, HandleDecideMessage]
    split <;> simp


theorem handleNewRoundBody_state (C : Collaborators) (m : ConsensusModule)
    (msg : HotstuffMessage) :
    (handleNewRoundBody C m msg).1.Height = m.Height ∧
    (handleNewRoundBody C m msg).1.Round = m.Round ∧
    ((handleNewRoundBody C m msg).1.Step = m.Step ∨
      ((handleNewRoundBody C m msg).1.Step = .Prepare ∧
        (handleNewRoundBody C m msg).1.MessagePool .NewRound = [])) := by
  unfold handleNewRoundBody
  split
  · exact ⟨rfl, rfl, Or.inl rfl⟩
  · rename_i m1 hante
    obtain ⟨fh, fr, fs, _⟩ := anteHandle_frame C m m1 msg hante
    split
    · exact ⟨fh, fr, Or.inl fs⟩
    · split
      · exact ⟨fh, fr, Or.inl fs⟩
      · simp only
        split_ifs
        · split
          · exact ⟨fh, fr, Or.inl fs⟩
          · exact ⟨fh, fr, Or.inr ⟨rfl, by simp [setPool]⟩⟩
        · split
          · exact ⟨fh, fr, Or.inl fs⟩
          · exact ⟨fh, fr, Or.inr ⟨rfl, by simp [setPool]⟩⟩

theorem handlePrepareBody_state (C : Collaborators) (m : ConsensusModule)
    (msg : HotstuffMessage) :
    (handlePrepareBody C m msg).1.Height = m.Height ∧
    (handlePrepareBody C m msg).1.Round = m.Round ∧
    ((handlePrepareBody C m msg).1.Step = m.Step ∨
      ((handlePrepareBody C m msg).1.Step = .PreCommit ∧
        (handlePrepareBody C m msg).1.MessagePool .Prepare = [])) := by
  unfold handlePrepareBody
  split
  · exact ⟨rfl, rfl, Or.inl rfl⟩
  · rename_i m1 hante
    obtain ⟨fh, fr, fs, _⟩ := anteHandle_frame C m m1 msg hante
    split
    · exact ⟨fh, fr, Or.inl fs⟩
    · split
      · exact ⟨fh, fr, Or.inl fs⟩
      · exact ⟨fh, fr, Or.inr ⟨rfl, by simp [setPool]⟩⟩

theorem handlePrecommitBody_state (C : Collaborators) (m : ConsensusModule)
    (msg : HotstuffMessage) :
    (handlePrecommitBody C m msg).1.Height = m.Height ∧
    (handlePrecommitBody C m msg).1.Round = m.Round ∧
    ((handlePrecommitBody C m msg).1.Step = m.Step ∨
      ((handlePrecommitBody C m msg).1.Step = .Commit ∧
        (handlePrecommitBody C m msg).1.MessagePool .PreCommit = [])) := by
  unfold handlePrecommitBody
  split
  · exact ⟨rfl, rfl, Or.inl rfl⟩
  · rename_i m1 hante
    obtain ⟨fh, fr, fs, _⟩ := anteHandle_frame C m m1 msg hante
    split
    · exact ⟨fh, fr, Or.inl fs⟩
    · split
      · exact ⟨fh, fr, Or.inl fs⟩
      · exact ⟨fh, fr, Or.inr ⟨rfl, by simp [setPool]⟩⟩

theorem handleCommitBody_state (C : Collaborators) (m : ConsensusModule)
    (msg : HotstuffMessage) :
    (handleCommitBody C m msg).1.Height = m.Height ∧
    (handleCommitBody C m msg).1.Round = m.Round ∧
    ((handleCommitBody C m msg).1.Step = m.Step ∨
      ((handleCommitBody C m msg).1.Step = .Decide ∧
        (handleCommitBody C m msg).1.MessagePool .Commit = [])) := by
  unfold handleCommitBody
  split
  · exact ⟨rfl, rfl, Or.inl rfl⟩
  · rename_i m1 hante
    obtain ⟨fh, fr, fs, _⟩ := anteHandle_frame C m m1 msg hante
    split
    · exact ⟨fh, fr, Or.inl fs⟩
    · split
      · exact ⟨fh, fr, Or.inl fs⟩
      · simp only
        split
        · exact ⟨fh, fr, Or.inr ⟨rfl, by simp [setPool]⟩⟩
        · split
          · exact ⟨fh, fr, Or.inr ⟨rfl, by simp [setPool]⟩⟩
          · exact ⟨fh, fr, Or.inr ⟨rfl, by simp [setPool]⟩⟩

theorem leaderHandlers_state (C : Collaborators) (m : ConsensusModule) (msg : HotstuffMessage)
    (step : HotstuffStep) :
    (leaderHandlers step C m msg).1.Height = m.Height ∧
    (leaderHandlers step C m msg).1.Round = m.Round ∧
    ((leaderHandlers step C m msg).1.Step = m.Step ∨
      (step ≠ .Decide ∧ (leaderHandlers step C m msg).1.Step = nextStep step ∧
        (leaderHandlers step C m msg).1.MessagePool step = [])) := by
  cases step
  · obtain ⟨h1, h2, h3⟩ := handleNewRoundBody_state C m msg
    refine ⟨h1, h2, ?_⟩
    rcases h3 with h | h
    · exact Or.inl h
    · exact Or.inr ⟨by decide, h⟩
  · obtain ⟨h1, h2, h3⟩ := handlePrepareBody_state C m msg
    refine ⟨h1, h2, ?_⟩
    rcases h3 with h | h
    · exact Or.inl h
    · exact Or.inr ⟨by decide, h⟩
  · obtain ⟨h1, h2, h3⟩ := handlePrecommitBody_state C m msg
    refine ⟨h1, h2, ?_⟩
    rcases h3 with h | h
    · exact Or.inl h
    · exact Or.inr ⟨by decide, h⟩
  · obtain ⟨h1, h2, h3⟩ := handleCommitBody_state C m msg
    refine ⟨h1, h2, ?_⟩
    rcases h3 with h | h
    · exact Or.inl h
    · exact Or.inr ⟨by decide, h⟩
  · simp only [leaderHandlers, HandleDecideMessage]
    split
    · exact ⟨rfl, rfl, Or.inl rfl⟩
    · rename_i m1 hante
      obtain ⟨fh, fr, fs, _⟩ := anteHandle_frame C m m1 msg hante
      exact ⟨fh, fr, Or.inl fs⟩

/-- C13: pool clearance. For each leader handler that consumes step `s` in NewRound, Prepare,
PreCommit, Commit, and every input: if the handler advances `Step` to the step after `s` (on
return `Step` is that step, and it was not before), then `pool[s]` is empty when the handler
returns. -/
theorem leaderHandlers_pool_clearance (C : Collaborators) (m : ConsensusModule)
    (msg : HotstuffMessage) (step : HotstuffStep)
    (hadv : (leaderHandlers step C m msg).1.Step = nextStep step)
    (hbefore : m.Step ≠ nextStep step) :
    (leaderHandlers step C m msg).1.MessagePool step = [] := by
  obtain ⟨_, _, h⟩ := leaderHandlers_state C m msg step
  rcases h with h | ⟨_, _, h⟩
  · rw [hadv] at h
    exact absurd h.symm hbefore
  · exact h

/-- C13, witness: the third Prepare vote moves the leader from Prepare to PreCommit. -/
theorem leaderHandlers_pool_clearance_witness :
    (leaderHandlers .Prepare scenarioCollaborators (votingLeader .Prepare 1 0)
      (signedVote "vv" .Prepare 1 0)).1.MessagePool .Prepare = [] :=
  leaderHandlers_pool_clearance scenarioCollaborators (votingLeader .Prepare 1 0)
    (signedVote "vv" .Prepare 1 0) .Prepare (by decide) (by decide)

/-- C14 (amended): for every leader handler, every consensus state and every inbound message,
if the handler invokes neither `InterruptRound` nor `NewHeight`, then `Height` and `Round` are
unchanged and the resulting `Step` is either the `Step` before the call or the step after the
one the handler is registered for (the Decide handler never changes `Step`); so the resulting
`Step` is at least the `Step` before whenever the `Step` before is at most that following
step. A vote for a step below the current `Step` is not dropped: the handlers do not compare
the step of a vote with the current `Step`, and once admitted, a vote that completes a quorum
and a certificate for Prepare or PreCommit moves `Step` to the step after the vote's,
whatever `Step` was. -/
theorem leaderHandlers_step (C : Collaborators) (m : ConsensusModule) (msg : HotstuffMessage)
    (step : HotstuffStep)
    (hInterrupt : Effect.InterruptRound ∉ (leaderHandlers step C m msg).2)
    (hNewHeight : Effect.NewHeight ∉ (leaderHandlers step C m msg).2) :
    (leaderHandlers step C m msg).1.Height = m.Height ∧
    (leaderHandlers step C m msg).1.Round = m.Round ∧
    ((leaderHandlers step C m msg).1.Step = m.Step ∨
      (step ≠ .Decide ∧ (leaderHandlers step C m msg).1.Step = nextStep step)) ∧
    (m.Step.toNat ≤ (nextStep step).toNat →
      m.Step.toNat ≤ (leaderHandlers step C m msg).1.Step.toNat) ∧
    (∀ m1 qc, step = .Prepare ∨ step = .PreCommit →
      anteHandle C m msg = .ok m1 → didReceiveEnoughMessageForStep m1 step = .ok () →
      getQuorumCertificate m1 m.Height step m.Round = .ok qc →
      (leaderHandlers step C m msg).1.Step = nextStep step) := by
  obtain ⟨h1, h2, h3⟩ := leaderHandlers_state C m msg step
  refine ⟨h1, h2, ?_, ?_, ?_⟩
  · rcases h3 with h | ⟨hd, h, _⟩
    · exact Or.inl h
    · exact Or.inr ⟨hd, h⟩
  · intro hle
    rcases h3 with h | ⟨_, h, _⟩
    · rw [h]
    · rw [h]; exact hle
  · intro m1 qc hstep hante hq hqc
    obtain ⟨fh, fr, _⟩ := anteHandle_frame C m m1 msg hante
    rw [← fh, ← fr] at hqc
    rcases hstep with rfl | rfl
    · simp [leaderHandlers, HandlePrepareMessage, handlePrepareBody, hante, hq, hqc, nextStep]
    · simp [leaderHandlers, HandlePrecommitMessage, handlePrecommitBody, hante, hq, hqc,
        nextStep]

/-- C14, witness: a leader in the Prepare step whose Prepare pool holds two votes receives the
third. Neither `InterruptRound` nor `NewHeight` is invoked, `Height` and `Round` stay `1` and
`0`, and `Step` moves from Prepare to PreCommit. -/
theorem leaderHandlers_step_witness :
    Effect.InterruptRound ∉ (leaderHandlers .Prepare scenarioCollaborators
      (votingLeader .Prepare 1 0) (signedVote "vv" .Prepare 1 0)).2 ∧
    Effect.NewHeight ∉ (leaderHandlers .Prepare scenarioCollaborators
      (votingLeader .Prepare 1 0) (signedVote "vv" .Prepare 1 0)).2 ∧
    (leaderHandlers .Prepare scenarioCollaborators (votingLeader .Prepare 1 0)
      (signedVote "vv" .Prepare 1 0)).1.Height = 1 ∧
    (leaderHandlers .Prepare scenarioCollaborators (votingLeader .Prepare 1 0)
      (signedVote "vv" .Prepare 1 0)).1.Round = 0 ∧
    (votingLeader .Prepare 1 0).Step.toNat ≤
      (leaderHandlers .Prepare scenarioCollaborators (votingLeader .Prepare 1 0)
        (signedVote "vv" .Prepare 1 0)).1.Step.toNat :=
  have h := leaderHandlers_step scenarioCollaborators (votingLeader .Prepare 1 0)
    (signedVote "vv" .Prepare 1 0) .Prepare (by decide) (by decide)
  ⟨by decide, by decide, h.1, h.2.1, h.2.2.2.1 (by decide)⟩

/-- C14, counterexample: a leader in the Commit step whose Prepare pool holds two votes
receives a third Prepare vote. The vote is not dropped: it completes the quorum, and the
Prepare handler sets `Step` back to PreCommit without calling `InterruptRound` or
`NewHeight`. -/
theorem leaderHandlers_step_counterexample :
    lateVoteLeader.Step = .Commit ∧
    (signedVote "vv" .Prepare 1 0).Step = .Prepare ∧
    (leaderHandlers .Prepare scenarioCollaborators lateVoteLeader
      (signedVote "vv" .Prepare 1 0)).1.Step = .PreCommit ∧
    HotstuffStep.PreCommit.toNat < HotstuffStep.Commit.toNat ∧
    Effect.InterruptRound ∉ (leaderHandlers .Prepare scenarioCollaborators lateVoteLeader
      (signedVote "vv" .Prepare 1 0)).2 ∧
    Effect.NewHeight ∉ (leaderHandlers .Prepare scenarioCollaborators lateVoteLeader
      (signedVote "vv" .Prepare 1 0)).2 := by
  decide

/-! ## The Commit handler -/

theorem handleCommitBody_quorum (C : Collaborators) (m m1 : ConsensusModule)
    (msg : HotstuffMessage) (qc : QuorumCertificate)
    (hante : anteHandle C m msg = .ok m1)
    (hq : didReceiveEnoughMessageForStep m1 .Commit = .ok ())
    (hqc : getQuorumCertificate m1 m.Height .Commit m.Round = .ok qc) :
    handleCommitBody C m msg =
      match C.CreateProposeMessage m.Height m.Round .Decide m.Block (some qc) with
      | .error _ =>
        ({ m1 with Step := .Decide, MessagePool := setPool m1.MessagePool .Commit [] },
          [.InterruptRound])
      | .ok p =>
        match C.commitBlock
            { m1 with Step := .Decide, MessagePool := setPool m1.MessagePool .Commit [] }
            m.Block with
        | .error _ =>
          ({ m1 with Step := .Decide, MessagePool := setPool m1.MessagePool .Commit [] },
            [.Broadcast p, .CommitBlock m.Block, .InterruptRound])
        | .ok _ =>
          ({ m1 with Step := .Decide, MessagePool := setPool m1.MessagePool .Commit [] },
            [.Broadcast p, .CommitBlock m.Block, .NewHeight, .CounterIncrement]) := by
  obtain ⟨fh, fr, _, fb, _⟩ := anteHandle_frame C m m1 msg hante
  rw [← fh, ← fr] at hqc
  unfold handleCommitBody
  rw [hante]
  simp only
  rw [hq]
  simp only
  rw [hqc]
  simp only [broadcastToNodes, fh, fr, fb]
  rfl

/-- C11: in `HandleCommitMessage`, whenever the admitted message brings `pool[Commit]` to
quorum, the Commit certificate is formed, and `CreateProposeMessage` and `commitBlock`
succeed, the handler sets `Step = Decide` and its calls are, in this order: the telemetry
event, the broadcast of the proposal built from `(Height, Round, Decide, Block, commitQC)`,
`commitBlock(Block)`, `pacemaker.NewHeight()`, the height counter increment and the deferred
`RestartTimer`; no vote is sent. -/
theorem HandleCommitMessage_decide (C : Collaborators) (m m1 : ConsensusModule)
    (msg : HotstuffMessage) (qc : QuorumCertificate) (p : HotstuffMessage)
    (hante : anteHandle C m msg = .ok m1)
    (hq : didReceiveEnoughMessageForStep m1 .Commit = .ok ())
    (hqc : getQuorumCertificate m1 m.Height .Commit m.Round = .ok qc)
    (hp : C.CreateProposeMessage m.Height m.Round .Decide m.Block (some qc) = .ok p)
    (hc : C.commitBlock
      { m1 with Step := .Decide, MessagePool := setPool m1.MessagePool .Commit [] }
      m.Block = .ok ()) :
    (HandleCommitMessage C m msg).1.Step = .Decide ∧
    (HandleCommitMessage C m msg).2 =
      [.EmitEvent msg.Step, .Broadcast p, .CommitBlock m.Block, .NewHeight, .CounterIncrement,
        .RestartTimer] ∧
    (∀ a v, Effect.Send a v ∉ (HandleCommitMessage C m msg).2) := by
  have hbody := handleCommitBody_quorum C m m1 msg qc hante hq hqc
  rw [hp] at hbody
  simp only at hbody
  rw [hc] at hbody
  simp only at hbody
  unfold HandleCommitMessage
  simp only
  rw [hbody]
  refine ⟨rfl, rfl, ?_⟩
  intro a v hmem
  simp at hmem

/-- C11, witness: the third Commit vote reaches a leader with four validators. -/
theorem HandleCommitMessage_decide_witness :
    (HandleCommitMessage scenarioCollaborators (votingLeader .Commit 1 0)
        (signedVote "vv" .Commit 1 0)).2 =
      [.EmitEvent .Commit,
       .Broadcast ⟨.Propose, 1, .Decide, 0, some blockX,
         some ⟨1, .Commit, 0, some blockX,
           some ⟨[⟨some [7], "v"⟩, ⟨some [7], "vvv"⟩, ⟨some [7], "vv"⟩]⟩⟩, none⟩,
       .CommitBlock (some blockX), .NewHeight, .CounterIncrement, .RestartTimer] :=
  (HandleCommitMessage_decide scenarioCollaborators (votingLeader .Commit 1 0)
    (tempIndexHotstuffMessage (votingLeader .Commit 1 0) (signedVote "vv" .Commit 1 0))
    (signedVote "vv" .Commit 1 0)
    ⟨1, .Commit, 0, some blockX,
      some ⟨[⟨some [7], "v"⟩, ⟨some [7], "vvv"⟩, ⟨some [7], "vv"⟩]⟩⟩
    ⟨.Propose, 1, .Decide, 0, some blockX,
      some ⟨1, .Commit, 0, some blockX,
        some ⟨[⟨some [7], "v"⟩, ⟨some [7], "vvv"⟩, ⟨some [7], "vv"⟩]⟩⟩, none⟩
    (by rfl) (by rfl) (by rfl) (by rfl) (by rfl)).2.1

theorem counterIncrement_mem_commit (C : Collaborators) (m : ConsensusModule)
    (msg : HotstuffMessage)
    (h : Effect.CounterIncrement ∈ (handleCommitBody C m msg).2) :
    ∃ m1 qc p, anteHandle C m msg = .ok m1 ∧
      didReceiveEnoughMessageForStep m1 .Commit = .ok () ∧
      getQuorumCertificate m1 m.Height .Commit m.Round = .ok qc ∧
      C.CreateProposeMessage m.Height m.Round .Decide m.Block (some qc) = .ok p ∧
      C.commitBlock
        { m1 with Step := .Decide, MessagePool := setPool m1.MessagePool .Commit [] }
        m.Block = .ok () := by
  cases hante : anteHandle C m msg with
  | error e => simp [handleCommitBody, hante] at h
  | ok m1 =>
    obtain ⟨fh, fr, _⟩ := anteHandle_frame C m m1 msg hante
    cases hq : didReceiveEnoughMessageForStep m1 .Commit with
    | error e => simp [handleCommitBody, hante, hq] at h
    | ok u =>
      cases hqc : getQuorumCertificate m1 m.Height .Commit m.Round with
      | error e =>
        have hqc1 := hqc
        rw [← fh, ← fr] at hqc1
        simp [handleCommitBody, hante, hq, hqc1] at h
      | ok qc =>
        rw [handleCommitBody_quorum C m m1 msg qc hante hq hqc] at h
        cases hp : C.CreateProposeMessage m.Height m.Round .Decide m.Block (some qc) with
        | error e => rw [hp] at h; simp at h
        | ok p =>
          rw [hp] at h
          simp only at h
          cases hc : C.commitBlock
              { m1 with Step := .Decide, MessagePool := setPool m1.MessagePool .Commit [] }
              m.Block with
          | error e => rw [hc] at h; simp at h
          | ok u2 => exact ⟨m1, qc, p, rfl, hq, hqc, hp, hc⟩

/-- C17: in `HandleCommitMessage`, if `commitBlock(Block)` returns an error, then
`InterruptRound` is invoked (right after the failed `commitBlock`), `NewHeight` is not
invoked and the height counter is not incremented; conversely, the counter is incremented only
on the path where the message was admitted, the quorum and the certificate were reached, the
proposal was built and `commitBlock` succeeded, and on that path `NewHeight` is called. -/
theorem HandleCommitMessage_commit_error (C : Collaborators) (m : ConsensusModule)
    (msg : HotstuffMessage) :
    (∀ m1 qc p e, anteHandle C m msg = .ok m1 →
      didReceiveEnoughMessageForStep m1 .Commit = .ok () →
      getQuorumCertificate m1 m.Height .Commit m.Round = .ok qc →
      C.CreateProposeMessage m.Height m.Round .Decide m.Block (some qc) = .ok p →
      C.commitBlock
        { m1 with Step := .Decide, MessagePool := setPool m1.MessagePool .Commit [] }
        m.Block = .error e →
      (HandleCommitMessage C m msg).2 =
          [.EmitEvent msg.Step, .Broadcast p, .CommitBlock m.Block, .InterruptRound,
            .RestartTimer] ∧
        Effect.InterruptRound ∈ (HandleCommitMessage C m msg).2 ∧
        Effect.NewHeight ∉ (HandleCommitMessage C m msg).2 ∧
        Effect.CounterIncrement ∉ (HandleCommitMessage C m msg).2) ∧
    (Effect.CounterIncrement ∈ (HandleCommitMessage C m msg).2 →
      Effect.NewHeight ∈ (HandleCommitMessage C m msg).2 ∧
      ∃ m1 qc p, anteHandle C m msg = .ok m1 ∧
        didReceiveEnoughMessageForStep m1 .Commit = .ok () ∧
        getQuorumCertificate m1 m.Height .Commit m.Round = .ok qc ∧
        C.CreateProposeMessage m.Height m.Round .Decide m.Block (some qc) = .ok p ∧
        C.commitBlock
          { m1 with Step := .Decide, MessagePool := setPool m1.MessagePool .Commit [] }
          m.Block = .ok ()) := by
  constructor
  · intro m1 qc p e hante hq hqc hp hc
    have hbody := handleCommitBody_quorum C m m1 msg qc hante hq hqc
    rw [hp] at hbody
    simp only at hbody
    rw [hc] at hbody
    simp only at hbody
    unfold HandleCommitMessage
    simp only
    rw [hbody]
    refine ⟨rfl, ?_, ?_, ?_⟩ <;> simp
  · intro hmem
    have hbodymem : Effect.CounterIncrement ∈ (handleCommitBody C m msg).2 := by
      unfold HandleCommitMessage at hmem
      simpa using hmem
    obtain ⟨m1, qc, p, hante, hq, hqc, hp, hc⟩ := counterIncrement_mem_commit C m msg hbodymem
    refine ⟨?_, m1, qc, p, hante, hq, hqc, hp, hc⟩
    have hbody := handleCommitBody_quorum C m m1 msg qc hante hq hqc
    rw [hp] at hbody
    simp only at hbody
    rw [hc] at hbody
    simp only at hbody
    unfold HandleCommitMessage
    simp only
    rw [hbody]
    simp

/-- C17, witness: the third Commit vote reaches a leader whose `commitBlock` fails. -/
theorem HandleCommitMessage_commit_error_witness :
    (HandleCommitMessage failingCommitCollaborators (votingLeader .Commit 1 0)
        (signedVote "vv" .Commit 1 0)).2 =
      [.EmitEvent .Commit,
       .Broadcast ⟨.Propose, 1, .Decide, 0, some blockX,
         some ⟨1, .Commit, 0, some blockX,
           some ⟨[⟨some [7], "v"⟩, ⟨some [7], "vvv"⟩, ⟨some [7], "vv"⟩]⟩⟩, none⟩,
       .CommitBlock (some blockX), .InterruptRound, .RestartTimer] :=
  ((HandleCommitMessage_commit_error failingCommitCollaborators (votingLeader .Commit 1 0)
    (signedVote "vv" .Commit 1 0)).1
    (tempIndexHotstuffMessage (votingLeader .Commit 1 0) (signedVote "vv" .Commit 1 0))
    ⟨1, .Commit, 0, some blockX,
      some ⟨[⟨some [7], "v"⟩, ⟨some [7], "vvv"⟩, ⟨some [7], "vv"⟩]⟩⟩
    ⟨.Propose, 1, .Decide, 0, some blockX,
      some ⟨1, .Commit, 0, some blockX,
        some ⟨[⟨some [7], "v"⟩, ⟨some [7], "vvv"⟩, ⟨some [7], "vv"⟩]⟩⟩, none⟩
    (.external 1) (by rfl) (by rfl) (by rfl) (by rfl) (by rfl)).1

/-! ## Certificate errors and the outbound messages of the NewRound handler -/

theorem isOptimisticThresholdMet_zero (m : ConsensusModule) :
    isOptimisticThresholdMet m 0 ≠ .ok () := by
  rw [Ne, isOptimisticThresholdMet_ok_iff]
  have h0 : float64 0 = ⟨0, 0⟩ := round_of_lt 0 0 (by norm_num)
  rw [h0]
  simp [Float64.gt]

theorem pool_ne_nil_of_quorum (m : ConsensusModule) (step : HotstuffStep)
    (h : didReceiveEnoughMessageForStep m step = .ok ()) : m.MessagePool step ≠ [] := by
  intro hnil
  unfold didReceiveEnoughMessageForStep at h
  rw [hnil] at h
  exact isOptimisticThresholdMet_zero m h

/-- C18: for the Prepare, PreCommit and Commit leader handlers, if the admitted message
passes the pool-size quorum check but `getQuorumCertificate` returns an error, then on return
the module is the one left by the admission: `Step`, `HighPrepareQC` and `LockedQC` are
unchanged and `pool[step]` is not cleared (it still holds the messages counted for the
quorum); the handler's only calls are the telemetry event and the deferred `RestartTimer`, so
no Propose or Vote is emitted and `InterruptRound` is not invoked. -/
theorem leaderHandlers_certificate_error (C : Collaborators) (m m1 : ConsensusModule)
    (msg : HotstuffMessage) (step : HotstuffStep) (e : ConsensusError)
    (hstep : step = .Prepare ∨ step = .PreCommit ∨ step = .Commit)
    (hante : anteHandle C m msg = .ok m1)
    (hq : didReceiveEnoughMessageForStep m1 step = .ok ())
    (hqc : getQuorumCertificate m1 m.Height step m.Round = .error e) :
    (leaderHandlers step C m msg).1 = m1 ∧
    (leaderHandlers step C m msg).2 = [.EmitEvent msg.Step, .RestartTimer] ∧
    (leaderHandlers step C m msg).1.Step = m.Step ∧
    (leaderHandlers step C m msg).1.HighPrepareQC = m.HighPrepareQC ∧
    (leaderHandlers step C m msg).1.LockedQC = m.LockedQC ∧
    (leaderHandlers step C m msg).1.MessagePool step ≠ [] ∧
    Effect.InterruptRound ∉ (leaderHandlers step C m msg).2 ∧
    outboundOf (leaderHandlers step C m msg).2 = [] := by
  obtain ⟨fh, fr, fs, _, fhq, fl, _⟩ := anteHandle_frame C m m1 msg hante
  have hne := pool_ne_nil_of_quorum m1 step hq
  rw [← fh, ← fr] at hqc
  have hres : leaderHandlers step C m msg = (m1, [.EmitEvent msg.Step, .RestartTimer]) := by
    rcases hstep with rfl | rfl | rfl
    · simp [leaderHandlers, HandlePrepareMessage, handlePrepareBody, hante, hq, hqc]
    · simp [leaderHandlers, HandlePrecommitMessage, handlePrecommitBody, hante, hq, hqc]
    · simp [leaderHandlers, HandleCommitMessage, handleCommitBody, hante, hq, hqc]
  rw [hres]
  refine ⟨rfl, rfl, fs, fhq, fl, hne, by simp, by simp [outboundOf]⟩

/-- C18, witness: a third unsigned proposal fills `pool[Prepare]` of a leader with four
validators, but no pooled message carries a partial signature. -/
theorem leaderHandlers_certificate_error_witness :
    (leaderHandlers .Prepare scenarioCollaborators (proposalLeader .Prepare)
        unsignedProposal).2 = [.EmitEvent .Prepare, .RestartTimer] ∧
    ((leaderHandlers .Prepare scenarioCollaborators (proposalLeader .Prepare)
        unsignedProposal).1.MessagePool .Prepare).length = 3 :=
  have h := leaderHandlers_certificate_error scenarioCollaborators (proposalLeader .Prepare)
    (tempIndexHotstuffMessage (proposalLeader .Prepare) unsignedProposal) unsignedProposal
    .Prepare
    (.ErrByzantineThresholdCheck 0 (ByzantineThreshold.mul (float64 4)))
    (Or.inl rfl) (by rfl) (by rfl) (by rfl)
  ⟨h.2.1, by rw [h.1]; rfl⟩

theorem outboundOf_append (a b : List Effect) :
    outboundOf (a ++ b) = outboundOf a ++ outboundOf b := by
  simp [outboundOf, List.filter_append]

theorem outboundOf_of_prepare (C : Collaborators) (m : ConsensusModule)
    (r : Except ConsensusError Block) (effs : List Effect)
    (h : prepareAndApplyBlock C m = (r, effs)) : outboundOf effs = [] := by
  have hall := prepareAndApplyBlock_effects C m
  rw [h] at hall
  simp only at hall
  unfold outboundOf
  rw [List.filter_eq_nil_iff]
  intro x hx
  rcases hall x hx with ⟨a, b, c, rfl⟩ | ⟨a, b, c, d, rfl⟩ <;> simp

theorem outboundOf_proposeAndVote (C : Collaborators) (m : ConsensusModule)
    (next : HotstuffStep) (qc : Option QuorumCertificate) (p v : HotstuffMessage)
    (leaderId : Nat)
    (hp : C.CreateProposeMessage m.Height m.Round next m.Block qc = .ok p)
    (hv : C.CreateVoteMessage m.Height m.Round next m.Block m.privateKey = .ok v)
    (hl : m.LeaderId = some leaderId) :
    outboundOf (proposeAndVote C m next qc) =
      [.Broadcast p, .Send ((mapGet m.IdToValAddrMap leaderId).getD "") v] := by
  unfold proposeAndVote
  rw [hp]
  simp only
  rw [hv]
  simp only [sendToNode, hl, broadcastToNodes]
  rfl

theorem outboundOf_newRound_fresh (step : HotstuffStep) (effs pv : List Effect) :
    outboundOf ([.EmitEvent step] ++ ([.RefreshUtilityContext] ++ effs ++ pv) ++
      [.RestartTimer]) = outboundOf effs ++ outboundOf pv := by
  simp [outboundOf, List.filter_append, List.filter_cons]

theorem outboundOf_newRound_adopt (step : HotstuffStep) (b : Option Block)
    (pv : List Effect) :
    outboundOf ([.EmitEvent step] ++ ([.RefreshUtilityContext, .ApplyBlock b] ++ pv) ++
      [.RestartTimer]) = outboundOf pv := by
  simp [outboundOf, List.filter_append, List.filter_cons]

theorem leaderId_of_isLeader (m : ConsensusModule) (h : isLeader m = true) :
    m.LeaderId = some m.NodeId := by
  unfold isLeader at h
  cases hl : m.LeaderId with
  | none => rw [hl] at h; cases h
  | some l =>
    rw [hl] at h
    simp only [decide_eq_true_eq] at h
    rw [h]

/-- C12: in the leader's `HandleNewRoundMessage`, whenever the admitted message brings the
NewRound pool to quorum, the utility context is refreshed, the block is prepared (by
`prepareAndApplyBlock`) or adopted from `highPrepareQC` (by `applyBlock`) with success, and the
Propose and Vote messages are built, on return `Step = Prepare` and the messages the handler
hands to the transport are, in order, the broadcast of the proposal built from
`(Height, Round, Prepare, Block, highPrepareQC)` and the vote built from
`(Height, Round, Prepare, Block)`, sent to the address of the current leader, the node
itself. -/
theorem HandleNewRoundMessage_outbound (C : Collaborators) (m m1 : ConsensusModule)
    (msg : HotstuffMessage) (ctx : UtilityContext) (B : Option Block) (p v : HotstuffMessage)
    (hl : isLeader m = true)
    (hante : anteHandle C m msg = .ok m1)
    (hq : didReceiveEnoughMessageForStep m1 .NewRound = .ok ())
    (href : C.refreshUtilityContext m1 = .ok ctx)
    (hB : (highPrepareQCNotApplicable { m1 with UtilityContext := ctx }
          (findHighQC (m1.MessagePool .NewRound)) = true ∧
        ∃ b effs, prepareAndApplyBlock C { m1 with UtilityContext := ctx } = (.ok b, effs) ∧
          B = some b) ∨
      (∃ qc, findHighQC (m1.MessagePool .NewRound) = some qc ∧
        highPrepareQCNotApplicable { m1 with UtilityContext := ctx } (some qc) = false ∧
        C.applyBlock { m1 with UtilityContext := ctx } qc.Block = .ok () ∧ B = qc.Block))
    (hp : C.CreateProposeMessage m.Height m.Round .Prepare B
      (findHighQC (m1.MessagePool .NewRound)) = .ok p)
    (hv : C.CreateVoteMessage m.Height m.Round .Prepare B m.privateKey = .ok v) :
    (HandleNewRoundMessage C m msg).1.Step = .Prepare ∧
    (HandleNewRoundMessage C m msg).1.Block = B ∧
    outboundOf (HandleNewRoundMessage C m msg).2 =
      [.Broadcast p, .Send ((mapGet m.IdToValAddrMap m.NodeId).getD "") v] := by
  obtain ⟨fh, fr, _, _, _, _, fl, _, _, fk⟩ := anteHandle_frame C m m1 msg hante
  have hlid := leaderId_of_isLeader m hl
  have hidmap : m1.IdToValAddrMap = m.IdToValAddrMap := by
    rw [(anteHandle_ok C m m1 msg hante).2.2]
    exact (tempIndex_frame m msg).2.2.2.2.2.2.2.2.2.2.2.2.2.2
  rcases hB with ⟨hna, b, effs, hprep, rfl⟩ | ⟨qc, hqc, hna, happly, rfl⟩
  · have hbody := handleNewRoundBody_fresh C m m1 msg ctx hante hq href hna
    rw [hprep] at hbody
    simp only at hbody
    have hout := outboundOf_proposeAndVote C
      { m1 with UtilityContext := ctx, Block := some b, Step := .Prepare,
                MessagePool := setPool m1.MessagePool .NewRound [] }
      .Prepare (findHighQC (m1.MessagePool .NewRound)) p v m.NodeId
      (by simp only; rw [fh, fr]; exact hp)
      (by simp only; rw [fh, fr, fk]; exact hv)
      (by simp only; rw [fl]; exact hlid)
    simp only at hout
    unfold HandleNewRoundMessage
    simp only
    rw [hbody]
    refine ⟨rfl, rfl, ?_⟩
    refine (outboundOf_newRound_fresh _ _ _).trans ?_
    rw [hout, outboundOf_of_prepare C _ _ _ hprep, hidmap]
    rfl
  · have hbody := handleNewRoundBody_adopt C m m1 msg ctx qc hante hq href hqc hna
    rw [happly] at hbody
    simp only at hbody
    rw [hqc] at hp
    have hout := outboundOf_proposeAndVote C
      { m1 with UtilityContext := ctx, Block := qc.Block, Step := .Prepare,
                MessagePool := setPool m1.MessagePool .NewRound [] }
      .Prepare (some qc) p v m.NodeId
      (by simp only; rw [fh, fr]; exact hp)
      (by simp only; rw [fh, fr, fk]; exact hv)
      (by simp only; rw [fl]; exact hlid)
    simp only at hout
    unfold HandleNewRoundMessage
    simp only
    rw [hbody]
    refine ⟨rfl, rfl, ?_⟩
    refine (outboundOf_newRound_adopt _ _ _).trans ?_
    rw [hout, hidmap]

/-- C12, witness: the third NewRound vote, none carrying a certificate, reaches a leader with
four validators; the leader is validator 1, whose address is `v`. -/
theorem HandleNewRoundMessage_outbound_witness :
    outboundOf (HandleNewRoundMessage scenarioCollaborators (newRoundLeader 1 0 none)
        (newRoundVote 1 0 none)).2 =
      [.Broadcast ⟨.Propose, 1, .Prepare, 0, some (freshBlock 1), none, none⟩,
       .Send "v" ⟨.Vote, 1, .Prepare, 0, some (freshBlock 1), none, some ⟨some [7], "v"⟩⟩] :=
  (HandleNewRoundMessage_outbound scenarioCollaborators (newRoundLeader 1 0 none)
    (tempIndexHotstuffMessage (newRoundLeader 1 0 none) (newRoundVote 1 0 none))
    (newRoundVote 1 0 none) ⟨1⟩ (some (freshBlock 1))
    ⟨.Propose, 1, .Prepare, 0, some (freshBlock 1), none, none⟩
    ⟨.Vote, 1, .Prepare, 0, some (freshBlock 1), none, some ⟨some [7], "v"⟩⟩
    (by rfl) (by rfl) (by rfl) (by rfl)
    (Or.inl ⟨by rfl, freshBlock 1, _, by rfl, rfl⟩) (by rfl) (by rfl)).2.2

/-- C16: in `HandleNewRoundMessage`, once the message is admitted, the quorum met and the
utility context refreshed, if `prepareAndApplyBlock` fails (`GetProposalTransactions` or
`ApplyBlock` returned an error) or `applyBlock` on `highPrepareQC.Block` fails, then
`InterruptRound` is invoked, `Step` and `Block` are as before the call, the message pool is
the one left by the admission (`pool[NewRound]` is not cleared: it still holds the quorum),
and no Propose or Vote is handed to the transport. -/
theorem HandleNewRoundMessage_utility_error (C : Collaborators) (m m1 : ConsensusModule)
    (msg : HotstuffMessage) (ctx : UtilityContext)
    (hante : anteHandle C m msg = .ok m1)
    (hq : didReceiveEnoughMessageForStep m1 .NewRound = .ok ())
    (href : C.refreshUtilityContext m1 = .ok ctx)
    (hfail : (highPrepareQCNotApplicable { m1 with UtilityContext := ctx }
          (findHighQC (m1.MessagePool .NewRound)) = true ∧
        ∃ e effs, prepareAndApplyBlock C { m1 with UtilityContext := ctx } = (.error e, effs)) ∨
      (∃ qc, findHighQC (m1.MessagePool .NewRound) = some qc ∧
        highPrepareQCNotApplicable { m1 with UtilityContext := ctx } (some qc) = false ∧
        ∃ e, C.applyBlock { m1 with UtilityContext := ctx } qc.Block = .error e)) :
    Effect.InterruptRound ∈ (HandleNewRoundMessage C m msg).2 ∧
    (HandleNewRoundMessage C m msg).1.Step = m.Step ∧
    (HandleNewRoundMessage C m msg).1.Block = m.Block ∧
    (HandleNewRoundMessage C m msg).1.MessagePool = m1.MessagePool ∧
    (HandleNewRoundMessage C m msg).1.MessagePool .NewRound ≠ [] ∧
    outboundOf (HandleNewRoundMessage C m msg).2 = [] := by
  obtain ⟨_, _, fs, fb, _⟩ := anteHandle_frame C m m1 msg hante
  have hne := pool_ne_nil_of_quorum m1 .NewRound hq
  rcases hfail with ⟨hna, e, effs, hprep⟩ | ⟨qc, hqc, hna, e, happly⟩
  · have hbody := handleNewRoundBody_fresh C m m1 msg ctx hante hq href hna
    rw [hprep] at hbody
    simp only at hbody
    unfold HandleNewRoundMessage
    simp only
    rw [hbody]
    refine ⟨by simp, fs, fb, rfl, hne, ?_⟩
    refine (outboundOf_newRound_fresh _ _ _).trans ?_
    rw [outboundOf_of_prepare C _ _ _ hprep]
    rfl
  · have hbody := handleNewRoundBody_adopt C m m1 msg ctx qc hante hq href hqc hna
    rw [happly] at hbody
    simp only at hbody
    unfold HandleNewRoundMessage
    simp only
    rw [hbody]
    exact ⟨by simp, fs, fb, rfl, hne, rfl⟩

/-- C16, witness: the third NewRound vote reaches a leader whose utility layer refuses to
apply the block. -/
theorem HandleNewRoundMessage_utility_error_witness :
    (HandleNewRoundMessage failingUtilityCollaborators (newRoundLeader 1 0 none)
        (newRoundVote 1 0 none)).2 =
      [.EmitEvent .NewRound, .RefreshUtilityContext, .GetProposalTransactions [1] 90000 [],
       .UtilityApplyBlock 1 [1] [[1, 2, 3]] [], .InterruptRound, .RestartTimer] ∧
    outboundOf (HandleNewRoundMessage failingUtilityCollaborators (newRoundLeader 1 0 none)
        (newRoundVote 1 0 none)).2 = [] :=
  ⟨by decide,
   (HandleNewRoundMessage_utility_error failingUtilityCollaborators (newRoundLeader 1 0 none)
    (tempIndexHotstuffMessage (newRoundLeader 1 0 none) (newRoundVote 1 0 none))
    (newRoundVote 1 0 none) ⟨1⟩ (by rfl) (by rfl) (by rfl)
    (Or.inl ⟨by rfl, .external 2, _, by rfl⟩)).2.2.2.2.2⟩


/-! ## Clearing the pool, the signature check and the pool capacity test -/

theorem clearMessagesPool_pool (m : ConsensusModule) (step : HotstuffStep) :
    (clearMessagesPool m).MessagePool step = [] := by
  cases step <;> simp [clearMessagesPool, HotstuffSteps, setPool]

/-- C21: whatever the pool held, after `clearMessagesPool` the slot of each of the five steps
NewRound, Prepare, PreCommit, Commit and Decide is the empty list, and therefore
`didReceiveEnoughMessageForStep` returns an error for every step, with any number of
validators (in particular with at least one). -/
theorem clearMessagesPool_empty (m : ConsensusModule) (step : HotstuffStep) :
    (clearMessagesPool m).MessagePool step = [] ∧
    ∃ e, didReceiveEnoughMessageForStep (clearMessagesPool m) step = .error e := by
  refine ⟨clearMessagesPool_pool m step, ?_⟩
  unfold didReceiveEnoughMessageForStep
  rw [clearMessagesPool_pool m step]
  cases h : isOptimisticThresholdMet (clearMessagesPool m) ([] : List HotstuffMessage).length with
  | error e => exact ⟨e, rfl⟩
  | ok u => exact absurd h (isOptimisticThresholdMet_zero (clearMessagesPool m))

theorem validatePartialSignature_ok_cases (C : Collaborators) (m : ConsensusModule)
    (msg : HotstuffMessage) :
    validatePartialSignature C m msg = .ok () ↔
      (msg.Step = .NewRound ∨ msg.MessageType = .Propose ∨
        ∃ ps sig validator, msg.PartialSignature = some ps ∧ ps.Signature = some sig ∧
          ps.Address.length ≠ 0 ∧ mapGet m.validatorMap ps.Address = some validator ∧
          isSignatureValid C msg validator.PublicKey sig = true) := by
  unfold validatePartialSignature
  by_cases hs : msg.Step = .NewRound
  · simp [hs]
  by_cases ht : msg.MessageType = .Propose
  · simp [hs, ht]
  rw [if_neg hs, if_neg ht]
  cases hps : msg.PartialSignature with
  | none => simp [hs, ht]
  | some ps =>
    simp only
    cases hsig : ps.Signature with
    | none => simp [hs, ht, hsig]
    | some sig =>
      by_cases ha : ps.Address.length = 0
      · simp [hs, ht, ha, hsig]
      · cases hv : mapGet m.validatorMap ps.Address with
        | none => simp [hs, ht, ha, hv, hsig]
        | some validator =>
          by_cases hvalid : isSignatureValid C msg validator.PublicKey sig = true
          · simp [hs, ht, ha, hv, hsig, hvalid]
          · simp [hs, ht, ha, hv, hsig, hvalid]

/-- C24: `validatePartialSignature msg` returns no error exactly when `msg.Step = NewRound`,
or `msg.Type = Propose`, or `msg` carries a partial signature with signature bytes and a
non-empty address that is a key of the validator map and `isSignatureValid` accepts the
message, that validator's public key and the signature. In particular a Vote for a step other
than NewRound whose signer address is not in the validator map is rejected. -/
theorem validatePartialSignature_accepts (C : Collaborators) (m : ConsensusModule)
    (msg : HotstuffMessage) :
    (validatePartialSignature C m msg = .ok () ↔
      (msg.Step = .NewRound ∨ msg.MessageType = .Propose ∨
        ∃ ps sig validator, msg.PartialSignature = some ps ∧ ps.Signature = some sig ∧
          ps.Address.length ≠ 0 ∧ mapGet m.validatorMap ps.Address = some validator ∧
          isSignatureValid C msg validator.PublicKey sig = true)) ∧
    (msg.MessageType = .Vote → msg.Step ≠ .NewRound →
      (∀ ps, msg.PartialSignature = some ps → mapGet m.validatorMap ps.Address = none) →
      ∃ e, validatePartialSignature C m msg = .error e) := by
  refine ⟨validatePartialSignature_ok_cases C m msg, ?_⟩
  intro hvote hstep hout
  cases h : validatePartialSignature C m msg with
  | error e => exact ⟨e, rfl⟩
  | ok u =>
    exfalso
    rcases (validatePartialSignature_ok_cases C m msg).1 h with h1 | h1 | ⟨ps, _, v, h1, _, _, h2, _⟩
    · exact hstep h1
    · rw [hvote] at h1; cases h1
    · rw [hout ps h1] at h2; cases h2

/-- C26: `tempIndexHotstuffMessage msg` appends `msg` exactly when the configured
`MaxMempoolBytes` is at least the size of the pool's map handle (8 bytes), whatever the pool
holds. When it appends, `pool[msg.Step]` is the old list followed by `msg` and every other
slot is unchanged; when it does not, the module (and the pool) is unchanged; and in both cases
`anteHandle` reports success once the two validations passed. -/
theorem tempIndexHotstuffMessage_admission (C : Collaborators) (m : ConsensusModule)
    (msg : HotstuffMessage) :
    sizeofMessagePool = 8 ∧
    ((tempIndexHotstuffMessage m msg).MessagePool msg.Step = m.MessagePool msg.Step ++ [msg] ↔
      8 ≤ m.MaxMempoolBytes) ∧
    (8 ≤ m.MaxMempoolBytes → ∀ s, s ≠ msg.Step →
      (tempIndexHotstuffMessage m msg).MessagePool s = m.MessagePool s) ∧
    (m.MaxMempoolBytes < 8 → tempIndexHotstuffMessage m msg = m) ∧
    (C.validateBlockBasic m msg.Block = .ok () → validatePartialSignature C m msg = .ok () →
      anteHandle C m msg = .ok (tempIndexHotstuffMessage m msg)) := by
  refine ⟨rfl, ⟨fun h => ?_, fun h => ?_⟩, fun h s hs => ?_, fun h => tempIndex_pool_full m msg h,
    anteHandle_of_valid C m msg⟩
  · by_contra hlt
    rw [tempIndex_pool_full m msg (Nat.lt_of_not_le hlt)] at h
    have := congrArg List.length h
    simp at this
  · rw [tempIndex_pool m msg h, setPool_same]
  · rw [tempIndex_pool m msg h, setPool_other _ _ _ _ hs]


/-! ## Eligible messages, the path without quorum, and the prepared block -/

theorem eligibleSignature_iff (height : Nat) (step : HotstuffStep) (round : Nat)
    (msg : HotstuffMessage) (ps : PartialSignature) :
    eligibleSignature height step round msg = some ps ↔
      (msg.PartialSignature = some ps ∧ ps.Signature ≠ none ∧ ps.Address.length ≠ 0 ∧
        msg.Height = height ∧ msg.Step = step ∧ msg.Round = round) := by
  constructor
  · intro h
    obtain ⟨e1, e2, e3, e4, e5, e6⟩ := eligibleSignature_some height step round msg ps h
    exact ⟨e1, e5, e6, e2, e3, e4⟩
  · rintro ⟨e1, e5, e6, e2, e3, e4⟩
    unfold eligibleSignature
    rw [e1]
    simp [e2, e3, e4, e5, e6]

theorem getQuorumCertificate_error_iff (m : ConsensusModule) (height : Nat)
    (step : HotstuffStep) (round : Nat) :
    (∃ e, getQuorumCertificate m height step round = .error e) ↔
      isOptimisticThresholdMet m
        ((m.MessagePool step).filterMap (eligibleSignature height step round)).length ≠
          .ok () := by
  unfold getQuorumCertificate
  cases ht : isOptimisticThresholdMet m
      ((m.MessagePool step).filterMap (eligibleSignature height step round)).length with
  | error e => simp [ht]
  | ok u => simp [ht, getThresholdSignature]

/-- C23: for every validator map (a map has at most `2^53` entries: no address space holds
more), `getQuorumCertificate h s r` returns an error exactly when the number `k` of eligible
messages of `pool[s]` does not satisfy `3k > 2N`; a message is eligible when it carries a partial signature with signature bytes and
a non-empty address and its height, step and round are `h`, `s`, `r`; and on success the
certificate is `(h, s, r, current Block, sigs)` where `sigs` lists the partial signatures of
the eligible messages in pool order. -/
theorem getQuorumCertificate_eligible (m : ConsensusModule) (height : Nat)
    (step : HotstuffStep) (round : Nat) (hN : mapLen m.validatorMap ≤ 2 ^ 53) :
    ((∃ e, getQuorumCertificate m height step round = .error e) ↔
      ¬ (2 * mapLen m.validatorMap <
          3 * ((m.MessagePool step).filterMap (eligibleSignature height step round)).length)) ∧
    (∀ msg ps, eligibleSignature height step round msg = some ps ↔
      (msg.PartialSignature = some ps ∧ ps.Signature ≠ none ∧ ps.Address.length ≠ 0 ∧
        msg.Height = height ∧ msg.Step = step ∧ msg.Round = round)) ∧
    (∀ qc, getQuorumCertificate m height step round = .ok qc →
      qc = { Height := height, Step := step, Round := round, Block := m.Block,
             ThresholdSignature :=
               some ⟨(m.MessagePool step).filterMap (eligibleSignature height step round)⟩ }) := by
  refine ⟨?_, eligibleSignature_iff height step round, fun qc h =>
    (getQuorumCertificate_ok m height step round qc h).2⟩
  rw [getQuorumCertificate_error_iff, ← isOptimisticThresholdMet_iff m _ hN]

/-- C23, witness: four validators and a Prepare pool with three eligible votes. -/
theorem getQuorumCertificate_eligible_witness :
    mapLen (tempIndexHotstuffMessage (votingLeader .Prepare 1 0)
      (voteOf .Prepare 1 0)).validatorMap ≤ 2 ^ 53 ∧
    ¬ ((∃ e, getQuorumCertificate (tempIndexHotstuffMessage (votingLeader .Prepare 1 0)
        (voteOf .Prepare 1 0)) 1 .Prepare 0 = .error e)) :=
  ⟨by decide, fun h =>
    (getQuorumCertificate_eligible (tempIndexHotstuffMessage (votingLeader .Prepare 1 0)
      (voteOf .Prepare 1 0)) 1 .Prepare 0 (by decide)).1.1 h (by decide)⟩

theorem leaderHandlers_no_quorum (C : Collaborators) (m m1 : ConsensusModule)
    (msg : HotstuffMessage) (step : HotstuffStep) (e : ConsensusError)
    (hstep : step ≠ .Decide)
    (hante : anteHandle C m msg = .ok m1)
    (hq : didReceiveEnoughMessageForStep m1 step = .error e) :
    leaderHandlers step C m msg = (m1, [.EmitEvent msg.Step, .RestartTimer]) := by
  cases step with
  | NewRound =>
    simp only [leaderHandlers, HandleNewRoundMessage, handleNewRoundBody, hante, hq]
    rfl
  | Prepare =>
    simp only [leaderHandlers, HandlePrepareMessage, handlePrepareBody, hante, hq]
    rfl
  | PreCommit =>
    simp only [leaderHandlers, HandlePrecommitMessage, handlePrecommitBody, hante, hq]
    rfl
  | Commit =>
    simp only [leaderHandlers, HandleCommitMessage, handleCommitBody, hante, hq]
    rfl
  | Decide => exact absurd rfl hstep

/-- C25: quorum not met is not an error. For the NewRound, Prepare, PreCommit and Commit
handlers, when the message passes validation (`anteHandle` succeeds, leaving the module `m1`)
and the quorum test on `pool[step]` of `m1` fails, the handler returns `m1`: the message stays
in the pool (appended to `pool[msg.Step]` when the pool admits messages), `Step`, `Block`,
`HighPrepareQC` and `LockedQC` are those before the call, the trace is the telemetry event
followed by the timer restart, so nothing is broadcast or sent and neither `InterruptRound`
nor `NewHeight` is invoked. -/
theorem leaderHandlers_quorum_not_met (C : Collaborators) (m m1 : ConsensusModule)
    (msg : HotstuffMessage) (step : HotstuffStep) (e : ConsensusError)
    (hstep : step ≠ .Decide)
    (hante : anteHandle C m msg = .ok m1)
    (hq : didReceiveEnoughMessageForStep m1 step = .error e) :
    (leaderHandlers step C m msg).1 = m1 ∧
    (sizeofMessagePool ≤ m.MaxMempoolBytes →
      (leaderHandlers step C m msg).1.MessagePool msg.Step = m.MessagePool msg.Step ++ [msg]) ∧
    (∀ s, s ≠ msg.Step → (leaderHandlers step C m msg).1.MessagePool s = m.MessagePool s) ∧
    (leaderHandlers step C m msg).1.Step = m.Step ∧
    (leaderHandlers step C m msg).1.Block = m.Block ∧
    (leaderHandlers step C m msg).1.HighPrepareQC = m.HighPrepareQC ∧
    (leaderHandlers step C m msg).1.LockedQC = m.LockedQC ∧
    (leaderHandlers step C m msg).2 = [.EmitEvent msg.Step, .RestartTimer] ∧
    broadcastsOf (leaderHandlers step C m msg).2 = [] ∧
    outboundOf (leaderHandlers step C m msg).2 = [] ∧
    Effect.InterruptRound ∉ (leaderHandlers step C m msg).2 ∧
    Effect.NewHeight ∉ (leaderHandlers step C m msg).2 := by
  rw [leaderHandlers_no_quorum C m m1 msg step e hstep hante hq]
  obtain ⟨_, _, fs, fb, fh, fl, _⟩ := anteHandle_frame C m m1 msg hante
  obtain ⟨_, _, hm1⟩ := anteHandle_ok C m m1 msg hante
  refine ⟨rfl, ?_, ?_, fs, fb, fh, fl, rfl, rfl, rfl, by simp, by simp⟩
  · intro hcap
    show m1.MessagePool msg.Step = _
    rw [hm1, tempIndex_pool m msg hcap, setPool_same]
  · intro s hs
    show m1.MessagePool s = _
    rw [hm1]
    by_cases hcap : sizeofMessagePool ≤ m.MaxMempoolBytes
    · rw [tempIndex_pool m msg hcap, setPool_other _ _ _ _ hs]
    · rw [tempIndex_pool_full m msg (Nat.lt_of_not_le hcap)]

/-- C25, witness: a leader with four validators and an empty pool receives its first Prepare
vote. -/
theorem leaderHandlers_quorum_not_met_witness :
    (leaderHandlers .Prepare scenarioCollaborators (leaderNode fourValidators 1 0)
        (voteOf .Prepare 1 0)).1.MessagePool .Prepare = [voteOf .Prepare 1 0] ∧
    (leaderHandlers .Prepare scenarioCollaborators (leaderNode fourValidators 1 0)
        (voteOf .Prepare 1 0)).2 = [.EmitEvent .Prepare, .RestartTimer] :=
  have h := leaderHandlers_quorum_not_met scenarioCollaborators (leaderNode fourValidators 1 0)
    (tempIndexHotstuffMessage (leaderNode fourValidators 1 0) (voteOf .Prepare 1 0))
    (voteOf .Prepare 1 0) .Prepare
    (.ErrByzantineThresholdCheck 1 (ByzantineThreshold.mul (float64 4)))
    (by decide) (by rfl) (by rfl)
  ⟨h.2.1 (by decide), h.2.2.2.2.2.2.2.1⟩

theorem hexDigit_mem (d : Nat) (h : d < 16) : hexDigit d ∈ "0123456789abcdef".toList := by
  interval_cases d <;> decide

theorem hexEncodeToString_lowercase (bytes : List Nat) :
    (hexEncodeToString bytes).length = 2 * bytes.length ∧
    ∀ c ∈ (hexEncodeToString bytes).toList, c ∈ "0123456789abcdef".toList := by
  unfold hexEncodeToString
  constructor
  · show (bytes.flatMap _).length = _
    induction bytes with
    | nil => rfl
    | cons b bs ih => simp only [List.flatMap_cons, List.length_append, List.length_cons,
        List.length_nil, ih]; omega
  · intro c hc
    simp only [String.toList, List.mem_flatMap] at hc
    obtain ⟨b, _, hb⟩ := hc
    simp only [List.mem_cons, List.mem_singleton, List.not_mem_nil, or_false] at hb
    rcases hb with hb | hb
    · rw [hb]; exact hexDigit_mem _ (Nat.mod_lt _ (by norm_num))
    · rw [hb]; exact hexDigit_mem _ (Nat.mod_lt _ (by norm_num))

theorem int64OfUint64_small (h : Nat) (hh : h < 2 ^ 63) : int64OfUint64 h = (h : Int) := by
  unfold int64OfUint64
  have h1 : h % 2 ^ 64 = h := Nat.mod_eq_of_lt (by omega)
  rw [h1, if_pos hh]

/-- C27: `prepareAndApplyBlock`. A node that is not the leader gets `ErrReplicaPrepareBlock`
and no utility call is made. The leader first asks the utility layer for proposal
transactions with a cap of 90000 bytes; when that returns `txs` and `ApplyBlock` returns
`appHash`, the result is a block whose transactions are `txs` and whose header has the node's
height (for heights below `2^63`), the lower-case hexadecimal encoding of `appHash` as hash,
`len(txs) mod 2^32` as number of transactions, the node's `lastAppHash` as previous hash and
the node's own address as proposer; when either utility call fails the result is that error
(and no block). -/
theorem prepareAndApplyBlock_result (C : Collaborators) (m : ConsensusModule) :
    (isLeader m = false → prepareAndApplyBlock C m = (.error .ErrReplicaPrepareBlock, [])) ∧
    (isLeader m = true →
      (prepareAndApplyBlock C m).2.head? =
        some (.GetProposalTransactions (C.Address m.privateKey) 90000 []) ∧
      (∀ e, C.GetProposalTransactions m.UtilityContext (C.Address m.privateKey) 90000 [] =
          .error e → (prepareAndApplyBlock C m).1 = .error e) ∧
      (∀ txs e, C.GetProposalTransactions m.UtilityContext (C.Address m.privateKey) 90000 [] =
          .ok txs →
        C.ApplyBlock m.UtilityContext (int64OfUint64 m.Height) (C.Address m.privateKey) txs [] =
          .error e → (prepareAndApplyBlock C m).1 = .error e) ∧
      (∀ txs appHash,
        C.GetProposalTransactions m.UtilityContext (C.Address m.privateKey) 90000 [] =
          .ok txs →
        C.ApplyBlock m.UtilityContext (int64OfUint64 m.Height) (C.Address m.privateKey) txs [] =
          .ok appHash →
        ∃ header, (prepareAndApplyBlock C m).1 =
            .ok { BlockHeader := some header, Transactions := txs } ∧
          (m.Height < 2 ^ 63 → header.Height = (m.Height : Int)) ∧
          header.Hash = hexEncodeToString appHash ∧
          header.Hash.length = 2 * appHash.length ∧
          (∀ c ∈ header.Hash.toList, c ∈ "0123456789abcdef".toList) ∧
          header.NumTxs = txs.length % 2 ^ 32 ∧
          header.LastBlockHash = m.lastAppHash ∧
          header.ProposerAddress = C.Address m.privateKey)) := by
  constructor
  · intro hl
    unfold prepareAndApplyBlock
    rw [if_pos (by simp [isReplica, hl])]
  · intro hl
    have hr : ¬ (isReplica m = true) := by simp [isReplica, hl]
    unfold prepareAndApplyBlock
    rw [if_neg hr]
    refine ⟨?_, ?_, ?_, ?_⟩
    · simp only
      cases hg : C.GetProposalTransactions m.UtilityContext (C.Address m.privateKey) 90000 []
          with
      | error e => rfl
      | ok txs =>
        simp only
        cases ha : C.ApplyBlock m.UtilityContext (int64OfUint64 m.Height)
            (C.Address m.privateKey) txs [] with
        | error e => rfl
        | ok appHash => rfl
    · intro e hg
      simp only [hg]
    · intro txs e hg ha
      simp only [hg, ha]
    · intro txs appHash hg ha
      simp only [hg, ha]
      exact ⟨_, rfl, fun hh => int64OfUint64_small _ hh, rfl,
        (hexEncodeToString_lowercase appHash).1, (hexEncodeToString_lowercase appHash).2,
        rfl, rfl, rfl⟩


/-! ## Request numbers -/

theorem nextNonces_eq (n : Nat) (reqMap : requestMap)
    (h : reqMap.numRequests + n < 2 ^ 32) :
    nextNonces n reqMap = List.range' (reqMap.numRequests + 1) n := by
  induction n generalizing reqMap with
  | zero => rfl
  | succ n ih =>
    have h1 : (reqMap.numRequests + 1) % 2 ^ 32 = reqMap.numRequests + 1 :=
      Nat.mod_eq_of_lt (by omega)
    have h2 : reqMap.Next.1.numRequests = reqMap.numRequests + 1 := h1
    have h3 : reqMap.Next.2 = reqMap.numRequests + 1 := h1
    rw [nextNonces, ih reqMap.Next.1 (by rw [h2]; omega), h2, h3, List.range'_succ]

/-- C30: for a request map whose counter is `k`, `Next` sets the counter to `(k + 1) mod 2^32`
and returns that value. Hence on a fresh map, for every `n < 2^32`, the first `n` calls return
`1, 2, ..., n` (the `i`-th call returns `i`), these nonces are pairwise distinct and none is
`0`, so the read loop hands a packet carrying any of them to `AnswerPendingRequest`, never to
the sink. The call after `2^32 - 1` calls returns `0`. -/
theorem requestMap_Next_nonces (reqMap : requestMap) (n : Nat) (hn : n < 2 ^ 32) :
    reqMap.Next.2 = (reqMap.numRequests + 1) % 2 ^ 32 ∧
    reqMap.Next.1.numRequests = (reqMap.numRequests + 1) % 2 ^ 32 ∧
    reqMap.Next.1.m = reqMap.m ∧
    nextNonces n NewRequestMap = List.range' 1 n ∧
    (∀ i, 1 ≤ i → i ≤ n → (nextNonces n NewRequestMap)[i - 1]? = some i) ∧
    (nextNonces n NewRequestMap).Nodup ∧
    0 ∉ nextNonces n NewRequestMap ∧
    (∀ nonce ∈ nextNonces n NewRequestMap, routePacket nonce = .AnswerPendingRequest) ∧
    (requestMap.Next ⟨reqMap.m, 2 ^ 32 - 1⟩).2 = 0 := by
  have hl : nextNonces n NewRequestMap = List.range' 1 n :=
    nextNonces_eq n NewRequestMap (by show 0 + n < 2 ^ 32; omega)
  refine ⟨rfl, rfl, rfl, hl, ?_, ?_, ?_, ?_, by simp [requestMap.Next]⟩
  · intro i hi1 hin
    rw [hl, List.getElem?_range' _ _ (by omega)]
    simp only [one_mul, Option.some.injEq]
    omega
  · rw [hl]; exact List.nodup_range' 1 n
  · rw [hl, List.mem_range']
    rintro ⟨i, _, hi⟩
    omega
  · intro nonce hmem
    rw [hl, List.mem_range'] at hmem
    obtain ⟨i, _, hi⟩ := hmem
    have : nonce ≠ 0 := by omega
    simp [routePacket, this]

/-- C30, witness: the first three calls on a fresh map. -/
theorem requestMap_Next_nonces_witness :
    (3 : Nat) < 2 ^ 32 ∧ nextNonces 3 NewRequestMap = [1, 2, 3] :=
  ⟨by decide, (requestMap_Next_nonces NewRequestMap 3 (by decide)).2.2.2.1⟩

/-! ## Applications updated at a height -/

theorem foldl_append_applications (actors : List BaseActor) (apps : List (Option Actor)) :
    actors.foldl (fun apps actor => apps ++ [some (applicationOfActor actor)]) apps =
      apps ++ actors.map (fun actor => some (applicationOfActor actor)) := by
  induction actors generalizing apps with
  | nil => simp
  | cons a as ih => simp [ih]

theorem getApplicationsUpdatedAtHeight_ok
    (GetActorsUpdated : ProtocolActorSchema → Int → Except String (List BaseActor))
    (height : Int) (actors : List BaseActor)
    (h : GetActorsUpdated .ApplicationActor height = .ok actors) :
    getApplicationsUpdatedAtHeight GetActorsUpdated height =
      .ok (List.replicate actors.length none ++
        actors.map (fun actor => some (applicationOfActor actor))) := by
  unfold getApplicationsUpdatedAtHeight
  rw [h]
  simp only [foldl_append_applications]

/-- C28: evaluation of the code at a height where `GetActorsUpdated` succeeds with one
application actor. The slice returned has two entries, a nil pointer followed by the
conversion of the actor, and not the single converted record. -/
theorem getApplicationsUpdatedAtHeight_nil_entry :
    getApplicationsUpdatedAtHeight (fun _ _ => .ok [storedApplication]) 5 =
      .ok [none, some (applicationOfActor storedApplication)] ∧
    applicationOfActor storedApplication =
      ⟨.ActorType_App, "aa", "bb", ["0001"], "5", "1000", -1, -1, "cc"⟩ :=
  ⟨rfl, rfl⟩

/-! ## The query built by SetParam -/

theorem foldl_append_string (l : List String) (acc : String) :
    l.foldl (fun r s => r ++ s) acc = acc ++ String.join l := by
  unfold String.join
  induction l generalizing acc with
  | nil => simp
  | cons x t ih =>
    simp only [List.foldl_cons]
    rw [ih (acc ++ x), ih ("" ++ x), String.empty_append, String.append_assoc]

theorem selectClause_fold (L : Nat) (l : List String) (k : Nat) (acc : String)
    (hl : l ≠ []) (hk : k + l.length = L) :
    (l.enumFrom k).foldl
        (fun subQuery p => if p.1 = L - 1 then subQuery ++ "-1" else subQuery ++ (p.2 ++ ","))
        acc =
      acc ++ String.join (l.dropLast.map (fun pn => pn ++ ",")) ++ "-1" := by
  induction l generalizing k acc with
  | nil => exact absurd rfl hl
  | cons x t ih =>
    cases t with
    | nil =>
      have hk1 : k = L - 1 := by simp at hk; omega
      simp [List.enumFrom, hk1, String.join]
    | cons y t =>
      have hk1 : k ≠ L - 1 := by simp at hk; omega
      have hk2 : k + 1 + (y :: t).length = L := by simp at hk ⊢; omega
      rw [List.enumFrom_cons, List.foldl_cons, if_neg hk1, ih (k + 1) _ (by simp) hk2]
      simp only [List.dropLast_cons₂, List.map_cons]
      rw [show String.join ((x ++ ",") :: List.map (fun pn => pn ++ ",") (y :: t).dropLast) =
        (x ++ ",") ++ String.join (List.map (fun pn => pn ++ ",") (y :: t).dropLast) from by
          unfold String.join
          rw [List.foldl_cons, foldl_append_string, String.empty_append]
          rfl]
      simp only [String.append_assoc]

theorem selectClause_eq (paramNames : List String) (h : paramNames ≠ []) :
    selectClause paramNames =
      "SELECT " ++ String.join (paramNames.dropLast.map (fun pn => pn ++ ",")) ++ "-1" :=
  selectClause_fold paramNames.length paramNames 0 "SELECT " h (by simp)

theorem selectList_map (L : Nat) (l : List String) (k : Nat) (hl : l ≠ [])
    (hk : k + l.length = L) :
    (l.enumFrom k).map (fun p => if p.1 = L - 1 then "-1" else p.2) =
      l.dropLast ++ ["-1"] := by
  induction l generalizing k with
  | nil => exact absurd rfl hl
  | cons x t ih =>
    cases t with
    | nil =>
      have hk1 : k = L - 1 := by simp at hk; omega
      simp [List.enumFrom, hk1]
    | cons y t =>
      have hk1 : k ≠ L - 1 := by simp at hk; omega
      have hk2 : k + 1 + (y :: t).length = L := by simp at hk ⊢; omega
      rw [List.enumFrom_cons, List.map_cons, ih (k + 1) (by simp) hk2]
      simp [hk1]

theorem selectList_eq (paramNames : List String) (h : paramNames ≠ []) :
    selectList paramNames = paramNames.dropLast ++ ["-1"] :=
  selectList_map paramNames.length paramNames 0 h (by simp)

theorem paramIndex_fold_absent (paramName : String) (l : List String) (k index : Nat)
    (h : paramName ∉ l) :
    (l.enumFrom k).foldl (fun index p => if p.2 = paramName then p.1 else index) index =
      index := by
  induction l generalizing k index with
  | nil => rfl
  | cons x t ih =>
    have hx : x ≠ paramName := fun e => h (by simp [e])
    have ht : paramName ∉ t := fun e => h (by simp [e])
    rw [List.enumFrom_cons, List.foldl_cons, if_neg hx, ih _ _ ht]

theorem paramIndex_absent (paramNames : List String) (paramName : String)
    (h : paramName ∉ paramNames) : paramIndex paramNames paramName = 0 :=
  paramIndex_fold_absent paramName paramNames 0 0 h

/-- C29: evaluation of the code at a name that is not a column, with the integer value `7` and
height `1`. The search leaves `index` at its zero value, so the first column,
`blocks_per_session`, is overwritten: the SELECT list is `7`, then the columns from the second
to the last but one, then `-1`, so a column other than the last has been replaced. -/
theorem SetParam_unknown_name :
    "no_such_param" ∉ SQLColumnNames ∧
    SQLColumnNames.take 2 = ["blocks_per_session", "app_minimum_stake"] ∧
    paramIndex GetParamNames "no_such_param" = 0 ∧
    setParamNames "no_such_param" (.int 7) = some ("7" :: SQLColumnNames.tail) ∧
    selectList ("7" :: SQLColumnNames.tail) =
      "7" :: (SQLColumnNames.tail.dropLast ++ ["-1"]) ∧
    SetParam "no_such_param" (.int 7) 1 =
      some ("INSERT INTO " ++ ParamsTableName ++ "((" ++
        ("SELECT " ++
          String.join (("7" :: SQLColumnNames.tail).dropLast.map (fun pn => pn ++ ",")) ++
          "-1" ++ (" FROM " ++ ParamsTableName ++ " WHERE height=" ++ "1")) ++ "))") := by
  have hmem : "no_such_param" ∉ SQLColumnNames := by decide
  have hnames : setParamNames "no_such_param" (.int 7) = some ("7" :: SQLColumnNames.tail) := by
    decide
  refine ⟨hmem, by decide, paramIndex_absent _ _ hmem, hnames, ?_, ?_⟩
  · rw [selectList_eq _ (by simp)]
    rfl
  · unfold SetParam
    rw [hnames]
    simp only
    rw [selectClause_eq _ (by simp)]
    rfl


/-! ## Concrete instances -/

/-- C24, witness: the leader with four validators accepts the signed Prepare vote of
validator `vv` and rejects the same vote signed by the unknown address `zz`. -/
theorem validatePartialSignature_accepts_witness :
    validatePartialSignature scenarioCollaborators (leaderNode fourValidators 1 0)
      (voteOf .Prepare 1 0) = .ok () ∧
    ∃ e, validatePartialSignature scenarioCollaborators (leaderNode fourValidators 1 0)
      (signedVote "zz" .Prepare 1 0) = .error e :=
  ⟨(validatePartialSignature_accepts scenarioCollaborators (leaderNode fourValidators 1 0)
      (voteOf .Prepare 1 0)).1.2
      (Or.inr (Or.inr ⟨⟨some [7], "vv"⟩, [7], ⟨"vv", "pk"⟩, rfl, rfl, by decide, rfl, rfl⟩)),
   (validatePartialSignature_accepts scenarioCollaborators (leaderNode fourValidators 1 0)
      (signedVote "zz" .Prepare 1 0)).2 rfl (by decide)
      (fun ps h => by cases h; rfl)⟩

/-- C26, witness: a node configured with 500000000 bytes appends the vote to its empty Prepare
slot; configured with 7 bytes it keeps its pool, and `anteHandle` succeeds all the same. -/
theorem tempIndexHotstuffMessage_admission_witness :
    (tempIndexHotstuffMessage (leaderNode fourValidators 1 0)
      (voteOf .Prepare 1 0)).MessagePool .Prepare = [] ++ [voteOf .Prepare 1 0] ∧
    anteHandle scenarioCollaborators
      { leaderNode fourValidators 1 0 with MaxMempoolBytes := 7 } (voteOf .Prepare 1 0) =
        .ok (tempIndexHotstuffMessage
          { leaderNode fourValidators 1 0 with MaxMempoolBytes := 7 } (voteOf .Prepare 1 0)) ∧
    tempIndexHotstuffMessage { leaderNode fourValidators 1 0 with MaxMempoolBytes := 7 }
      (voteOf .Prepare 1 0) = { leaderNode fourValidators 1 0 with MaxMempoolBytes := 7 } :=
  ⟨(tempIndexHotstuffMessage_admission scenarioCollaborators (leaderNode fourValidators 1 0)
      (voteOf .Prepare 1 0)).2.1.2 (by decide),
   (tempIndexHotstuffMessage_admission scenarioCollaborators
      { leaderNode fourValidators 1 0 with MaxMempoolBytes := 7 }
      (voteOf .Prepare 1 0)).2.2.2.2 rfl rfl,
   (tempIndexHotstuffMessage_admission scenarioCollaborators
      { leaderNode fourValidators 1 0 with MaxMempoolBytes := 7 }
      (voteOf .Prepare 1 0)).2.2.2.1 (by decide)⟩

/-- C27, witness: the leader of the scenarios at height 1, whose utility layer returns the
transaction `[1, 2, 3]` and the application hash `ab cd`. -/
theorem prepareAndApplyBlock_result_witness :
    ∃ header, (prepareAndApplyBlock scenarioCollaborators (leaderNode fourValidators 1 0)).1 =
        .ok { BlockHeader := some header, Transactions := [[1, 2, 3]] } ∧
      ((leaderNode fourValidators 1 0).Height < 2 ^ 63 →
        header.Height = ((leaderNode fourValidators 1 0).Height : Int)) ∧
      header.Hash = hexEncodeToString [171, 205] ∧
      header.Hash.length = 2 * [171, 205].length ∧
      (∀ c ∈ header.Hash.toList, c ∈ "0123456789abcdef".toList) ∧
      header.NumTxs = [[1, 2, 3]].length % 2 ^ 32 ∧
      header.LastBlockHash = (leaderNode fourValidators 1 0).lastAppHash ∧
      header.ProposerAddress =
        scenarioCollaborators.Address (leaderNode fourValidators 1 0).privateKey :=
  ((prepareAndApplyBlock_result scenarioCollaborators (leaderNode fourValidators 1 0)).2
    rfl).2.2.2 [[1, 2, 3]] [171, 205] rfl rfl


/-! ## SetParam on a column name -/

theorem paramIndex_fold_present (paramName : String) (l : List String) (k index i : Nat)
    (hnd : l.Nodup) (hi : l[i]? = some paramName) :
    (l.enumFrom k).foldl (fun index p => if p.2 = paramName then p.1 else index) index =
      k + i := by
  induction l generalizing k index i with
  | nil => simp at hi
  | cons x t ih =>
    obtain ⟨hx, ht⟩ := List.nodup_cons.1 hnd
    rw [List.enumFrom_cons, List.foldl_cons]
    cases i with
    | zero =>
      simp only [List.getElem?_cons_zero, Option.some.injEq] at hi
      rw [if_pos hi, paramIndex_fold_absent paramName t _ _ (hi ▸ hx)]
      rfl
    | succ j =>
      simp only [List.getElem?_cons_succ] at hi
      have hmem : paramName ∈ t := List.getElem?_mem hi
      have hne : x ≠ paramName := fun e => hx (e ▸ hmem)
      rw [if_neg hne, ih (k + 1) index j ht hi]
      omega

theorem SQLColumnNames_nodup : SQLColumnNames.Nodup := by decide

theorem setParamNames_column (paramName v : String) (paramValue : ParamValue) (i : Nat)
    (hi : SQLColumnNames[i]? = some paramName)
    (hv : formatParamValue paramValue = some v) :
    setParamNames paramName paramValue = some (SQLColumnNames.set i v) ∧
    selectList (SQLColumnNames.set i v) = (SQLColumnNames.set i v).dropLast ++ ["-1"] := by
  constructor
  · unfold setParamNames
    simp only [hv, GetParamNames, paramIndex]
    rw [List.enum, paramIndex_fold_present paramName SQLColumnNames 0 0 i SQLColumnNames_nodup hi,
      Nat.zero_add]
  · exact selectList_eq _ (by
      intro h
      have := congrArg List.length h
      simp [SQLColumnNames] at this)

end Pocket
